import Mathlib

/-!
# ForgeEngine: the village simulation

A shallow embedding of `MultiVillageSystem.h`, `TechnologySystem.h`,
`EnvironmentalSystem.h` and `AdvancedTradeSystem.h` in `src/GameSystems`, and
of the story arcs of `src/AI/StorytellingSystem.h`.

Conventions of the embedding.

* `float` values are exact rationals (`ℚ`); the literals `0.1f`, `0.7f`,
  `0.001f` are `1/10`, `7/10`, `1/1000`.  Rounding is not modelled.
* `std::sqrt` is a parameter `sqrt : ℚ → ℚ` of every function that reaches it,
  and `std::sin` a parameter `sin : ℚ → ℚ`.
* `size_t population` is a `Fin (2^64)` and its `+=` wraps at `2^64`; the
  conversion of a `float` `x` to `size_t` is the floor for `0 <= x < 2^64` and,
  being undefined outside that range, is taken as 0 there.  `std::ceil` is the
  ceiling.
* A read `v[i]` that the program can make with `i` past the end of `v` is a
  fault, the result `none`.
* `std::rand() / RAND_MAX` is a parameter `rng : Nat → ℚ`, the draws of one
  call of `update` in the order in which they are made.
* `std::unordered_map` is an association list with `operator[]` inserting a
  value-initialised entry when the key is absent.  A lookup through a
  `const Village&` reads the value-initialised entry without inserting.
* `Village*` / `Village&` into `m_villages` is an index into the list.
* `m_storySystem->addEvent(e)` appends `e` to the list `pushed`; the loops
  return the events they hand over, in order.
* A `shared_ptr` member that may be null is an `Option`; a function that
  dereferences it returns `none` where the program faults.
* A task handed to the thread pool runs at the call that enqueues it.
* The environmental system that the market and the coordinator point to is an
  argument of the functions that read it.
-/

namespace Forge

/-! ## Data model -/

/-- The resource kinds of `EconomicSystem.h`. -/
inductive ResourceType where
  | Food | Wood | Stone | Metal | Cloth | Tools
  deriving DecidableEq, Repr

/-- The record `Village::Relations`. -/
structure Relations where
  trust : ℚ
  trade : ℚ
  diplomacy : ℚ
  deriving DecidableEq, Repr

/-- The struct `Village`. -/
structure Village where
  id : String
  name : String
  position : ℚ × ℚ
  population : Fin (2 ^ 64)
  resources : List (ResourceType × ℚ)
  technologies : List String
  prosperity : ℚ
  influence : ℚ
  villageRelations : List (String × Relations)
  deriving DecidableEq, Repr

/-- The struct `TradeRoute`. -/
structure TradeRoute where
  sourceVillageId : String
  targetVillageId : String
  tradedResources : List ResourceType
  distance : ℚ
  safety : ℚ
  active : Bool
  deriving DecidableEq, Repr

/-- The enum `DiplomaticAgreement::Type`. -/
inductive AgreementType where
  | Alliance | Trade | Defense | Cultural
  deriving DecidableEq, Repr

/-- The struct `DiplomaticAgreement`. -/
structure DiplomaticAgreement where
  type : AgreementType
  village1Id : String
  village2Id : String
  terms : List String
  duration : ℚ
  active : Bool
  deriving DecidableEq, Repr

/-- The enum `StoryEvent::Type` of `StorytellingSystem.h`. -/
inductive StoryEventType where
  | Personal | Social | Environmental | Economic | Political | Technological | Cultural
  deriving DecidableEq, Repr

/-- The struct `StoryEvent` of `StorytellingSystem.h`. -/
structure StoryEvent where
  type : StoryEventType
  title : String
  description : String
  importance : ℚ
  tension : ℚ
  involvedNPCs : List String
  consequences : List String
  requiresResolution : Bool
  deriving DecidableEq, Repr

/-- The mutable members of `MultiVillageSystem`, the function-static `counter`
of `generateUniqueId`, and the events handed to the storytelling tracker. -/
structure MultiVillageSystem where
  m_villages : List Village
  m_tradeRoutes : List TradeRoute
  m_diplomaticAgreements : List DiplomaticAgreement
  pushed : List StoryEvent
  counter : Nat
  deriving DecidableEq, Repr

/-- Modelled from the spec: `StorytellingSystem::addEvent` is called by the
coordinator but not defined in `StorytellingSystem.h`; the spec gives it as a
one-way push of a `StoryEvent` whose result is never read back, recorded here
as an append to the events pushed so far. -/
def addEvent (pushed : List StoryEvent) (event : StoryEvent) : List StoryEvent :=
  pushed ++ [event]

/-! ## Containers -/

/-- Read of an `unordered_map` entry, the value-initialised `d` when absent. -/
def mapGet {K V : Type} [DecidableEq K] (m : List (K × V)) (k : K) (d : V) : V :=
  match m with
  | [] => d
  | (k', v) :: rest => if k' = k then v else mapGet rest k d

/-- The update `m[k] = f(m[k])`, where `operator[]` first inserts `d` when `k` is absent. -/
def mapModify {K V : Type} [DecidableEq K] (m : List (K × V)) (k : K) (d : V) (f : V → V) :
    List (K × V) :=
  match m with
  | [] => [(k, f d)]
  | (k', v) :: rest => if k' = k then (k', f v) :: rest else (k', v) :: mapModify rest k d f

/-- The keys of an `unordered_map`. -/
def mapKeys {K V : Type} (m : List (K × V)) : List K := m.map Prod.fst

/-- Write through a reference to the element at index `i` of a vector. -/
def updateAt {α : Type} (xs : List α) (i : Nat) (f : α → α) : List α :=
  match xs, i with
  | [], _ => []
  | x :: rest, 0 => f x :: rest
  | x :: rest, i + 1 => x :: updateAt rest i f

/-- The function `std::clamp(v, lo, hi)`. -/
def clamp (v lo hi : ℚ) : ℚ := if v < lo then lo else if hi < v then hi else v

/-- The zero record that `operator[]` inserts into `villageRelations`. -/
def Relations.zero : Relations := ⟨0, 0, 0⟩

/-- The stock `village.resources[type]`, zero when there is no entry. -/
def Village.stock (v : Village) (r : ResourceType) : ℚ := mapGet v.resources r 0

/-- The record `village.villageRelations[id]`, the zero record when there is no entry. -/
def Village.relation (v : Village) (id : String) : Relations :=
  mapGet v.villageRelations id Relations.zero

/-! ## Lookups and scores -/

/-- The lookup `findVillage`: the index of the first village with this id. -/
def findVillage : List Village → String → Option Nat
  | [], _ => none
  | v :: rest, id => if v.id = id then some 0 else (findVillage rest id).map (· + 1)

/-- The function `getResourceValue`. -/
def getResourceValue : ResourceType → ℚ
  | .Food => 1
  | .Wood => 2
  | .Stone => 3
  | .Metal => 5
  | .Tools => 8
  | _ => 1

/-- The function `calculateDistance`. -/
def calculateDistance (sqrt : ℚ → ℚ) (v1 v2 : Village) : ℚ :=
  let dx := v1.position.1 - v2.position.1
  let dy := v1.position.2 - v2.position.2
  sqrt (dx * dx + dy * dy)

/-- The function `calculateRouteSafety`; `stormy` is
`climate.currentWeather == Climate::WeatherType::Stormy`. -/
def calculateRouteSafety (sqrt : ℚ → ℚ) (stormy : Bool) (v1 v2 : Village) : ℚ :=
  let distance := calculateDistance sqrt v1 v2
  let baseSafety := 1 - distance / 1000
  let baseSafety := if stormy then baseSafety * (7 / 10) else baseSafety
  clamp baseSafety (1 / 10) 1

/-- The function `calculateGrowthRate`. -/
def calculateGrowthRate (village : Village) : ℚ :=
  let baseRate : ℚ := 1 / 10
  let foodFactor := village.stock .Food / village.population
  let toolsFactor := village.stock .Tools / village.population
  baseRate * foodFactor * toolsFactor

/-- The function `calculateResourceProduction`. -/
def calculateResourceProduction (sqrt : ℚ → ℚ) (village : Village) (_type : ResourceType) : ℚ :=
  let baseProduction : ℚ := 10
  let populationFactor := sqrt ((village.population : ℚ) / 100)
  let techFactor : ℚ := 1 + village.technologies.length * (1 / 10)
  baseProduction * populationFactor * techFactor

/-- The function `calculateResourceConsumption`. -/
def calculateResourceConsumption (village : Village) (_type : ResourceType) : ℚ :=
  1 * (village.population : ℚ)

/-- The function `calculateResourceScore`. -/
def calculateResourceScore (village : Village) : ℚ :=
  let totalValue := village.resources.foldl (fun acc e => acc + e.2 * getResourceValue e.1) 0
  min 1 (totalValue / 10000)

/-- The function `calculateTechnologyScore`. -/
def calculateTechnologyScore (village : Village) : ℚ :=
  min 1 ((village.technologies.length : ℚ) * (1 / 10))

/-- The function `calculateRelationsFactor`; `n` is `m_villages.size()`. -/
def calculateRelationsFactor (n : Nat) (village : Village) : ℚ :=
  let totalTrust := village.villageRelations.foldl (fun acc e => acc + e.2.trust) 0
  clamp (totalTrust / n) 0 1

/-- The function `calculateTradeFactor`. -/
def calculateTradeFactor (village : Village) : ℚ :=
  let totalTrade := village.villageRelations.foldl (fun acc e => acc + e.2.trade) 0
  min 1 (totalTrade / 1000)

/-- The function `calculateTradeVolume`. -/
def calculateTradeVolume (route : TradeRoute) : ℚ :=
  let baseVolume : ℚ := 10
  let distanceFactor := 1 - route.distance / 1000
  let safetyFactor := route.safety
  baseVolume * distanceFactor * safetyFactor

/-- The function `calculateTechSpreadChance`. -/
def calculateTechSpreadChance (sqrt : ℚ → ℚ) (source target : Village) : ℚ :=
  let distance := calculateDistance sqrt source target
  let relationsFactor := (source.relation target.id).trust
  let tradeFactor := (source.relation target.id).trade / 1000
  clamp ((relationsFactor + tradeFactor) * (1 - distance / 1000)) 0 1 * (1 / 10)

/-! ## The per-village step -/

/-- The conversion `static_cast<size_t>(x)` of a `float` to the 64-bit `size_t`:
the truncation toward zero of `x` when `0 <= x < 2^64`.  Outside that range the
conversion is undefined; it yields 0 here. -/
def sizeCast (x : ℚ) : Nat := if 0 ≤ x ∧ x < 2 ^ 64 then ⌊x⌋.toNat else 0

/-- The addition `a += b` on the 64-bit `size_t`, which wraps at `2^64`. -/
def sizeAdd (a : Fin (2 ^ 64)) (b : Nat) : Fin (2 ^ 64) :=
  ⟨(a.val + b) % 2 ^ 64, Nat.mod_lt _ (by norm_num)⟩

/-- The function `updatePopulation`.  Division by a population of 0 is outside
the embedding. -/
def updatePopulation (village : Village) (deltaTime : ℚ) : Village :=
  let growthRate := calculateGrowthRate village
  { village with population := sizeAdd village.population (sizeCast (growthRate * deltaTime)) }

/-- The function `updateResources`. -/
def updateResources (sqrt : ℚ → ℚ) (village : Village) (deltaTime : ℚ) : Village :=
  { village with
    resources := village.resources.map (fun e =>
      let production := calculateResourceProduction sqrt village e.1
      let consumption := calculateResourceConsumption village e.1
      (e.1, max 0 (e.2 + (production - consumption) * deltaTime))) }

/-- The function `updateProsperity`. -/
def updateProsperity (village : Village) : Village :=
  let resourceScore := calculateResourceScore village
  let populationScore : ℚ := (village.population : ℚ) / 1000
  let techScore := calculateTechnologyScore village
  { village with prosperity := (resourceScore + populationScore + techScore) / 3 }

/-- The function `updateInfluence`. -/
def updateInfluence (n : Nat) (village : Village) : Village :=
  let prosperityFactor := village.prosperity
  let relationsFactor := calculateRelationsFactor n village
  let tradeFactor := calculateTradeFactor village
  { village with influence := (prosperityFactor + relationsFactor + tradeFactor) / 3 }

/-- The function `updateVillage`. -/
def updateVillage (sqrt : ℚ → ℚ) (n : Nat) (village : Village) (deltaTime : ℚ) : Village :=
  updateInfluence n (updateProsperity (updateResources sqrt (updatePopulation village deltaTime) deltaTime))

/-! ## Trade routes -/

/-- The access `village.villageRelations[id]` followed by an update of the record. -/
def Village.modifyRelation (v : Village) (id : String) (f : Relations → Relations) : Village :=
  { v with villageRelations := mapModify v.villageRelations id Relations.zero f }

/-- The access `village.resources[type]` followed by an update of the quantity. -/
def Village.modifyStock (v : Village) (r : ResourceType) (f : ℚ → ℚ) : Village :=
  { v with resources := mapModify v.resources r 0 f }

/-- The function `updateTradeRelations`, on the villages at indices `i1` and `i2`
whose ids are `id1` and `id2`. -/
def updateTradeRelations (vs : List Village) (i1 i2 : Nat) (id1 id2 : String) (tradeAmount : ℚ) :
    List Village :=
  let trustIncrease := tradeAmount * (1 / 1000)
  let vs := updateAt vs i1 (fun v => v.modifyRelation id2 (fun r => { r with trust := r.trust + trustIncrease }))
  let vs := updateAt vs i2 (fun v => v.modifyRelation id1 (fun r => { r with trust := r.trust + trustIncrease }))
  let vs := updateAt vs i1 (fun v => v.modifyRelation id2 (fun r => { r with trade := r.trade + tradeAmount }))
  updateAt vs i2 (fun v => v.modifyRelation id1 (fun r => { r with trade := r.trade + tradeAmount }))

/-- The body of the loop of `processTradeRoute` for one traded resource; `si` and
`ti` are the indices of `source` and `target`.  The test
`source.resources[resource] >= amount` inserts a zero entry when there is none. -/
def tradeResource (tradeVolume deltaTime : ℚ) (si ti : Nat) (vs : List Village)
    (resource : ResourceType) : List Village :=
  let amount := tradeVolume * deltaTime
  let vs := updateAt vs si (fun v => v.modifyStock resource id)
  match vs[si]?, vs[ti]? with
  | some source, some target =>
    if source.stock resource ≥ amount then
      let vs := updateAt vs si (fun v => v.modifyStock resource (fun q => q - amount))
      let vs := updateAt vs ti (fun v => v.modifyStock resource (fun q => q + amount))
      updateTradeRelations vs si ti source.id target.id amount
    else vs
  | _, _ => vs

/-- The function `processTradeRoute`. -/
def processTradeRoute (route : TradeRoute) (si ti : Nat) (vs : List Village) (deltaTime : ℚ) :
    List Village :=
  let tradeVolume := calculateTradeVolume route
  route.tradedResources.foldl (tradeResource tradeVolume deltaTime si ti) vs

/-- The function `updateTradeRoutes`. -/
def updateTradeRoutes (routes : List TradeRoute) (vs : List Village) (deltaTime : ℚ) :
    List Village :=
  routes.foldl (fun vs route =>
    if route.active then
      match findVillage vs route.sourceVillageId, findVillage vs route.targetVillageId with
      | some si, some ti => processTradeRoute route si ti vs deltaTime
      | _, _ => vs
    else vs) vs

/-! ## Diplomacy -/

/-- The function `handleExpiredAgreement`: the deactivated agreement and the
event handed to `addEvent`. -/
def handleExpiredAgreement (agreement : DiplomaticAgreement) : DiplomaticAgreement × StoryEvent :=
  ({ agreement with active := false },
   { type := .Political
     title := "Diplomatic Agreement Expired"
     description := "The agreement between " ++ agreement.village1Id ++ " and " ++
       agreement.village2Id ++ " has expired"
     importance := 1 / 2
     tension := 3 / 10
     involvedNPCs := [agreement.village1Id, agreement.village2Id]
     consequences := ["Diplomatic relations may change"]
     requiresResolution := false })

/-- The function `updateDiplomacy`: the agreements after the loop and the events
pushed by it, in order. -/
def updateDiplomacy : List DiplomaticAgreement → ℚ → List DiplomaticAgreement × List StoryEvent
  | [], _ => ([], [])
  | agreement :: rest, deltaTime =>
    let r := updateDiplomacy rest deltaTime
    if agreement.active then
      let aged := { agreement with duration := agreement.duration - deltaTime }
      if aged.duration ≤ 0 then
        let h := handleExpiredAgreement aged
        (h.1 :: r.1, h.2 :: r.2)
      else (aged :: r.1, r.2)
    else (agreement :: r.1, r.2)

/-! ## Technology diffusion -/

/-- The state threaded through the diffusion loops: the villages, the events
pushed so far, and the number of random draws made so far. -/
structure Diffusion where
  villages : List Village
  pushed : List StoryEvent
  drawn : Nat

/-- The function `generateTechnologySpreadEvent`: the event handed to `addEvent`. -/
def generateTechnologySpreadEvent (source target : Village) (tech : String) : StoryEvent :=
  { type := .Technological
    title := "Technology Spreads"
    description := target.name ++ " learns " ++ tech ++ " from " ++ source.name
    importance := 3 / 5
    tension := 1 / 5
    involvedNPCs := [source.id, target.id]
    consequences := ["Improved relations", "Economic growth"]
    requiresResolution := false }

/-- The body of the loop of `spreadTechnology` for the target at index `j`; the
source is the village at index `i`. -/
def spreadTo (sqrt : ℚ → ℚ) (rng : Nat → ℚ) (i : Nat) (tech : String) (deltaTime : ℚ)
    (d : Diffusion) (j : Nat) : Diffusion :=
  if j = i then d
  else
    match d.villages[i]?, d.villages[j]? with
    | some source, some target =>
      if tech ∈ target.technologies then d
      else
        let spreadChance := calculateTechSpreadChance sqrt source target
        if rng d.drawn < spreadChance * deltaTime then
          { villages := updateAt d.villages j (fun v => { v with technologies := v.technologies ++ [tech] })
            pushed := addEvent d.pushed (generateTechnologySpreadEvent source target tech)
            drawn := d.drawn + 1 }
        else { d with drawn := d.drawn + 1 }
    | _, _ => d

/-- The function `spreadTechnology` with the source at index `i`. -/
def spreadTechnology (sqrt : ℚ → ℚ) (rng : Nat → ℚ) (i : Nat) (deltaTime : ℚ)
    (d : Diffusion) (tech : String) : Diffusion :=
  (List.range d.villages.length).foldl (spreadTo sqrt rng i tech deltaTime) d

/-- The body of the outer loop of `updateTechnologyDiffusion` for the village at index `i`. -/
def diffuseFrom (sqrt : ℚ → ℚ) (rng : Nat → ℚ) (deltaTime : ℚ) (d : Diffusion) (i : Nat) :
    Diffusion :=
  match d.villages[i]? with
  | some village => village.technologies.foldl (spreadTechnology sqrt rng i deltaTime) d
  | none => d

/-- The function `updateTechnologyDiffusion`. -/
def updateTechnologyDiffusion (sqrt : ℚ → ℚ) (rng : Nat → ℚ) (vs : List Village) (deltaTime : ℚ) :
    Diffusion :=
  (List.range vs.length).foldl (diffuseFrom sqrt rng deltaTime) ⟨vs, [], 0⟩

/-! ## The public operations -/

/-- The function `update`; the three event generators called by
`generateEvents` have empty bodies. -/
def update (sqrt : ℚ → ℚ) (rng : Nat → ℚ) (s : MultiVillageSystem) (deltaTime : ℚ) :
    MultiVillageSystem :=
  let n := s.m_villages.length
  let vs := s.m_villages.map (fun v => updateVillage sqrt n v deltaTime)
  let vs := updateTradeRoutes s.m_tradeRoutes vs deltaTime
  let dip := updateDiplomacy s.m_diplomaticAgreements deltaTime
  let dif := updateTechnologyDiffusion sqrt rng vs deltaTime
  { s with
    m_villages := dif.villages
    m_diplomaticAgreements := dip.1
    pushed := (dip.2 ++ dif.pushed).foldl addEvent s.pushed }

/-- A sequence of calls of `update`, each with its time step and its random draws. -/
def runUpdates (sqrt : ℚ → ℚ) (s : MultiVillageSystem) : List (ℚ × (Nat → ℚ)) → MultiVillageSystem
  | [] => s
  | tick :: rest => runUpdates sqrt (update sqrt tick.2 s tick.1) rest

/-- The function `generateUniqueId`: the id and the incremented counter. -/
def generateUniqueId (counter : Nat) : String × Nat :=
  ("village_" ++ toString (counter + 1), counter + 1)

/-- The function `initializeVillageResources`. -/
def initializeVillageResources (village : Village) : Village :=
  let village := village.modifyStock .Food (fun _ => 1000)
  let village := village.modifyStock .Wood (fun _ => 500)
  let village := village.modifyStock .Stone (fun _ => 300)
  let village := village.modifyStock .Metal (fun _ => 100)
  village.modifyStock .Tools (fun _ => 50)

/-- The function `addVillage`. -/
def addVillage (s : MultiVillageSystem) (name : String) (position : ℚ × ℚ) : MultiVillageSystem :=
  let g := generateUniqueId s.counter
  let village : Village :=
    { id := g.1, name := name, position := position, population := 100
      resources := [], technologies := [], prosperity := 1 / 2, influence := 0
      villageRelations := [] }
  { s with m_villages := s.m_villages ++ [initializeVillageResources village], counter := g.2 }

/-- The function `createTradeRoute`: the returned flag and the system after the call. -/
def createTradeRoute (sqrt : ℚ → ℚ) (stormy : Bool) (s : MultiVillageSystem)
    (source target : String) : Bool × MultiVillageSystem :=
  match findVillage s.m_villages source, findVillage s.m_villages target with
  | some si, some ti =>
    match s.m_villages[si]?, s.m_villages[ti]? with
    | some sourceVillage, some targetVillage =>
      let route : TradeRoute :=
        { sourceVillageId := source
          targetVillageId := target
          tradedResources := []
          distance := calculateDistance sqrt sourceVillage targetVillage
          safety := calculateRouteSafety sqrt stormy sourceVillage targetVillage
          active := true }
      (true, { s with m_tradeRoutes := s.m_tradeRoutes ++ [route] })
    | _, _ => (false, s)
  | _, _ => (false, s)

/-- The function `createDiplomaticAgreement`: the returned flag and the system after the call. -/
def createDiplomaticAgreement (s : MultiVillageSystem) (village1 village2 : String)
    (type : AgreementType) : Bool × MultiVillageSystem :=
  match findVillage s.m_villages village1, findVillage s.m_villages village2 with
  | some _, some _ =>
    let agreement : DiplomaticAgreement :=
      { type := type, village1Id := village1, village2Id := village2, terms := []
        duration := 30, active := true }
    (true, { s with m_diplomaticAgreements := s.m_diplomaticAgreements ++ [agreement] })
  | _, _ => (false, s)

/-- Newton iteration for the integer square root of `n` from the guess `x`. -/
def isqrtIter : Nat → Nat → Nat → Nat
  | 0, _, x => x
  | fuel + 1, n, x =>
    let y := (x + n / x) / 2
    if y < x then isqrtIter fuel n y else x

/-- The integer square root. -/
def isqrt (n : Nat) : Nat := if n ≤ 1 then n else isqrtIter n n n

/-- A square root that is exact on squares of rationals, for evaluating the
model at concrete inputs. -/
def sqrtQ (q : ℚ) : ℚ := (isqrt q.num.toNat : ℚ) / (isqrt q.den : ℚ)

/-! ## Concrete systems -/

/-- A system with no village, route or agreement, before the constructor adds any. -/
def emptySystem : MultiVillageSystem := ⟨[], [], [], [], 0⟩

/-- Two villages added with `addVillage` at `(0,0)` and `(2000,0)`. -/
def farPair : MultiVillageSystem :=
  addVillage (addVillage emptySystem "A" (0, 0)) "B" (2000, 0)

/-- The route that `createTradeRoute` makes between the villages of `farPair`
in clear weather, carrying `Tools`. -/
def farRoute : TradeRoute :=
  { sourceVillageId := "village_1", targetVillageId := "village_2"
    tradedResources := [.Tools], distance := 2000, safety := 1 / 10, active := true }

/-- The villages of `farPair` joined by `farRoute`. -/
def farSystem : MultiVillageSystem := { farPair with m_tradeRoutes := [farRoute] }

/-- One village added with `addVillage`. -/
def oneVillage : MultiVillageSystem := addVillage emptySystem "A" (0, 0)

/-- What a tick with no elapsed time keeps of a village. -/
def Village.view (v : Village) :
    String × (ℚ × ℚ) × Fin (2 ^ 64) × List String × (ResourceType → ℚ) × (String → Relations) :=
  (v.id, v.position, v.population, v.technologies, v.stock, v.relation)

/-- Two villages added with `addVillage` at `(0,0)` and `(500,0)`. -/
def nearPair : MultiVillageSystem :=
  addVillage (addVillage emptySystem "A" (0, 0)) "B" (500, 0)

/-- The route that `createTradeRoute` makes between the villages of `nearPair`
in clear weather, carrying `Food`. -/
def nearRoute : TradeRoute :=
  { sourceVillageId := "village_1", targetVillageId := "village_2"
    tradedResources := [.Food], distance := 500, safety := 1 / 2, active := true }

/-- The villages of `nearPair` joined by `nearRoute`. -/
def nearSystem : MultiVillageSystem := { nearPair with m_tradeRoutes := [nearRoute] }

/-- The stock of resource `r` held by the village at index `i`. -/
def stockAt (vs : List Village) (i : Nat) (r : ResourceType) : ℚ :=
  match vs[i]? with
  | some v => v.stock r
  | none => 0

/-- The events of type `Political` among the events pushed to the tracker. -/
def politicalEvents (events : List StoryEvent) : List StoryEvent :=
  events.filter (fun e => e.type = StoryEventType.Political)

/-- The number of agreements whose `active` flag is set. -/
def activeCount (agreements : List DiplomaticAgreement) : Nat :=
  agreements.countP (fun g => g.active)

/-- The villages of `nearPair` with one expired alliance between them. -/
def expiredSystem : MultiVillageSystem :=
  { nearPair with m_diplomaticAgreements := [⟨.Alliance, "village_1", "village_2", [], 0, false⟩] }

/-- Thirty ticks of length 1 whose draws are all 0. -/
def thirtyTicks : List (ℚ × (Nat → ℚ)) := List.replicate 30 (1, fun _ => 0)

/-- What the spread chance reads of a village: its id, position and relation map. -/
def Village.frame (v : Village) : String × (ℚ × ℚ) × List (String × Relations) :=
  (v.id, v.position, v.villageRelations)

/-- The relation record of `v` for `id` has trust 0 and trade 0, or does not exist. -/
def relationIsZero (v : Village) (id : String) : Prop :=
  (v.relation id).trust = 0 ∧ (v.relation id).trade = 0

/-- No active route that carries a resource joins the ids `a` and `b`, in either direction. -/
def quietBetween (s : MultiVillageSystem) (a b : String) : Prop :=
  ∀ r ∈ s.m_tradeRoutes, r.active = true → r.tradedResources ≠ [] →
    ¬ (r.sourceVillageId = a ∧ r.targetVillageId = b) ∧
    ¬ (r.sourceVillageId = b ∧ r.targetVillageId = a)

/-- No active route that carries a resource starts or ends at the id `b`. -/
def quietAt (s : MultiVillageSystem) (b : String) : Prop :=
  ∀ r ∈ s.m_tradeRoutes, r.active = true → r.tradedResources ≠ [] →
    r.sourceVillageId ≠ b ∧ r.targetVillageId ≠ b

/-- Scenario 5: the villages of `nearPair`, the first knowing `WaterMill`, with
no relation record, route or agreement. -/
def millSystem : MultiVillageSystem :=
  { nearPair with
    m_villages := updateAt nearPair.m_villages 0 (fun v => { v with technologies := ["WaterMill"] }) }

/-- Fifty ticks of length 1 whose draws are all 0. -/
def fiftyTicks : List (ℚ × (Nat → ℚ)) := List.replicate 50 (1, fun _ => 0)

/-- No village holds a negative quantity of any resource. -/
def stocksNonneg (vs : List Village) : Prop :=
  ∀ v ∈ vs, ∀ e ∈ v.resources, 0 ≤ e.2

/-! ## The technology tree (`TechnologySystem.h`) -/

/-- The struct `Technology`. -/
structure Technology where
  name : String
  description : String
  progressPoints : ℚ
  requiredPoints : ℚ
  discovered : Bool
  prerequisites : List String
  resourceRequirements : List (ResourceType × ℚ)
  enabledProfessions : List String
  productivityBonus : ℚ
  deriving DecidableEq, Repr

/-- The struct `ResearchProject`; `targetTechnology` is the index of the
technology the pointer refers to. -/
structure ResearchProject where
  targetTechnology : Nat
  currentFunding : ℚ
  assignedScholars : List String
  progressRate : ℚ
  deriving DecidableEq, Repr

/-- The members of `TechnologySystem`.  `m_economicSystem` is `none` for a null
pointer and otherwise the function `getResourceQuantity` of the economic
system, which `EconomicSystem.h` does not declare. -/
structure TechnologySystem where
  m_economicSystem : Option (ResourceType → ℚ)
  technologies : List Technology
  activeProjects : List ResearchProject

/-- The first technology pushed by `initializeTechnologyTree`. -/
def threeFieldRotation : Technology :=
  { name := "Three-Field Rotation"
    description := "Advanced farming technique that improves crop yield"
    progressPoints := 0, requiredPoints := 100, discovered := false
    prerequisites := []
    resourceRequirements := [(.Food, 50)]
    enabledProfessions := ["Farmer"]
    productivityBonus := 1 / 5 }

/-- The second technology pushed by `initializeTechnologyTree`. -/
def waterMill : Technology :=
  { name := "Water Mill"
    description := "Mechanical power from water flow"
    progressPoints := 0, requiredPoints := 150, discovered := false
    prerequisites := []
    resourceRequirements := [(.Wood, 100), (.Stone, 50)]
    enabledProfessions := ["Miller"]
    productivityBonus := 3 / 10 }

/-- The third technology pushed by `initializeTechnologyTree`. -/
def steelForging : Technology :=
  { name := "Steel Forging"
    description := "Advanced metalworking techniques"
    progressPoints := 0, requiredPoints := 200, discovered := false
    prerequisites := ["Basic Metallurgy"]
    resourceRequirements := [(.Metal, 100), (.Tools, 50)]
    enabledProfessions := ["Blacksmith"]
    productivityBonus := 2 / 5 }

/-- The function `initializeTechnologyTree`. -/
def initializeTechnologyTree : List Technology :=
  [threeFieldRotation, waterMill, steelForging]

/-- The constructor of `TechnologySystem`. -/
def TechnologySystem.construct (economicSystem : Option (ResourceType → ℚ)) : TechnologySystem :=
  { m_economicSystem := economicSystem, technologies := initializeTechnologyTree
    activeProjects := [] }

/-- The function `findTechnology`: the index of the first technology with this name. -/
def findTechnology : List Technology → String → Option Nat
  | [], _ => none
  | tech :: rest, name => if tech.name = name then some 0 else (findTechnology rest name).map (· + 1)

/-- The technology that `findTechnology` points to. -/
def lookupTechnology (technologies : List Technology) (name : String) : Option Technology :=
  match findTechnology technologies name with
  | some i => technologies[i]?
  | none => none

/-- The loop of `calculateBaseProgressRate` over the resource requirements,
from the modifier reached so far; each pass calls `getResourceQuantity` through
`m_economicSystem`, which faults (`none`) on a null pointer. -/
def resourceModifier (economicSystem : Option (ResourceType → ℚ)) :
    List (ResourceType × ℚ) → ℚ → Option ℚ
  | [], modifier => some modifier
  | (resource, amount) :: rest, modifier =>
    match economicSystem with
    | none => none
    | some getResourceQuantity =>
      let available := getResourceQuantity resource
      resourceModifier economicSystem rest (modifier * min 1 (available / amount))

/-- The function `calculateBaseProgressRate`. -/
def calculateBaseProgressRate (economicSystem : Option (ResourceType → ℚ)) (tech : Technology) :
    Option ℚ :=
  let baseRate : ℚ := 1 * (1 / tech.requiredPoints)
  match resourceModifier economicSystem tech.resourceRequirements 1 with
  | some modifier => some (baseRate * modifier)
  | none => none

/-- The loop of `startResearch` over the prerequisites: every one is found and discovered. -/
def prerequisitesDiscovered (technologies : List Technology) (tech : Technology) : Bool :=
  tech.prerequisites.all (fun prereq =>
    match lookupTechnology technologies prereq with
    | some prereqTech => prereqTech.discovered
    | none => false)

/-- The function `startResearch`: `none` when it faults, otherwise the returned
flag and the system after the call.  `funding` is the indeterminate value of
the member `currentFunding`, which the function leaves uninitialised. -/
def TechnologySystem.startResearch (s : TechnologySystem) (funding : ℚ) (techName : String) :
    Option (Bool × TechnologySystem) :=
  match findTechnology s.technologies techName with
  | none => some (false, s)
  | some i =>
    match s.technologies[i]? with
    | none => some (false, s)
    | some tech =>
      if tech.discovered then some (false, s)
      else if !prerequisitesDiscovered s.technologies tech then some (false, s)
      else
        match calculateBaseProgressRate s.m_economicSystem tech with
        | none => none
        | some rate =>
          some (true, { s with activeProjects := s.activeProjects ++
            [{ targetTechnology := i, currentFunding := funding, assignedScholars := []
               progressRate := rate }] })

/-- The loop of `updateResearch` over the resource requirements, from the
progress reached so far. -/
def throttledProgress (economicSystem : Option (ResourceType → ℚ)) :
    List (ResourceType × ℚ) → ℚ → Option ℚ
  | [], progress => some progress
  | (resource, amount) :: rest, progress =>
    match economicSystem with
    | none => none
    | some getResourceQuantity =>
      let available := getResourceQuantity resource
      throttledProgress economicSystem rest
        (if available < amount then progress * (available / amount) else progress)

/-- The function `updateResearch`: the technologies after the call, `none` when
it faults (a null economic system that is called, or a target that does not exist). -/
def updateResearch (economicSystem : Option (ResourceType → ℚ)) (technologies : List Technology)
    (project : ResearchProject) (deltaTime : ℚ) : Option (List Technology) :=
  match technologies[project.targetTechnology]? with
  | none => none
  | some target =>
    match throttledProgress economicSystem target.resourceRequirements
        (project.progressRate * deltaTime) with
    | none => none
    | some progress =>
      some (updateAt technologies project.targetTechnology
        (fun t => { t with progressPoints := t.progressPoints + progress }))

/-- The function `checkBreakthroughs`; `onTechnologyDiscovered` changes nothing. -/
def checkBreakthroughs (technologies : List Technology) : List Technology :=
  technologies.map (fun tech =>
    if !tech.discovered && decide (tech.progressPoints ≥ tech.requiredPoints) then
      { tech with discovered := true }
    else tech)

/-- The loop of `updateTechnology` over the active projects. -/
def updateProjects (economicSystem : Option (ResourceType → ℚ)) :
    List ResearchProject → List Technology → ℚ → Option (List Technology)
  | [], technologies, _ => some technologies
  | project :: rest, technologies, deltaTime =>
    match updateResearch economicSystem technologies project deltaTime with
    | none => none
    | some technologies => updateProjects economicSystem rest technologies deltaTime

/-- The function `updateTechnology`; the task that `updateTechnologyDiffusion`
hands to the thread pool calls `spreadKnowledge`, whose body is empty. -/
def TechnologySystem.updateTechnology (s : TechnologySystem) (deltaTime : ℚ) :
    Option TechnologySystem :=
  match updateProjects s.m_economicSystem s.activeProjects s.technologies deltaTime with
  | none => none
  | some technologies => some { s with technologies := checkBreakthroughs technologies }

/-- A call of one of the two public operations that change a `TechnologySystem`. -/
inductive TechnologyCall where
  | update (deltaTime : ℚ)
  | start (funding : ℚ) (techName : String)

/-- A sequence of calls, `none` as soon as one faults. -/
def TechnologySystem.run (s : TechnologySystem) : List TechnologyCall → Option TechnologySystem
  | [] => some s
  | .update deltaTime :: rest =>
    match s.updateTechnology deltaTime with
    | none => none
    | some s' => s'.run rest
  | .start funding techName :: rest =>
    match s.startResearch funding techName with
    | none => none
    | some r => r.2.run rest

/-- Every research project points to a technology of the system. -/
def TechnologySystem.targetsExist (s : TechnologySystem) : Prop :=
  ∀ p ∈ s.activeProjects, p.targetTechnology < s.technologies.length

/-- Each technology keeps its name, and its `discovered` flag when it is set. -/
def discoveredKept (before after : List Technology) : Prop :=
  List.Forall₂ (fun t t' => t'.name = t.name ∧ (t.discovered = true → t'.discovered = true))
    before after

/-! ## The environment (`EnvironmentalSystem.h`) -/

/-- The enum `Climate::Season`. -/
inductive Season where
  | Spring | Summer | Autumn | Winter
  deriving DecidableEq, Repr

/-- The enum `Climate::WeatherType`. -/
inductive WeatherType where
  | Clear | Rainy | Stormy | Snowy | Drought
  deriving DecidableEq, Repr

/-- The struct `Climate`. -/
structure Climate where
  currentSeason : Season
  currentWeather : WeatherType
  temperature : ℚ
  rainfall : ℚ
  humidity : ℚ
  windSpeed : ℚ
  deriving DecidableEq, Repr

/-- The enum `EnvironmentalEvent::Type`. -/
inductive EnvironmentalEventType where
  | Flood | Drought | Plague | Famine | Storm | Fire | Earthquake
  deriving DecidableEq, Repr

/-- The struct `EnvironmentalEvent`. -/
structure EnvironmentalEvent where
  type : EnvironmentalEventType
  severity : ℚ
  duration : ℚ
  radius : ℚ
  affectedResources : List String
  deriving DecidableEq, Repr

/-- The members `currentClimate` and `activeEvents` of `EnvironmentalSystem`. -/
structure EnvironmentalSystem where
  currentClimate : Climate
  activeEvents : List EnvironmentalEvent
  deriving DecidableEq, Repr

/-- The function `initializeClimate`. -/
def initializeClimate : Climate :=
  { currentSeason := .Spring, currentWeather := .Clear, temperature := 15, rainfall := 0
    humidity := 1 / 2, windSpeed := 10 }

/-- The constructor of `EnvironmentalSystem`. -/
def EnvironmentalSystem.construct : EnvironmentalSystem :=
  { currentClimate := initializeClimate, activeEvents := [] }

/-- The function `getResourceTypeName`. -/
def getResourceTypeName : ResourceType → String
  | .Food => "Food"
  | .Wood => "Wood"
  | .Stone => "Stone"
  | .Metal => "Metal"
  | .Cloth => "Cloth"
  | .Tools => "Tools"

/-- The function `calculateClimateEffect`. -/
def EnvironmentalSystem.calculateClimateEffect (env : EnvironmentalSystem) (type : ResourceType) :
    ℚ :=
  let modifier : ℚ := 1
  let modifier :=
    match type with
    | .Food =>
      if env.currentClimate.temperature < 5 ∨ env.currentClimate.temperature > 35 then
        modifier * (1 / 2)
      else modifier
    | .Wood =>
      if env.currentClimate.currentWeather = .Stormy then modifier * (7 / 10) else modifier
    | _ => modifier
  match env.currentClimate.currentWeather with
  | .Stormy => modifier * (7 / 10)
  | .Drought => if type = .Food then modifier * (3 / 10) else modifier
  | _ => modifier

/-- The loop of `getResourceProductionModifier` over the active events, from the
modifier reached so far. -/
def eventEffects (name : String) (events : List EnvironmentalEvent) (modifier : ℚ) : ℚ :=
  events.foldl (fun modifier event =>
    if name ∈ event.affectedResources then modifier * (1 - event.severity * (1 / 2))
    else modifier) modifier

/-- The function `getResourceProductionModifier`. -/
def EnvironmentalSystem.getResourceProductionModifier (env : EnvironmentalSystem)
    (type : ResourceType) : ℚ :=
  eventEffects (getResourceTypeName type) env.activeEvents (1 * env.calculateClimateEffect type)

/-! ## The market (`AdvancedTradeSystem.h`) -/

/-- The struct `TradeContract`. -/
structure TradeContract where
  resource : ResourceType
  quantity : ℚ
  pricePerUnit : ℚ
  sellerId : String
  buyerId : String
  duration : ℚ
  isRecurring : Bool
  deriving DecidableEq, Repr

/-- The struct `MarketDemand`. -/
structure MarketDemand where
  resource : ResourceType
  basePrice : ℚ
  currentDemand : ℚ
  elasticity : ℚ
  deriving DecidableEq, Repr

/-- The members `marketDemands` and `activeContracts` of `AdvancedTradeSystem`;
the environmental system it points to is an argument of its functions. -/
structure AdvancedTradeSystem where
  marketDemands : List (ResourceType × MarketDemand)
  activeContracts : List TradeContract
  deriving DecidableEq, Repr

/-- The lookup `find` of an `unordered_map`. -/
def mapFind {K V : Type} [DecidableEq K] (m : List (K × V)) (k : K) : Option V :=
  match m with
  | [] => none
  | (k', v) :: rest => if k' = k then some v else mapFind rest k

/-- The function `initializeMarket`. -/
def initializeMarket : List (ResourceType × MarketDemand) :=
  [(.Food, { resource := .Food, basePrice := 10, currentDemand := 1, elasticity := 1 / 2 }),
   (.Wood, { resource := .Wood, basePrice := 5, currentDemand := 1, elasticity := 3 / 10 })]

/-- The constructor of `AdvancedTradeSystem`. -/
def AdvancedTradeSystem.construct : AdvancedTradeSystem :=
  { marketDemands := initializeMarket, activeContracts := [] }

/-- The function `getCurrentPrice`. -/
def getCurrentPrice (env : EnvironmentalSystem) (marketDemands : List (ResourceType × MarketDemand))
    (resource : ResourceType) : ℚ :=
  match mapFind marketDemands resource with
  | some demand =>
    let envModifier := env.getResourceProductionModifier resource
    demand.basePrice * demand.currentDemand * (1 / envModifier)
  | none => 0

/-- The function `createTradeContract`: the returned flag and the system after the call. -/
def AdvancedTradeSystem.createTradeContract (s : AdvancedTradeSystem) (env : EnvironmentalSystem)
    (sellerId buyerId : String) (resource : ResourceType) (quantity duration : ℚ) :
    Bool × AdvancedTradeSystem :=
  let price := getCurrentPrice env s.marketDemands resource
  if price ≤ 0 then (false, s)
  else
    (true, { s with activeContracts := s.activeContracts ++
      [{ resource := resource, quantity := quantity, pricePerUnit := price, sellerId := sellerId
         buyerId := buyerId, duration := duration, isRecurring := false }] })

/-- The function `calculateSeasonalDemand`. -/
def calculateSeasonalDemand (type : ResourceType) (climate : Climate) : ℚ :=
  match type with
  | .Food => if climate.currentSeason = .Winter then 3 / 2 else 1
  | .Wood => if climate.currentSeason = .Winter then 9 / 5 else 4 / 5
  | _ => 1

/-- The function `updateDemands`; the task it hands to the thread pool runs here. -/
def updateDemands (env : EnvironmentalSystem) (marketDemands : List (ResourceType × MarketDemand)) :
    List (ResourceType × MarketDemand) :=
  marketDemands.map (fun e =>
    let envModifier := env.getResourceProductionModifier e.1
    let seasonalDemand := calculateSeasonalDemand e.1 env.currentClimate
    (e.1, { e.2 with
      currentDemand := clamp (e.2.currentDemand * envModifier * seasonalDemand) (1 / 2) 2 }))

/-- The function `processContracts`. -/
def processContracts (env : EnvironmentalSystem) (marketDemands : List (ResourceType × MarketDemand))
    (deltaTime : ℚ) : List TradeContract → List TradeContract
  | [] => []
  | contract :: rest =>
    let aged := { contract with duration := contract.duration - deltaTime }
    if aged.duration ≤ 0 then
      if aged.isRecurring then
        { aged with pricePerUnit := getCurrentPrice env marketDemands aged.resource, duration := 30 }
          :: processContracts env marketDemands deltaTime rest
      else processContracts env marketDemands deltaTime rest
    else aged :: processContracts env marketDemands deltaTime rest

/-- The function `calculateSupplySurplus`. -/
def calculateSupplySurplus (marketDemands : List (ResourceType × MarketDemand))
    (activeContracts : List TradeContract) (type : ResourceType) : ℚ :=
  let totalSupply := activeContracts.foldl (fun total contract =>
    if contract.resource = type then total + contract.quantity else total) 0
  let totalDemand : ℚ :=
    match mapFind marketDemands type with
    | some demand => demand.currentDemand * 100
    | none => 0
  (totalSupply - totalDemand) / totalDemand

/-- The function `updatePrices`.  Its loop writes only `basePrice`, which
`calculateSupplySurplus` does not read, so the surplus is taken on the map as
it is before the loop. -/
def updatePrices (env : EnvironmentalSystem) (marketDemands : List (ResourceType × MarketDemand))
    (activeContracts : List TradeContract) : List (ResourceType × MarketDemand) :=
  marketDemands.map (fun e =>
    let envModifier := env.getResourceProductionModifier e.1
    let supplySurplus := calculateSupplySurplus marketDemands activeContracts e.1
    let basePrice := e.2.basePrice * (1 + (e.2.currentDemand - 1) * e.2.elasticity)
    let basePrice := basePrice * (1 / envModifier)
    let basePrice := basePrice * (1 - supplySurplus * (1 / 10))
    (e.1, { e.2 with basePrice := clamp basePrice 1 100 }))

/-- The function `updateMarket`; `generateTradeOpportunities` changes nothing. -/
def AdvancedTradeSystem.updateMarket (s : AdvancedTradeSystem) (env : EnvironmentalSystem)
    (deltaTime : ℚ) : AdvancedTradeSystem :=
  let demands := updateDemands env s.marketDemands
  let contracts := processContracts env demands deltaTime s.activeContracts
  { marketDemands := updatePrices env demands contracts, activeContracts := contracts }

/-- A call of one of the two public operations that change an `AdvancedTradeSystem`,
with the environment it finds. -/
inductive MarketCall where
  | update (env : EnvironmentalSystem) (deltaTime : ℚ)
  | contract (env : EnvironmentalSystem) (sellerId buyerId : String) (resource : ResourceType)
      (quantity duration : ℚ)

/-- A sequence of calls on the market. -/
def AdvancedTradeSystem.run (s : AdvancedTradeSystem) : List MarketCall → AdvancedTradeSystem
  | [] => s
  | .update env deltaTime :: rest => (s.updateMarket env deltaTime).run rest
  | .contract env sellerId buyerId resource quantity duration :: rest =>
    (s.createTradeContract env sellerId buyerId resource quantity duration).2.run rest

/-- A cold and stormy winter with no active event. -/
def stormyWinter : EnvironmentalSystem :=
  { currentClimate := { initializeClimate with
      currentSeason := .Winter, currentWeather := .Stormy, temperature := 0 }
    activeEvents := [] }

/-! ## The constructed coordinator and the test environment -/

/-- The function `initializeVillages`. -/
def initializeVillages (s : MultiVillageSystem) : MultiVillageSystem :=
  let s := addVillage s "Rivertown" (0, 0)
  let s := addVillage s "Hillcrest" (500, -300)
  addVillage s "Forestkeep" (-400, 200)

/-- The constructor of `MultiVillageSystem`, run when the function-static counter
of `generateUniqueId` stands at `counter`. -/
def MultiVillageSystem.construct (counter : Nat) : MultiVillageSystem :=
  initializeVillages ⟨[], [], [], [], counter⟩

/-- The resource map written by `initializeVillageResources` on a new village. -/
def defaultResources : List (ResourceType × ℚ) :=
  [(.Food, 1000), (.Wood, 500), (.Stone, 300), (.Metal, 100), (.Tools, 50)]

/-- The section `Trade Route Creation` of the tests up to its call of
`createTradeRoute`: two villages added to a newly constructed system. -/
def twoAdded (counter : Nat) (p1 p2 : ℚ × ℚ) : MultiVillageSystem :=
  addVillage (addVillage (MultiVillageSystem.construct counter) "Village1" p1) "Village2" p2

/-- The section `Technology Spread` of the tests before its call of
`createDiplomaticAgreement`: two villages added to a newly constructed system,
the first of them given `WaterMill`. -/
def spreadVillages : MultiVillageSystem :=
  { twoAdded 0 (0, 0) (100, 100) with
    m_villages := updateAt (twoAdded 0 (0, 0) (100, 100)).m_villages 3
      (fun v => { v with technologies := ["WaterMill"] }) }

/-- The struct `TestEnvironment` of the tests: the environmental system and the
coordinator that holds a pointer to it. -/
structure TestEnvironment where
  envSystem : EnvironmentalSystem
  villageSystem : MultiVillageSystem
  deriving DecidableEq, Repr

/-- Modelled from the spec: Scenario 4 sets the weather; the tests do it through
`setWeather`, which `EnvironmentalSystem.h` does not define.  It writes
`currentClimate.currentWeather`. -/
def EnvironmentalSystem.setWeather (env : EnvironmentalSystem) (weather : WeatherType) :
    EnvironmentalSystem :=
  { env with currentClimate := { env.currentClimate with currentWeather := weather } }

/-- The test `currentWeather == Stormy` of `calculateRouteSafety`. -/
def EnvironmentalSystem.isStormy (env : EnvironmentalSystem) : Bool :=
  decide (env.currentClimate.currentWeather = .Stormy)

/-- The call `envSystem->setWeather(weather)`. -/
def TestEnvironment.setWeather (env : TestEnvironment) (weather : WeatherType) : TestEnvironment :=
  { env with envSystem := env.envSystem.setWeather weather }

/-- The call `villageSystem->createTradeRoute(source, target)`; `calculateRouteSafety`
reads the weather through `m_environmentalSystem`. -/
def TestEnvironment.createTradeRoute (sqrt : ℚ → ℚ) (env : TestEnvironment)
    (source target : String) : Bool × TestEnvironment :=
  let r := Forge.createTradeRoute sqrt env.envSystem.isStormy env.villageSystem source target
  (r.1, { env with villageSystem := r.2 })

/-- The call `villageSystem->update(deltaTime)`; no function that `update` calls
reads `m_environmentalSystem`. -/
def TestEnvironment.update (sqrt : ℚ → ℚ) (rng : Nat → ℚ) (env : TestEnvironment)
    (deltaTime : ℚ) : TestEnvironment :=
  { env with villageSystem := Forge.update sqrt rng env.villageSystem deltaTime }

/-- A call of one of the four public operations that change a `MultiVillageSystem`:
`createTradeRoute` with the weather it finds, `update` with the draws it makes. -/
inductive CoordinatorCall where
  | addVillage (name : String) (position : ℚ × ℚ)
  | createTradeRoute (stormy : Bool) (source target : String)
  | createDiplomaticAgreement (village1 village2 : String) (type : AgreementType)
  | update (deltaTime : ℚ) (rng : Nat → ℚ)

/-- A sequence of calls on the coordinator. -/
def MultiVillageSystem.run (sqrt : ℚ → ℚ) (s : MultiVillageSystem) :
    List CoordinatorCall → MultiVillageSystem
  | [] => s
  | .addVillage name position :: rest => (Forge.addVillage s name position).run sqrt rest
  | .createTradeRoute stormy source target :: rest =>
    (Forge.createTradeRoute sqrt stormy s source target).2.run sqrt rest
  | .createDiplomaticAgreement village1 village2 type :: rest =>
    (Forge.createDiplomaticAgreement s village1 village2 type).2.run sqrt rest
  | .update deltaTime rng :: rest => (Forge.update sqrt rng s deltaTime).run sqrt rest

/-- No village has a relation record keyed by its own id. -/
def noSelfRelation (vs : List Village) : Prop :=
  ∀ v ∈ vs, v.id ∉ mapKeys v.villageRelations

/-- No route of the system carries a resource and no village has a relation record. -/
def MultiVillageSystem.untraded (s : MultiVillageSystem) : Prop :=
  (∀ r ∈ s.m_tradeRoutes, r.tradedResources = []) ∧ ∀ v ∈ s.m_villages, v.villageRelations = []

/-- The route that `createTradeRoute` makes from the village of `oneVillage` to
itself, then given `Food` to carry. -/
def selfRouteSystem : MultiVillageSystem :=
  { oneVillage with
    m_tradeRoutes := [{ sourceVillageId := "village_1", targetVillageId := "village_1"
                        tradedResources := [.Food], distance := 0, safety := 1, active := true }] }

/-! ## The throttle of research -/

/-- The throttle that `updateResearch` applies, in closed form: the product, over
the required resources that are short, of `available / amount`. -/
def shortfallProduct (getResourceQuantity : ResourceType → ℚ)
    (requirements : List (ResourceType × ℚ)) : ℚ :=
  (requirements.map (fun e =>
    if getResourceQuantity e.1 < e.2 then getResourceQuantity e.1 / e.2 else 1)).prod

/-- The throttle as the specification words it: `min(1, min_i (v_i / a_i))`, the
smallest availability ratio, capped at 1. -/
def bottleneckThrottle (getResourceQuantity : ResourceType → ℚ)
    (requirements : List (ResourceType × ℚ)) : ℚ :=
  (requirements.map (fun e => getResourceQuantity e.1 / e.2)).foldr min 1

/-- A heat wave in clear weather, with a flood of severity 1/2 active. -/
def hotFlood : EnvironmentalSystem :=
  { currentClimate := { initializeClimate with temperature := 40 }
    activeEvents := [{ type := .Flood, severity := 1 / 2, duration := 10, radius := 20
                       affectedResources := ["Food", "Wood"] }] }

/-! ## Contracts and prices as the specification words them -/

/-- The fields of a contract other than its price and its duration. -/
def TradeContract.terms (c : TradeContract) : ResourceType × ℚ × String × String × Bool :=
  (c.resource, c.quantity, c.sellerId, c.buyerId, c.isRecurring)

/-- The ageing of contracts as the specification words it: every duration is
reduced by `deltaTime`; a contract is kept when it is recurring or its reduced
duration is positive; a kept contract whose reduced duration is not positive is
priced anew and renewed for 30 days. -/
def processContractsSpec (price : ResourceType → ℚ) (deltaTime : ℚ)
    (contracts : List TradeContract) : List TradeContract :=
  (contracts.filter (fun c => c.isRecurring || decide (0 < c.duration - deltaTime))).map (fun c =>
    if c.duration - deltaTime ≤ 0 then { c with pricePerUnit := price c.resource, duration := 30 }
    else { c with duration := c.duration - deltaTime })

/-- The total quantity of the active contracts for a resource. -/
def totalContractSupply (activeContracts : List TradeContract) (type : ResourceType) : ℚ :=
  ((activeContracts.filter (fun c => decide (c.resource = type))).map (fun c => c.quantity)).sum

/-- A village that knows `WaterMill` and has full trust in `village_3`. -/
def Village.millTrustingThird (v : Village) : Village :=
  { v with technologies := ["WaterMill"], villageRelations := [("village_3", ⟨1, 0, 0⟩)] }

/-- Three villages at `(0,0)`, `(100,0)` and `(0,100)`; the first two know
`WaterMill` and trust the third, which knows nothing. -/
def twoSources : MultiVillageSystem :=
  { emptySystem with
    m_villages := updateAt (updateAt
      (addVillage (addVillage (addVillage emptySystem "A" (0, 0)) "B" (100, 0)) "C"
        (0, 100)).m_villages 0 Village.millTrustingThird) 1 Village.millTrustingThird
    counter := 3 }

/-- The conversion of a `float` to an integer type: truncation toward zero. -/
def truncate (x : ℚ) : ℤ := if 0 ≤ x then ⌊x⌋ else ⌈x⌉

/-- No route of the system carries a resource and no village holds a negative
quantity of any resource. -/
def MultiVillageSystem.stocked (s : MultiVillageSystem) : Prop :=
  (∀ r ∈ s.m_tradeRoutes, r.tradedResources = []) ∧ stocksNonneg s.m_villages

/-- Every village has at least 100 inhabitants. -/
def MultiVillageSystem.populated (s : MultiVillageSystem) : Prop :=
  ∀ v ∈ s.m_villages, 100 ≤ v.population

/-- The growth that `update(deltaTime)` adds keeps every population below `2^64`,
within the range of `size_t`. -/
def MultiVillageSystem.growthFits (s : MultiVillageSystem) (deltaTime : ℚ) : Prop :=
  ∀ v ∈ s.m_villages, (v.population : ℚ) + calculateGrowthRate v * deltaTime < 2 ^ 64

/-- Every `update` of the sequence, run from `s`, has a time step that is not
negative and a growth that fits. -/
def MultiVillageSystem.runFits (sqrt : ℚ → ℚ) (s : MultiVillageSystem) :
    List CoordinatorCall → Prop
  | [] => True
  | .addVillage name position :: rest => (Forge.addVillage s name position).runFits sqrt rest
  | .createTradeRoute stormy source target :: rest =>
    (Forge.createTradeRoute sqrt stormy s source target).2.runFits sqrt rest
  | .createDiplomaticAgreement village1 village2 type :: rest =>
    (Forge.createDiplomaticAgreement s village1 village2 type).2.runFits sqrt rest
  | .update deltaTime rng :: rest =>
    0 ≤ deltaTime ∧ s.growthFits deltaTime ∧ (Forge.update sqrt rng s deltaTime).runFits sqrt rest

/-! ## The storytelling tracker (`StorytellingSystem.h`) -/

/-- The struct `StoryArc`. -/
structure StoryArc where
  name : String
  events : List StoryEvent
  progression : ℚ
  isComplete : Bool
  tension : ℚ
  mainCharacters : List String
  deriving DecidableEq, Repr

/-- The struct `StoryPattern`. -/
structure StoryPattern where
  name : String
  eventSequence : List StoryEventType
  validationFunc : StoryEvent → Bool
  minDuration : ℚ
  maxDuration : ℚ

/-- The first pattern pushed by `initializeStoryPatterns`. -/
def romancePattern : StoryPattern :=
  { name := "Romance", eventSequence := [.Personal, .Social, .Cultural]
    validationFunc := fun _ => true, minDuration := 30, maxDuration := 90 }

/-- The second pattern pushed by `initializeStoryPatterns`. -/
def tradeDisputePattern : StoryPattern :=
  { name := "Trade Dispute", eventSequence := [.Economic, .Social, .Political]
    validationFunc := fun _ => true, minDuration := 15, maxDuration := 45 }

/-- The third pattern pushed by `initializeStoryPatterns`. -/
def innovationPattern : StoryPattern :=
  { name := "Innovation", eventSequence := [.Technological, .Economic, .Cultural]
    validationFunc := fun _ => true, minDuration := 60, maxDuration := 180 }

/-- The function `initializeStoryPatterns`. -/
def initializeStoryPatterns : List StoryPattern :=
  [romancePattern, tradeDisputePattern, innovationPattern]

/-- The search `std::find_if` of `calculateArcDuration` and `checkEventTriggers`
for the first pattern with the given name. -/
def findPattern : List StoryPattern → String → Option StoryPattern
  | [], _ => none
  | pattern :: rest, name => if pattern.name = name then some pattern else findPattern rest name

/-- The function `calculateArcDuration`. -/
def calculateArcDuration (storyPatterns : List StoryPattern) (arc : StoryArc) : ℚ :=
  match findPattern storyPatterns arc.name with
  | some pattern => (pattern.minDuration + pattern.maxDuration) * (1 / 2)
  | none => 30

/-- The event built by `generatePatternEvent`. -/
def patternEvent (arc : StoryArc) (nextType : StoryEventType) : StoryEvent :=
  { type := nextType, title := "Generated Event", description := "Description based on context"
    importance := 1 / 2 + arc.tension * (3 / 10), tension := arc.tension
    involvedNPCs := arc.mainCharacters, consequences := [], requiresResolution := true }

/-- The function `generatePatternEvent`: `none` when the index `arc.events.size()`
of `pattern.eventSequence[arc.events.size()]` is out of range. -/
def generatePatternEvent (arc : StoryArc) (pattern : StoryPattern) : Option StoryArc :=
  match pattern.eventSequence[arc.events.length]? with
  | none => none
  | some nextType =>
    if pattern.validationFunc (patternEvent arc nextType) then
      some { arc with events := arc.events ++ [patternEvent arc nextType] }
    else some arc

/-- The function `checkEventTriggers`. -/
def checkEventTriggers (storyPatterns : List StoryPattern) (arc : StoryArc) : Option StoryArc :=
  match findPattern storyPatterns arc.name with
  | some pattern =>
    let expectedEvents := ⌈arc.progression * pattern.eventSequence.length⌉.toNat
    if arc.events.length < expectedEvents then generatePatternEvent arc pattern else some arc
  | none => some arc

/-- The function `updateArcTension`; `sin` is `std::sin`. -/
def updateArcTension (sin : ℚ → ℚ) (arc : StoryArc) : StoryArc :=
  let eventTension : ℚ := arc.events.foldl (fun total event => total + event.tension) 0
  let eventTension := if arc.events.isEmpty then eventTension else eventTension / arc.events.length
  let progressionTension := sin (arc.progression * (314159 / 100000))
  { arc with tension := eventTension * (7 / 10) + progressionTension * (3 / 10) }

/-- The body of the loop of `updateStoryArcs` for one arc. -/
def updateStoryArc (sin : ℚ → ℚ) (storyPatterns : List StoryPattern) (arc : StoryArc)
    (deltaTime : ℚ) : Option StoryArc :=
  let arc := { arc with
    progression := arc.progression + deltaTime / calculateArcDuration storyPatterns arc }
  match checkEventTriggers storyPatterns arc with
  | none => none
  | some arc =>
    let arc := updateArcTension sin arc
    if arc.progression ≥ 1 ∧ arc.events.all (fun e => !e.requiresResolution) = true then
      some { arc with isComplete := true }
    else some arc

/-- The loop of `updateStoryArcs` over the active arcs. -/
def updateEachArc (sin : ℚ → ℚ) (storyPatterns : List StoryPattern) (deltaTime : ℚ) :
    List StoryArc → Option (List StoryArc)
  | [] => some []
  | arc :: rest =>
    match updateStoryArc sin storyPatterns arc deltaTime with
    | none => none
    | some arc =>
      match updateEachArc sin storyPatterns deltaTime rest with
      | none => none
      | some rest => some (arc :: rest)

/-- The function `updateStoryArcs`: the active arcs after the call, `none` when
`generatePatternEvent` reads past the end of an event sequence. -/
def updateStoryArcs (sin : ℚ → ℚ) (storyPatterns : List StoryPattern)
    (activeStoryArcs : List StoryArc) (deltaTime : ℚ) : Option (List StoryArc) :=
  match updateEachArc sin storyPatterns deltaTime activeStoryArcs with
  | none => none
  | some arcs => some (arcs.filter (fun arc => !arc.isComplete))

/-- The function `findPatternForEvent`; every pattern of `initializeStoryPatterns`
has a first element for `eventSequence[0]` to read. -/
def findPatternForEvent : List StoryPattern → StoryEvent → Option StoryPattern
  | [], _ => none
  | pattern :: rest, event =>
    if pattern.eventSequence[0]? = some event.type then some pattern
    else findPatternForEvent rest event

/-- The function `createNewStoryArc`. -/
def createNewStoryArc (storyPatterns : List StoryPattern) (activeStoryArcs : List StoryArc)
    (initialEvent : StoryEvent) : List StoryArc :=
  match findPatternForEvent storyPatterns initialEvent with
  | some pattern =>
    activeStoryArcs ++ [{ name := pattern.name, events := [initialEvent], progression := 0
                          isComplete := false, tension := initialEvent.tension
                          mainCharacters := initialEvent.involvedNPCs }]
  | none => activeStoryArcs

/-- The event that `generateTechnologicalEvents` builds for the technology `Water Mill`. -/
def breakthroughEvent : StoryEvent :=
  { type := .Technological, title := "Technology Breakthrough"
    description := "New discovery: Water Mill", importance := 4 / 5, tension := 3 / 5
    involvedNPCs := [], consequences := ["Improved efficiency", "New opportunities"]
    requiresResolution := false }

/-- The arc that `createNewStoryArc` makes from `breakthroughEvent`. -/
def innovationArc : StoryArc :=
  { name := "Innovation", events := [breakthroughEvent], progression := 0, isComplete := false
    tension := 3 / 5, mainCharacters := [] }

/-! ## Containers: basic facts -/

theorem sizeCast_zero : sizeCast 0 = 0 := by
  simp [sizeCast]

theorem sizeAdd_zero (a : Fin (2 ^ 64)) : sizeAdd a 0 = a := by
  apply Fin.ext
  simp only [sizeAdd, Nat.add_zero]
  exact Nat.mod_eq_of_lt a.isLt

theorem mapGet_mapModify_same {K V : Type} [DecidableEq K] (m : List (K × V)) (k : K) (d : V)
    (f : V → V) : mapGet (mapModify m k d f) k d = f (mapGet m k d) := by
  induction m with
  | nil => simp [mapModify, mapGet]
  | cons e rest ih =>
    obtain ⟨k', v⟩ := e
    by_cases h : k' = k
    · simp [mapModify, mapGet, h]
    · simp [mapModify, mapGet, h, ih]

theorem mapGet_mapModify_ne {K V : Type} [DecidableEq K] (m : List (K × V)) (k k' : K) (d d' : V)
    (f : V → V) (h : k ≠ k') : mapGet (mapModify m k d f) k' d' = mapGet m k' d' := by
  induction m with
  | nil => simp [mapModify, mapGet, h]
  | cons e rest ih =>
    obtain ⟨k0, v⟩ := e
    by_cases h0 : k0 = k
    · subst h0
      simp [mapModify, mapGet, h]
    · simp [mapModify, mapGet, h0, ih]

theorem length_updateAt {α : Type} (xs : List α) (i : Nat) (f : α → α) :
    (updateAt xs i f).length = xs.length := by
  induction xs generalizing i with
  | nil => simp [updateAt]
  | cons x rest ih =>
    cases i with
    | zero => simp [updateAt]
    | succ i => simp [updateAt, ih]

theorem getElem?_updateAt {α : Type} (xs : List α) (i j : Nat) (f : α → α) :
    (updateAt xs i f)[j]? = if j = i then xs[j]?.map f else xs[j]? := by
  induction xs generalizing i j with
  | nil => simp [updateAt]
  | cons x rest ih =>
    cases i with
    | zero =>
      cases j with
      | zero => simp [updateAt]
      | succ j => simp [updateAt]
    | succ i =>
      cases j with
      | zero => simp [updateAt]
      | succ j => simp [updateAt, ih]

/-! ## A route longer than 1000 that carries a resource -/

/-- Where the stocks would turn negative: the route that `createTradeRoute` makes
between villages 2000 apart has distance 2000 and safety 1/10 and carries
nothing; were it given `Tools` to carry, which no public operation arranges,
one `update(1.0)` from non-negative stocks would move one unit from the target
to the source and leave the target village with a `Tools` stock of -1. -/
theorem update_far_route_negative_stock :
    (createTradeRoute sqrtQ false farPair "village_1" "village_2").2.m_tradeRoutes
        = [{ farRoute with tradedResources := [] }] ∧
      (∀ v ∈ farSystem.m_villages, ∀ e ∈ v.resources, 0 ≤ e.2) ∧
      calculateTradeVolume farRoute = -1 ∧
      (update sqrtQ (fun _ => 0) farSystem 1).m_villages.map (fun v => v.stock .Tools) = [1, -1] := by
  decide!

/-! ## Prosperity above 1 (C2) -/

/-- C2: one `update(10000)` of a village fresh from `addVillage` raises its
population to 5100 and sets its prosperity to 17/10, above 1. -/
theorem update_prosperity_above_one :
    (update sqrtQ (fun _ => 0) oneVillage 10000).m_villages.map
        (fun v => (v.population, v.prosperity, v.influence)) = [(5100, 17 / 10, 17 / 30)] := by
  decide!

/-! ## A tick with no elapsed time (C3) -/

theorem foldl_preserves {α β γ : Type} (f : α → β → α) (p : α → γ)
    (h : ∀ a b, p (f a b) = p a) (l : List β) (a : α) : p (l.foldl f a) = p a := by
  induction l generalizing a with
  | nil => rfl
  | cons b rest ih => simp [ih, h]

theorem map_updateAt_of_eq {α γ : Type} (p : α → γ) (f : α → α) (h : ∀ x, p (f x) = p x)
    (xs : List α) (i : Nat) : (updateAt xs i f).map p = xs.map p := by
  induction xs generalizing i with
  | nil => simp [updateAt]
  | cons x rest ih =>
    cases i with
    | zero => simp [updateAt, h]
    | succ i => simp [updateAt, ih]

theorem view_modifyStock (v : Village) (r : ResourceType) (f : ℚ → ℚ)
    (h : f (v.stock r) = v.stock r) : (v.modifyStock r f).view = v.view := by
  have hs : (v.modifyStock r f).stock = v.stock := by
    funext r'
    by_cases hr : r = r'
    · subst hr
      simp [Village.modifyStock, Village.stock, mapGet_mapModify_same] at h ⊢
      exact h
    · simp [Village.modifyStock, Village.stock, mapGet_mapModify_ne _ _ _ _ _ _ hr]
  unfold Village.view
  rw [hs]
  rfl

theorem view_modifyRelation (v : Village) (id : String) (f : Relations → Relations)
    (h : f (v.relation id) = v.relation id) : (v.modifyRelation id f).view = v.view := by
  have hs : (v.modifyRelation id f).relation = v.relation := by
    funext id'
    by_cases hr : id = id'
    · subst hr
      simp [Village.modifyRelation, Village.relation, mapGet_mapModify_same] at h ⊢
      exact h
    · simp [Village.modifyRelation, Village.relation, mapGet_mapModify_ne _ _ _ _ _ _ hr]
  unfold Village.view
  rw [hs]
  rfl

theorem view_updateTradeRelations_zero (vs : List Village) (i1 i2 : Nat) (id1 id2 : String) :
    (updateTradeRelations vs i1 i2 id1 id2 0).map Village.view = vs.map Village.view := by
  unfold updateTradeRelations
  simp only []
  rw [map_updateAt_of_eq, map_updateAt_of_eq, map_updateAt_of_eq, map_updateAt_of_eq]
  all_goals
    intro x
    apply view_modifyRelation
    simp

theorem view_tradeResource_zero (vol : ℚ) (si ti : Nat) (vs : List Village) (r : ResourceType) :
    (tradeResource vol 0 si ti vs r).map Village.view = vs.map Village.view := by
  have h0 : (updateAt vs si (fun v => v.modifyStock r id)).map Village.view = vs.map Village.view :=
    map_updateAt_of_eq _ _ (fun x => view_modifyStock x r id rfl) vs si
  unfold tradeResource
  simp only [mul_zero]
  split
  · split
    · rw [view_updateTradeRelations_zero, map_updateAt_of_eq, map_updateAt_of_eq, h0]
      all_goals
        intro x
        apply view_modifyStock
        simp
    · exact h0
  · exact h0

theorem view_processTradeRoute_zero (route : TradeRoute) (si ti : Nat) (vs : List Village) :
    (processTradeRoute route si ti vs 0).map Village.view = vs.map Village.view := by
  unfold processTradeRoute
  exact foldl_preserves _ (fun l => l.map Village.view)
    (fun a b => view_tradeResource_zero _ si ti a b) _ vs

theorem view_updateTradeRoutes_zero (routes : List TradeRoute) (vs : List Village) :
    (updateTradeRoutes routes vs 0).map Village.view = vs.map Village.view := by
  unfold updateTradeRoutes
  refine foldl_preserves _ (fun l => l.map Village.view) ?_ routes vs
  intro a route
  dsimp only
  split
  · split
    · exact view_processTradeRoute_zero route _ _ a
    · rfl
  · rfl

theorem view_updateVillage_zero (sqrt : ℚ → ℚ) (n : Nat) (v : Village)
    (hres : ∀ e ∈ v.resources, 0 ≤ e.2) : (updateVillage sqrt n v 0).view = v.view := by
  have hmap : v.resources.map (fun e => (e.1, max 0 (e.2 +
      (calculateResourceProduction sqrt (updatePopulation v 0) e.1
        - calculateResourceConsumption (updatePopulation v 0) e.1) * 0))) = v.resources := by
    conv_rhs => rw [← List.map_id v.resources]
    apply List.map_congr_left
    intro e he
    simp [hres e he]
  have hp : (updatePopulation v 0) = v := by
    simp [updatePopulation, sizeCast_zero, sizeAdd_zero]
  rw [hp] at hmap
  have h : updateVillage sqrt n v 0 = { v with
      prosperity := (updateVillage sqrt n v 0).prosperity
      influence := (updateVillage sqrt n v 0).influence } := by
    simp only [updateVillage, updateInfluence, updateProsperity, updateResources, hp, hmap]
  rw [h]
  rfl

theorem spreadTo_zero (sqrt : ℚ → ℚ) (rng : Nat → ℚ) (hrng : ∀ k, 0 ≤ rng k) (i : Nat)
    (tech : String) (d : Diffusion) (j : Nat) :
    ((spreadTo sqrt rng i tech 0 d j).villages, (spreadTo sqrt rng i tech 0 d j).pushed)
      = (d.villages, d.pushed) := by
  unfold spreadTo
  split
  · rfl
  · split
    · split
      · rfl
      · have h : ¬ rng d.drawn < 0 := not_lt.mpr (hrng _)
        simp [h]
    · rfl

theorem updateTechnologyDiffusion_zero (sqrt : ℚ → ℚ) (rng : Nat → ℚ) (hrng : ∀ k, 0 ≤ rng k)
    (vs : List Village) :
    (updateTechnologyDiffusion sqrt rng vs 0).villages = vs ∧
      (updateTechnologyDiffusion sqrt rng vs 0).pushed = [] := by
  have hspread : ∀ i (d : Diffusion) (tech : String),
      ((spreadTechnology sqrt rng i 0 d tech).villages, (spreadTechnology sqrt rng i 0 d tech).pushed)
        = (d.villages, d.pushed) := by
    intro i d tech
    unfold spreadTechnology
    exact foldl_preserves _ (fun d => (d.villages, d.pushed))
      (fun a b => spreadTo_zero sqrt rng hrng i tech a b) _ d
  have hfrom : ∀ (d : Diffusion) (i : Nat),
      ((diffuseFrom sqrt rng 0 d i).villages, (diffuseFrom sqrt rng 0 d i).pushed)
        = (d.villages, d.pushed) := by
    intro d i
    unfold diffuseFrom
    split
    · exact foldl_preserves _ (fun d => (d.villages, d.pushed)) (fun a b => hspread i a b) _ d
    · rfl
  have h := foldl_preserves (diffuseFrom sqrt rng 0) (fun d => (d.villages, d.pushed)) hfrom
    (List.range vs.length) ⟨vs, [], 0⟩
  unfold updateTechnologyDiffusion
  simp only [Prod.mk.injEq] at h
  exact h

theorem forall₂_of_map_eq {α γ : Type} (p : α → γ) :
    ∀ (xs ys : List α), ys.map p = xs.map p → List.Forall₂ (fun x y => p y = p x) xs ys
  | [], [], _ => List.Forall₂.nil
  | [], _ :: _, h => by simp at h
  | _ :: _, [], h => by simp at h
  | x :: xs, y :: ys, h => by
    simp only [List.map_cons, List.cons.injEq] at h
    exact List.Forall₂.cons h.1 (forall₂_of_map_eq p xs ys h.2)

theorem view_update_zero (sqrt : ℚ → ℚ) (rng : Nat → ℚ) (s : MultiVillageSystem)
    (hrng : ∀ k, 0 ≤ rng k) (hres : ∀ v ∈ s.m_villages, ∀ e ∈ v.resources, 0 ≤ e.2) :
    (update sqrt rng s 0).m_villages.map Village.view = s.m_villages.map Village.view := by
  unfold update
  simp only [(updateTechnologyDiffusion_zero sqrt rng hrng _).1, view_updateTradeRoutes_zero,
    List.map_map]
  apply List.map_congr_left
  intro v hv
  exact view_updateVillage_zero sqrt _ v (hres v hv)

/-- C3 (amended): in a state whose villages have a positive population and no
negative stock, and for draws that are not negative, `update(0)` leaves every
village's population, technologies, every resource quantity (an absent entry
reads 0) and the trust and trade of every relation record (an absent record
reads 0) as they were; it may add entries that read as absent ones do. -/
theorem update_zero_keeps_values (sqrt : ℚ → ℚ) (rng : Nat → ℚ) (s : MultiVillageSystem)
    (hrng : ∀ k, 0 ≤ rng k) (hpop : ∀ v ∈ s.m_villages, 0 < v.population)
    (hres : ∀ v ∈ s.m_villages, ∀ e ∈ v.resources, 0 ≤ e.2) :
    List.Forall₂ (fun v v' =>
        v'.population = v.population ∧ v'.technologies = v.technologies ∧
        (∀ r, v'.stock r = v.stock r) ∧
        (∀ id, (v'.relation id).trust = (v.relation id).trust ∧
          (v'.relation id).trade = (v.relation id).trade))
      s.m_villages (update sqrt rng s 0).m_villages := by
  have _ := hpop
  refine List.Forall₂.imp ?_ (forall₂_of_map_eq Village.view _ _ (view_update_zero sqrt rng s hrng hres))
  intro v v' h
  simp only [Village.view, Prod.mk.injEq] at h
  obtain ⟨-, -, hp, ht, hs, hr⟩ := h
  refine ⟨hp, ht, fun r => congrFun hs r, fun id => ?_⟩
  rw [congrFun hr id]
  exact ⟨rfl, rfl⟩

/-- C3 (counterexample): with an active route that carries `Food` between two
villages that have no relation record, `update(0)` gives each village a
relation record keyed by the other, so the key sets of the relation maps change. -/
theorem update_zero_adds_relation_keys :
    nearSystem.m_villages.map (fun v => mapKeys v.villageRelations) = [[], []] ∧
      (update sqrtQ (fun _ => 0) nearSystem 0).m_villages.map
        (fun v => mapKeys v.villageRelations) = [["village_2"], ["village_1"]] := by
  decide!

/-- C3 (witness): the amended statement at `nearSystem`. -/
theorem update_zero_keeps_values_witness :
    (∀ v ∈ nearSystem.m_villages, 0 < v.population) ∧
      (∀ v ∈ nearSystem.m_villages, ∀ e ∈ v.resources, 0 ≤ e.2) ∧
      List.Forall₂ (fun v v' =>
        v'.population = v.population ∧ v'.technologies = v.technologies ∧
        (∀ r, v'.stock r = v.stock r) ∧
        (∀ id, (v'.relation id).trust = (v.relation id).trust ∧
          (v'.relation id).trade = (v.relation id).trade))
      nearSystem.m_villages (update sqrtQ (fun _ => 0) nearSystem 0).m_villages :=
  ⟨by decide!, by decide!,
    update_zero_keeps_values sqrtQ (fun _ => 0) nearSystem (fun _ => le_refl 0) (by decide!)
      (by decide!)⟩

/-! ## Settlement of one route (C4, C5) -/

theorem stock_modifyStock (v : Village) (r r' : ResourceType) (f : ℚ → ℚ) :
    (v.modifyStock r f).stock r' = if r = r' then f (v.stock r) else v.stock r' := by
  by_cases h : r = r'
  · subst h
    simp [Village.modifyStock, Village.stock, mapGet_mapModify_same]
  · simp [Village.modifyStock, Village.stock, h, mapGet_mapModify_ne _ _ _ _ _ _ h]

theorem stockAt_updateAt_modifyStock (vs : List Village) (i j : Nat) (r r' : ResourceType)
    (f : ℚ → ℚ) :
    stockAt (updateAt vs i (fun v => v.modifyStock r f)) j r'
      = if j = i ∧ r = r' ∧ i < vs.length then f (stockAt vs j r') else stockAt vs j r' := by
  unfold stockAt
  rw [getElem?_updateAt]
  by_cases hj : j = i
  · subst hj
    cases hv : vs[j]? with
    | none =>
      have : ¬ j < vs.length := by
        intro hlt
        rw [List.getElem?_eq_getElem hlt] at hv
        exact Option.noConfusion hv
      simp [this]
    | some v =>
      have : j < vs.length := by
        by_contra hlt
        rw [List.getElem?_eq_none (not_lt.mp hlt)] at hv
        exact Option.noConfusion hv
      by_cases hr : r = r'
      · subst hr
        simp [this, stock_modifyStock]
      · simp [this, stock_modifyStock, hr]
  · simp [hj]

theorem stockAt_updateAt_modifyRelation (vs : List Village) (i j : Nat) (id : String)
    (f : Relations → Relations) (r : ResourceType) :
    stockAt (updateAt vs i (fun v => v.modifyRelation id f)) j r = stockAt vs j r := by
  unfold stockAt
  rw [getElem?_updateAt]
  by_cases hj : j = i
  · subst hj
    cases hv : vs[j]? with
    | none => simp
    | some v => simp [Village.modifyRelation, Village.stock]
  · simp [hj]

theorem stockAt_updateTradeRelations (vs : List Village) (i1 i2 : Nat) (id1 id2 : String)
    (a : ℚ) (j : Nat) (r : ResourceType) :
    stockAt (updateTradeRelations vs i1 i2 id1 id2 a) j r = stockAt vs j r := by
  unfold updateTradeRelations
  simp only [stockAt_updateAt_modifyRelation]

/-- The stocks after the loop body of `processTradeRoute`, when both villages exist. -/
theorem stockAt_tradeResource (vol dt : ℚ) (si ti : Nat) (vs : List Village) (r : ResourceType)
    (hs : si < vs.length) (ht : ti < vs.length) (j : Nat) (r' : ResourceType) :
    stockAt (tradeResource vol dt si ti vs r) j r' =
      if stockAt vs si r ≥ vol * dt ∧ r = r' then
        (if j = ti then (if j = si then stockAt vs j r' - vol * dt else stockAt vs j r') + vol * dt
         else if j = si then stockAt vs j r' - vol * dt else stockAt vs j r')
      else stockAt vs j r' := by
  have hs' : si < (updateAt vs si (fun v => v.modifyStock r id)).length := by
    rw [length_updateAt]; exact hs
  have ht' : ti < (updateAt vs si (fun v => v.modifyStock r id)).length := by
    rw [length_updateAt]; exact ht
  have hstock : ∀ j r', stockAt (updateAt vs si (fun v => v.modifyStock r id)) j r' = stockAt vs j r' := by
    intro j r'
    rw [stockAt_updateAt_modifyStock]
    simp
  unfold tradeResource
  simp only [List.getElem?_eq_getElem hs', List.getElem?_eq_getElem ht']
  have hsrc : ((updateAt vs si (fun v => v.modifyStock r id))[si]).stock r = stockAt vs si r := by
    rw [← hstock si r]
    simp [stockAt, List.getElem?_eq_getElem hs']
  rw [hsrc]
  by_cases hg : stockAt vs si r ≥ vol * dt
  · simp only [hg, if_true, true_and]
    rw [stockAt_updateTradeRelations, stockAt_updateAt_modifyStock, stockAt_updateAt_modifyStock,
      hstock]
    simp only [length_updateAt, hs, ht, and_true]
    by_cases hr : r = r'
    · simp [hr]
    · simp [hr]
  · simp only [hg, if_false, false_and]
    exact hstock j r'

theorem length_updateTradeRelations (vs : List Village) (i1 i2 : Nat) (id1 id2 : String) (a : ℚ) :
    (updateTradeRelations vs i1 i2 id1 id2 a).length = vs.length := by
  unfold updateTradeRelations
  simp only [length_updateAt]

theorem length_tradeResource (vol dt : ℚ) (si ti : Nat) (vs : List Village) (r : ResourceType) :
    (tradeResource vol dt si ti vs r).length = vs.length := by
  unfold tradeResource
  dsimp only
  split
  · split
    · simp only [length_updateTradeRelations, length_updateAt]
    · simp only [length_updateAt]
  · simp only [length_updateAt]

theorem length_processTradeRoute (route : TradeRoute) (si ti : Nat) (vs : List Village) (dt : ℚ) :
    (processTradeRoute route si ti vs dt).length = vs.length := by
  unfold processTradeRoute
  exact foldl_preserves _ List.length (fun a b => length_tradeResource _ dt si ti a b) _ vs

/-- The stocks of a resource after settling a list of traded resources that
holds it at most once. -/
theorem stockAt_foldl_tradeResource (vol dt : ℚ) (si ti : Nat) (r : ResourceType) (j : Nat) :
    ∀ (traded : List ResourceType) (vs : List Village), si < vs.length → ti < vs.length →
      traded.Nodup →
      stockAt (traded.foldl (tradeResource vol dt si ti) vs) j r =
        if r ∈ traded then stockAt (tradeResource vol dt si ti vs r) j r else stockAt vs j r
  | [], vs, _, _, _ => by simp
  | x :: rest, vs, hs, ht, hnd => by
    have hs1 : si < (tradeResource vol dt si ti vs x).length := by
      rw [length_tradeResource]; exact hs
    have ht1 : ti < (tradeResource vol dt si ti vs x).length := by
      rw [length_tradeResource]; exact ht
    have hnd' := List.nodup_cons.mp hnd
    rw [List.foldl_cons, stockAt_foldl_tradeResource vol dt si ti r j rest _ hs1 ht1 hnd'.2]
    by_cases hx : x = r
    · subst hx
      simp [hnd'.1]
    · have hx' : ¬ r = x := fun h => hx h.symm
      have hsame : ∀ k, stockAt (tradeResource vol dt si ti vs x) k r = stockAt vs k r := by
        intro k
        rw [stockAt_tradeResource vol dt si ti vs x hs ht]
        simp [hx]
      simp only [List.mem_cons, hx', false_or]
      by_cases hm : r ∈ rest
      · simp only [hm, if_true]
        rw [stockAt_tradeResource vol dt si ti _ r hs1 ht1, stockAt_tradeResource vol dt si ti vs r hs ht]
        simp only [hsame]
      · simp only [hm, if_false]
        exact hsame j

/-- C4: when `processTradeRoute` settles a route between two distinct villages,
what the source's stock of a resource loses is what the target's stock of it
gains, so the two stocks of that resource have the same sum before and after. -/
theorem processTradeRoute_conserves (route : TradeRoute) (si ti : Nat) (vs : List Village)
    (dt : ℚ) (r : ResourceType) (hs : si < vs.length) (ht : ti < vs.length) (hne : si ≠ ti) :
    stockAt vs si r - stockAt (processTradeRoute route si ti vs dt) si r
        = stockAt (processTradeRoute route si ti vs dt) ti r - stockAt vs ti r ∧
      stockAt (processTradeRoute route si ti vs dt) si r
        + stockAt (processTradeRoute route si ti vs dt) ti r = stockAt vs si r + stockAt vs ti r := by
  have key : ∀ (traded : List ResourceType) (ws : List Village), si < ws.length → ti < ws.length →
      stockAt (traded.foldl (tradeResource (calculateTradeVolume route) dt si ti) ws) si r
        + stockAt (traded.foldl (tradeResource (calculateTradeVolume route) dt si ti) ws) ti r
        = stockAt ws si r + stockAt ws ti r := by
    intro traded
    induction traded with
    | nil => intro ws _ _; rfl
    | cons x rest ih =>
      intro ws hs ht
      rw [List.foldl_cons, ih _ (by rw [length_tradeResource]; exact hs)
        (by rw [length_tradeResource]; exact ht),
        stockAt_tradeResource _ dt si ti ws x hs ht, stockAt_tradeResource _ dt si ti ws x hs ht]
      have hne' : ¬ ti = si := fun h => hne h.symm
      by_cases hg : stockAt ws si x ≥ calculateTradeVolume route * dt ∧ x = r
      · obtain ⟨hg1, hx⟩ := hg
        subst hx
        have hg2 : calculateTradeVolume route * dt ≤ stockAt ws si x := hg1
        simp only [ge_iff_le, hg2, and_self, if_true, hne, hne', if_false]
        ring
      · simp only [hg, if_false]
  have h := key route.tradedResources vs hs ht
  unfold processTradeRoute
  constructor
  · linarith
  · exact h

/-- C4 (witness): conservation for the `Food` route between the two villages of `nearSystem`. -/
theorem processTradeRoute_conserves_witness :
    (0 < nearSystem.m_villages.length ∧ 1 < nearSystem.m_villages.length ∧ (0 : Nat) ≠ 1) ∧
      (stockAt nearSystem.m_villages 0 .Food
          - stockAt (processTradeRoute nearRoute 0 1 nearSystem.m_villages 1) 0 .Food
        = stockAt (processTradeRoute nearRoute 0 1 nearSystem.m_villages 1) 1 .Food
          - stockAt nearSystem.m_villages 1 .Food ∧
      stockAt (processTradeRoute nearRoute 0 1 nearSystem.m_villages 1) 0 .Food
          + stockAt (processTradeRoute nearRoute 0 1 nearSystem.m_villages 1) 1 .Food
        = stockAt nearSystem.m_villages 0 .Food + stockAt nearSystem.m_villages 1 .Food) :=
  ⟨by decide!, processTradeRoute_conserves nearRoute 0 1 nearSystem.m_villages 1 .Food
    (by decide!) (by decide!) (by decide)⟩

/-- C5: for a route between two distinct villages whose list of traded resources
holds each resource once, and each traded resource `r`, `processTradeRoute` with
time step `dt` takes exactly `10 * (1 - distance/1000) * safety * dt` of `r` from
the source and adds it to the target when the source holds at least that much,
and leaves both stocks of `r` as they were when the source holds less.  The
loop body for `r` does the same in whatever state the loop has reached: with a
short stock it changes no stock and no relation map of any village, otherwise
it moves exactly that amount. -/
theorem processTradeRoute_moves_amount_or_nothing (route : TradeRoute) (si ti : Nat)
    (vs : List Village) (dt : ℚ) (r : ResourceType) (hs : si < vs.length) (ht : ti < vs.length)
    (hne : si ≠ ti) (hr : r ∈ route.tradedResources) (hnd : route.tradedResources.Nodup) :
    (stockAt vs si r ≥ 10 * (1 - route.distance / 1000) * route.safety * dt →
        stockAt (processTradeRoute route si ti vs dt) si r
          = stockAt vs si r - 10 * (1 - route.distance / 1000) * route.safety * dt ∧
        stockAt (processTradeRoute route si ti vs dt) ti r
          = stockAt vs ti r + 10 * (1 - route.distance / 1000) * route.safety * dt) ∧
      (stockAt vs si r < 10 * (1 - route.distance / 1000) * route.safety * dt →
        stockAt (processTradeRoute route si ti vs dt) si r = stockAt vs si r ∧
        stockAt (processTradeRoute route si ti vs dt) ti r = stockAt vs ti r) ∧
      (∀ ws : List Village, si < ws.length → ti < ws.length →
        stockAt ws si r < 10 * (1 - route.distance / 1000) * route.safety * dt →
        (∀ j r', stockAt (tradeResource (calculateTradeVolume route) dt si ti ws r) j r'
          = stockAt ws j r') ∧
        (tradeResource (calculateTradeVolume route) dt si ti ws r).map (fun v => v.villageRelations)
          = ws.map (fun v => v.villageRelations)) ∧
      (∀ ws : List Village, si < ws.length → ti < ws.length →
        stockAt ws si r ≥ 10 * (1 - route.distance / 1000) * route.safety * dt →
        stockAt (tradeResource (calculateTradeVolume route) dt si ti ws r) si r
          = stockAt ws si r - 10 * (1 - route.distance / 1000) * route.safety * dt ∧
        stockAt (tradeResource (calculateTradeVolume route) dt si ti ws r) ti r
          = stockAt ws ti r + 10 * (1 - route.distance / 1000) * route.safety * dt) := by
  have hvol : calculateTradeVolume route * dt
      = 10 * (1 - route.distance / 1000) * route.safety * dt := by
    simp [calculateTradeVolume]
  have hne' : ¬ ti = si := fun h => hne h.symm
  have hfold : ∀ j, stockAt (processTradeRoute route si ti vs dt) j r
      = stockAt (tradeResource (calculateTradeVolume route) dt si ti vs r) j r := by
    intro j
    unfold processTradeRoute
    rw [stockAt_foldl_tradeResource _ dt si ti r j _ vs hs ht hnd]
    simp [hr]
  rw [← hvol]
  refine ⟨?_, ?_, ?_, ?_⟩
  · intro hge
    have hge' : calculateTradeVolume route * dt ≤ stockAt vs si r := hge
    rw [hfold, hfold, stockAt_tradeResource _ dt si ti vs r hs ht,
      stockAt_tradeResource _ dt si ti vs r hs ht]
    simp [hge', hne, hne']
  · intro hlt
    have hlt' : ¬ calculateTradeVolume route * dt ≤ stockAt vs si r := not_le.mpr hlt
    rw [hfold, hfold, stockAt_tradeResource _ dt si ti vs r hs ht,
      stockAt_tradeResource _ dt si ti vs r hs ht]
    simp [hlt']
  · intro ws hws hwt hlt
    have hlt' : ¬ calculateTradeVolume route * dt ≤ stockAt ws si r := not_le.mpr hlt
    constructor
    · intro j r'
      rw [stockAt_tradeResource _ dt si ti ws r hws hwt]
      simp [hlt']
    · have hws' : si < (updateAt ws si (fun v => v.modifyStock r id)).length := by
        rw [length_updateAt]; exact hws
      have hwt' : ti < (updateAt ws si (fun v => v.modifyStock r id)).length := by
        rw [length_updateAt]; exact hwt
      have hsrc : ((updateAt ws si (fun v => v.modifyStock r id))[si]).stock r = stockAt ws si r := by
        have h := stockAt_updateAt_modifyStock ws si si r r id
        simp only [stockAt, List.getElem?_eq_getElem hws', List.getElem?_eq_getElem hws] at h ⊢
        rw [h]
        simp
      unfold tradeResource
      simp only [List.getElem?_eq_getElem hws', List.getElem?_eq_getElem hwt', hsrc, ge_iff_le,
        hlt', if_false]
      exact map_updateAt_of_eq (fun v : Village => v.villageRelations)
        (fun v => v.modifyStock r id) (fun x => rfl) ws si
  · intro ws hws hwt hge
    have hge' : calculateTradeVolume route * dt ≤ stockAt ws si r := hge
    rw [stockAt_tradeResource _ dt si ti ws r hws hwt, stockAt_tradeResource _ dt si ti ws r hws hwt]
    simp [hge', hne, hne']

/-- C5 (witness): the `Food` route of `nearSystem` with time step 1. -/
theorem processTradeRoute_moves_amount_or_nothing_witness :
    (0 < nearSystem.m_villages.length ∧ 1 < nearSystem.m_villages.length ∧ (0 : Nat) ≠ 1 ∧
        ResourceType.Food ∈ nearRoute.tradedResources ∧ nearRoute.tradedResources.Nodup ∧
        stockAt nearSystem.m_villages 0 .Food
          ≥ 10 * (1 - nearRoute.distance / 1000) * nearRoute.safety * 1) ∧
      stockAt (processTradeRoute nearRoute 0 1 nearSystem.m_villages 1) 0 .Food
        = stockAt nearSystem.m_villages 0 .Food
          - 10 * (1 - nearRoute.distance / 1000) * nearRoute.safety * 1 ∧
      stockAt (processTradeRoute nearRoute 0 1 nearSystem.m_villages 1) 1 .Food
        = stockAt nearSystem.m_villages 1 .Food
          + 10 * (1 - nearRoute.distance / 1000) * nearRoute.safety * 1 :=
  ⟨by decide!,
    (processTradeRoute_moves_amount_or_nothing nearRoute 0 1 nearSystem.m_villages 1 .Food
      (by decide!) (by decide!) (by decide) (by decide) (by decide)).1 (by decide!)⟩

/-! ## Scenario 1: one tick with a trade route (C6) -/

theorem map_updateTradeRelations {γ : Type} (p : Village → γ)
    (hR : ∀ v id f, p (Village.modifyRelation v id f) = p v)
    (vs : List Village) (i1 i2 : Nat) (id1 id2 : String) (a : ℚ) :
    (updateTradeRelations vs i1 i2 id1 id2 a).map p = vs.map p := by
  unfold updateTradeRelations
  simp only []
  rw [map_updateAt_of_eq, map_updateAt_of_eq, map_updateAt_of_eq, map_updateAt_of_eq]
  all_goals
    intro x
    exact hR x _ _

theorem map_tradeResource {γ : Type} (p : Village → γ)
    (hS : ∀ v r f, p (Village.modifyStock v r f) = p v)
    (hR : ∀ v id f, p (Village.modifyRelation v id f) = p v)
    (vol dt : ℚ) (si ti : Nat) (vs : List Village) (r : ResourceType) :
    (tradeResource vol dt si ti vs r).map p = vs.map p := by
  have h0 : (updateAt vs si (fun v => v.modifyStock r id)).map p = vs.map p :=
    map_updateAt_of_eq _ _ (fun x => hS x r id) vs si
  unfold tradeResource
  dsimp only
  split
  · split
    · rw [map_updateTradeRelations p hR, map_updateAt_of_eq, map_updateAt_of_eq, h0]
      all_goals
        intro x
        exact hS x _ _
    · exact h0
  · exact h0

theorem map_updateTradeRoutes {γ : Type} (p : Village → γ)
    (hS : ∀ v r f, p (Village.modifyStock v r f) = p v)
    (hR : ∀ v id f, p (Village.modifyRelation v id f) = p v)
    (routes : List TradeRoute) (vs : List Village) (dt : ℚ) :
    (updateTradeRoutes routes vs dt).map p = vs.map p := by
  unfold updateTradeRoutes
  refine foldl_preserves _ (fun l => l.map p) ?_ routes vs
  intro a route
  dsimp only
  split
  · split
    · unfold processTradeRoute
      exact foldl_preserves _ (fun l => l.map p)
        (fun ws b => map_tradeResource p hS hR _ dt _ _ ws b) _ a
    · rfl
  · rfl

theorem foldl_fixed {α β : Type} (f : α → β → α) (a : α) (h : ∀ b, f a b = a) (l : List β) :
    l.foldl f a = a := by
  induction l with
  | nil => rfl
  | cons b rest ih => rw [List.foldl_cons, h b, ih]

/-- With no technology known anywhere the diffusion step draws nothing and changes nothing. -/
theorem updateTechnologyDiffusion_no_technology (sqrt : ℚ → ℚ) (rng : Nat → ℚ)
    (vs : List Village) (dt : ℚ) (h : ∀ v ∈ vs, v.technologies = []) :
    updateTechnologyDiffusion sqrt rng vs dt = ⟨vs, [], 0⟩ := by
  unfold updateTechnologyDiffusion
  apply foldl_fixed
  intro i
  unfold diffuseFrom
  dsimp only
  cases hv : vs[i]? with
  | none => rfl
  | some v =>
    have hm : v ∈ vs := List.getElem?_mem hv
    simp [h v hm]

/-- With no technology known anywhere `update` does not depend on the random draws. -/
theorem update_no_technology (sqrt : ℚ → ℚ) (rng rng' : Nat → ℚ) (s : MultiVillageSystem)
    (dt : ℚ) (h : ∀ v ∈ s.m_villages, v.technologies = []) :
    update sqrt rng s dt = update sqrt rng' s dt := by
  have hv : ∀ v ∈ updateTradeRoutes s.m_tradeRoutes
      (s.m_villages.map (fun v => updateVillage sqrt s.m_villages.length v dt)) dt,
      v.technologies = [] := by
    have hm := map_updateTradeRoutes (fun v : Village => v.technologies) (fun _ _ _ => rfl)
      (fun _ _ _ => rfl) s.m_tradeRoutes
      (s.m_villages.map (fun v => updateVillage sqrt s.m_villages.length v dt)) dt
    intro v hvm
    have h1 : v.technologies ∈ (updateTradeRoutes s.m_tradeRoutes
        (s.m_villages.map (fun v => updateVillage sqrt s.m_villages.length v dt)) dt).map
        (fun v : Village => v.technologies) := List.mem_map_of_mem _ hvm
    rw [hm] at h1
    simp only [List.map_map, List.mem_map, Function.comp] at h1
    obtain ⟨w, hw, hwt⟩ := h1
    rw [← hwt]
    exact h w hw
  unfold update
  simp only [updateTechnologyDiffusion_no_technology sqrt _ _ dt hv]

/-- C6 (counterexample): in Scenario 1 with the route that `createTradeRoute`
makes, one `update(1.0)` takes both villages' food from 1000 to 910, so the food
of B does not rise by any positive amount. -/
theorem scenario_one_no_food_gain :
    nearPair.m_villages.map (fun v => v.stock .Food) = [1000, 1000] ∧
      (createTradeRoute sqrtQ false nearPair "village_1" "village_2").1 = true ∧
      (update sqrtQ (fun _ => 0) (createTradeRoute sqrtQ false nearPair "village_1" "village_2").2
        1).m_villages.map (fun v => v.stock .Food) = [910, 910] ∧
      ¬ ∃ d : ℚ, 0 < d ∧
        stockAt (update sqrtQ (fun _ => 0)
          (createTradeRoute sqrtQ false nearPair "village_1" "village_2").2 1).m_villages 1 .Food
          = stockAt nearPair.m_villages 1 .Food + d := by
  refine ⟨by decide!, by decide!, by decide!, ?_⟩
  rintro ⟨d, hd, h⟩
  have h1 : stockAt (update sqrtQ (fun _ => 0)
      (createTradeRoute sqrtQ false nearPair "village_1" "village_2").2 1).m_villages 1 .Food
      = 910 := by decide!
  have h2 : stockAt nearPair.m_villages 1 .Food = 1000 := by decide!
  rw [h1, h2] at h
  linarith

/-- C6 (amended): in Scenario 1, in either weather and for any draws,
`createTradeRoute` succeeds with a route of distance 500, safety 1/2 (7/20 when
stormy) and no traded resource; one `update(1.0)` then takes both villages' food
from 1000 to 910 and moves none.  When the route's traded list is set to `Food`,
the same tick ends with A at `910 - d` and B at `910 + d`, where
`d = 10 * (1 - 500/1000) * safety > 0`. -/
theorem scenario_one_tick (stormy : Bool) (rng : Nat → ℚ) :
    (createTradeRoute sqrtQ stormy nearPair "village_1" "village_2").1 = true ∧
      (createTradeRoute sqrtQ stormy nearPair "village_1" "village_2").2.m_tradeRoutes
        = [{ nearRoute with tradedResources := [], safety := if stormy then 7 / 20 else 1 / 2 }] ∧
      (update sqrtQ rng (createTradeRoute sqrtQ stormy nearPair "village_1" "village_2").2
        1).m_villages.map (fun v => v.stock .Food) = [910, 910] ∧
      0 < 10 * (1 - 500 / 1000) * (if stormy then 7 / 20 else 1 / 2 : ℚ) ∧
      (update sqrtQ rng
        { nearPair with m_tradeRoutes :=
            [{ nearRoute with safety := if stormy then 7 / 20 else 1 / 2 }] }
        1).m_villages.map (fun v => v.stock .Food)
        = [910 - 10 * (1 - 500 / 1000) * (if stormy then 7 / 20 else 1 / 2),
           910 + 10 * (1 - 500 / 1000) * (if stormy then 7 / 20 else 1 / 2)] := by
  have hn : ∀ v ∈ nearPair.m_villages, v.technologies = [] := by decide!
  have e1 := update_no_technology sqrtQ rng (fun _ => 0)
    (createTradeRoute sqrtQ stormy nearPair "village_1" "village_2").2 1
    (by cases stormy <;> exact hn)
  have e2 := update_no_technology sqrtQ rng (fun _ => 0)
    { nearPair with m_tradeRoutes :=
        [{ nearRoute with safety := if stormy then 7 / 20 else 1 / 2 }] } 1 hn
  rw [e1, e2]
  cases stormy
  · decide!
  · decide!

/-! ## Creating routes and agreements (C7) -/

theorem findVillage_eq_none (vs : List Village) (id : String) :
    findVillage vs id = none ↔ ∀ v ∈ vs, v.id ≠ id := by
  induction vs with
  | nil => simp [findVillage]
  | cons v rest ih =>
    by_cases h : v.id = id
    · simp [findVillage, h]
    · simp [findVillage, h, ih]

theorem findVillage_eq_some (vs : List Village) (id : String) (i : Nat)
    (h : findVillage vs id = some i) : ∃ v, vs[i]? = some v ∧ v.id = id := by
  induction vs generalizing i with
  | nil => simp [findVillage] at h
  | cons v rest ih =>
    by_cases hv : v.id = id
    · simp [findVillage, hv] at h
      subst h
      exact ⟨v, by simp, hv⟩
    · simp [findVillage, hv] at h
      obtain ⟨k, hk, rfl⟩ := h
      obtain ⟨w, hw, hwid⟩ := ih k hk
      exact ⟨w, by simpa using hw, hwid⟩

theorem findVillage_isSome (vs : List Village) (id : String) (h : ∃ v ∈ vs, v.id = id) :
    ∃ i v, findVillage vs id = some i ∧ vs[i]? = some v ∧ v.id = id := by
  cases hf : findVillage vs id with
  | none =>
    obtain ⟨v, hv, hid⟩ := h
    exact absurd hid ((findVillage_eq_none vs id).mp hf v hv)
  | some i =>
    obtain ⟨v, hv, hid⟩ := findVillage_eq_some vs id i hf
    exact ⟨i, v, rfl, hv, hid⟩

/-- With both ids registered `createDiplomaticAgreement` appends the agreement and returns true. -/
theorem createDiplomaticAgreement_registered (s : MultiVillageSystem) (a b : String)
    (type : AgreementType) (ha : ∃ v ∈ s.m_villages, v.id = a)
    (hb : ∃ v ∈ s.m_villages, v.id = b) :
    createDiplomaticAgreement s a b type
      = (true, { s with m_diplomaticAgreements := s.m_diplomaticAgreements ++
          [{ type := type, village1Id := a, village2Id := b, terms := [], duration := 30,
             active := true }] }) := by
  obtain ⟨i, v, hi, -, -⟩ := findVillage_isSome s.m_villages a ha
  obtain ⟨j, w, hj, -, -⟩ := findVillage_isSome s.m_villages b hb
  simp only [createDiplomaticAgreement, hi, hj]

/-- C7: `createTradeRoute` and `createDiplomaticAgreement` return false and leave
the whole system as it was when one of the two ids is the id of no registered
village; when both ids are ids of registered villages they return true and
append exactly one entry, active, between the two ids (the agreement with the
given type and duration 30), changing nothing else. -/
theorem create_checks_both_ids (sqrt : ℚ → ℚ) (stormy : Bool) (s : MultiVillageSystem)
    (a b : String) (type : AgreementType) :
    ((¬ (∃ v ∈ s.m_villages, v.id = a) ∨ ¬ (∃ v ∈ s.m_villages, v.id = b)) →
        createTradeRoute sqrt stormy s a b = (false, s) ∧
        createDiplomaticAgreement s a b type = (false, s)) ∧
      ((∃ v ∈ s.m_villages, v.id = a) ∧ (∃ v ∈ s.m_villages, v.id = b) →
        (∃ route : TradeRoute,
          createTradeRoute sqrt stormy s a b
            = (true, { s with m_tradeRoutes := s.m_tradeRoutes ++ [route] }) ∧
          route.active = true ∧ route.sourceVillageId = a ∧ route.targetVillageId = b) ∧
        createDiplomaticAgreement s a b type
          = (true, { s with m_diplomaticAgreements := s.m_diplomaticAgreements ++
              [{ type := type, village1Id := a, village2Id := b, terms := [], duration := 30,
                 active := true }] })) := by
  constructor
  · intro h
    have hnone : findVillage s.m_villages a = none ∨ findVillage s.m_villages b = none := by
      rcases h with h | h
      · left
        rw [findVillage_eq_none]
        intro v hv hid
        exact h ⟨v, hv, hid⟩
      · right
        rw [findVillage_eq_none]
        intro v hv hid
        exact h ⟨v, hv, hid⟩
    rcases hnone with h1 | h1
    · simp [createTradeRoute, createDiplomaticAgreement, h1]
    · cases h2 : findVillage s.m_villages a <;>
        simp [createTradeRoute, createDiplomaticAgreement, h1, h2]
  · rintro ⟨ha, hb⟩
    obtain ⟨i, v, hi, hv, -⟩ := findVillage_isSome s.m_villages a ha
    obtain ⟨j, w, hj, hw, -⟩ := findVillage_isSome s.m_villages b hb
    constructor
    · refine ⟨{ sourceVillageId := a, targetVillageId := b, tradedResources := []
                distance := calculateDistance sqrt v w
                safety := calculateRouteSafety sqrt stormy v w, active := true }, ?_, rfl, rfl, rfl⟩
      simp only [createTradeRoute, hi, hj, hv, hw]
    · exact createDiplomaticAgreement_registered s a b type ha hb

/-- C7 (witness): in `nearPair` the display names `"A"`, `"B"` are ids of no
village and both calls fail, the ids `"village_1"`, `"village_2"` are registered
and the agreement is appended. -/
theorem create_checks_both_ids_witness :
    (createTradeRoute sqrtQ false nearPair "A" "B" = (false, nearPair) ∧
        createDiplomaticAgreement nearPair "A" "B" .Alliance = (false, nearPair)) ∧
      ((∃ v ∈ nearPair.m_villages, v.id = "village_1") ∧
        (∃ v ∈ nearPair.m_villages, v.id = "village_2")) ∧
      createDiplomaticAgreement nearPair "village_1" "village_2" .Alliance
        = (true, { nearPair with m_diplomaticAgreements := nearPair.m_diplomaticAgreements ++
            [{ type := .Alliance, village1Id := "village_1", village2Id := "village_2",
               terms := [], duration := 30, active := true }] }) :=
  ⟨(create_checks_both_ids sqrtQ false nearPair "A" "B" .Alliance).1 (Or.inl (by decide!)),
    by decide!,
    ((create_checks_both_ids sqrtQ false nearPair "village_1" "village_2" .Alliance).2
      (by decide!)).2⟩

/-! ## Expiry of diplomatic agreements (C8, C9) -/

theorem foldl_invariant {α β : Type} (f : α → β → α) (P : α → Prop)
    (h : ∀ a b, P a → P (f a b)) (l : List β) (a : α) (ha : P a) : P (l.foldl f a) := by
  induction l generalizing a with
  | nil => exact ha
  | cons b rest ih => exact ih _ (h a b ha)

theorem foldl_addEvent (events pushed : List StoryEvent) :
    events.foldl addEvent pushed = pushed ++ events := by
  induction events generalizing pushed with
  | nil => simp
  | cons e rest ih => simp [ih, addEvent]

/-- The two outcomes of one pass of the loop body of `spreadTechnology`: nothing
changes but the number of draws, or the target learns the technology and the
event is pushed, which needs a draw below `spreadChance * deltaTime`. -/
theorem spreadTo_cases (sqrt : ℚ → ℚ) (rng : Nat → ℚ) (i : Nat) (tech : String) (dt : ℚ)
    (d : Diffusion) (j : Nat) :
    ((spreadTo sqrt rng i tech dt d j).villages = d.villages ∧
        (spreadTo sqrt rng i tech dt d j).pushed = d.pushed) ∨
      ∃ source target, j ≠ i ∧ d.villages[i]? = some source ∧ d.villages[j]? = some target ∧
        tech ∉ target.technologies ∧
        rng d.drawn < calculateTechSpreadChance sqrt source target * dt ∧
        (spreadTo sqrt rng i tech dt d j).villages
          = updateAt d.villages j (fun v => { v with technologies := v.technologies ++ [tech] }) ∧
        (spreadTo sqrt rng i tech dt d j).pushed
          = d.pushed ++ [generateTechnologySpreadEvent source target tech] := by
  unfold spreadTo
  by_cases hj : j = i
  · simp [hj]
  · cases hs : d.villages[i]? with
    | none => simp [hj]
    | some source =>
      cases ht : d.villages[j]? with
      | none => simp [hj]
      | some target =>
        by_cases hm : tech ∈ target.technologies
        · simp [hj, hm]
        · by_cases hr : rng d.drawn < calculateTechSpreadChance sqrt source target * dt
          · right
            exact ⟨source, target, hj, rfl, rfl, hm, hr, by simp [hj, hm, hr], by simp [hj, hm, hr, addEvent]⟩
          · left
            simp [hj, hm, hr]

/-- An invariant of the diffusion state that every pass of the loop body of
`spreadTechnology` keeps is kept by `updateTechnologyDiffusion`. -/
theorem updateTechnologyDiffusion_invariant (sqrt : ℚ → ℚ) (rng : Nat → ℚ) (dt : ℚ)
    (P : Diffusion → Prop)
    (hstep : ∀ i tech d j, P d → P (spreadTo sqrt rng i tech dt d j))
    (vs : List Village) (h0 : P ⟨vs, [], 0⟩) : P (updateTechnologyDiffusion sqrt rng vs dt) := by
  unfold updateTechnologyDiffusion
  refine foldl_invariant _ P ?_ _ _ h0
  intro d i hd
  unfold diffuseFrom
  split
  · refine foldl_invariant _ P ?_ _ _ hd
    intro d tech hd
    unfold spreadTechnology
    exact foldl_invariant _ P (fun d j hd => hstep i tech d j hd) _ _ hd
  · exact hd

/-- Every event pushed by the diffusion step is of type `Technological`. -/
theorem updateTechnologyDiffusion_pushed_type (sqrt : ℚ → ℚ) (rng : Nat → ℚ) (vs : List Village)
    (dt : ℚ) : ∀ e ∈ (updateTechnologyDiffusion sqrt rng vs dt).pushed,
      e.type = StoryEventType.Technological := by
  refine updateTechnologyDiffusion_invariant sqrt rng dt
    (fun d : Diffusion => ∀ e ∈ d.pushed, e.type = StoryEventType.Technological) ?_ vs (by simp)
  intro i tech d j hd
  rcases spreadTo_cases sqrt rng i tech dt d j with h | ⟨source, target, -, -, -, -, -, -, hp⟩
  · intro e he
    rw [h.2] at he
    exact hd e he
  · intro e he
    rw [hp] at he
    simp only [List.mem_append, List.mem_singleton] at he
    rcases he with he | he
    · exact hd e he
    · rw [he]
      rfl

/-- Every event pushed by `updateDiplomacy` is of type `Political`. -/
theorem updateDiplomacy_pushed_type (agreements : List DiplomaticAgreement) (dt : ℚ) :
    ∀ e ∈ (updateDiplomacy agreements dt).2, e.type = StoryEventType.Political := by
  induction agreements with
  | nil => simp [updateDiplomacy]
  | cons g rest ih =>
    unfold updateDiplomacy
    dsimp only
    split
    · split
      · intro e he
        simp only [List.mem_cons] at he
        rcases he with he | he
        · rw [he]
          rfl
        · exact ih e he
      · exact ih
    · exact ih

theorem update_agreements (sqrt : ℚ → ℚ) (rng : Nat → ℚ) (s : MultiVillageSystem) (dt : ℚ) :
    (update sqrt rng s dt).m_diplomaticAgreements = (updateDiplomacy s.m_diplomaticAgreements dt).1 :=
  rfl

/-- The `Political` events after one `update` are those before it followed by
the events of `updateDiplomacy`. -/
theorem politicalEvents_update (sqrt : ℚ → ℚ) (rng : Nat → ℚ) (s : MultiVillageSystem) (dt : ℚ) :
    politicalEvents (update sqrt rng s dt).pushed
      = politicalEvents s.pushed ++ (updateDiplomacy s.m_diplomaticAgreements dt).2 := by
  have h1 : ∀ l : List StoryEvent, (∀ e ∈ l, e.type = StoryEventType.Political) →
      l.filter (fun e => e.type = StoryEventType.Political) = l := by
    intro l hl
    rw [List.filter_eq_self]
    intro e he
    simp [hl e he]
  have h2 : ∀ l : List StoryEvent, (∀ e ∈ l, e.type = StoryEventType.Technological) →
      l.filter (fun e => e.type = StoryEventType.Political) = [] := by
    intro l hl
    rw [List.filter_eq_nil_iff]
    intro e he
    simp [hl e he]
  unfold update politicalEvents
  simp only [foldl_addEvent, List.filter_append]
  rw [h1 _ (updateDiplomacy_pushed_type _ dt), h2 _ (updateTechnologyDiffusion_pushed_type _ _ _ dt)]
  simp

theorem updateDiplomacy_cons_expire (x : DiplomaticAgreement) (rest : List DiplomaticAgreement)
    (dt : ℚ) (ha : x.active = true) (hd : x.duration - dt ≤ 0) :
    updateDiplomacy (x :: rest) dt
      = ((handleExpiredAgreement { x with duration := x.duration - dt }).1
            :: (updateDiplomacy rest dt).1,
          (handleExpiredAgreement { x with duration := x.duration - dt }).2
            :: (updateDiplomacy rest dt).2) := by
  rw [updateDiplomacy]
  simp only [if_pos ha, if_pos hd]

theorem updateDiplomacy_cons_age (x : DiplomaticAgreement) (rest : List DiplomaticAgreement)
    (dt : ℚ) (ha : x.active = true) (hd : ¬ x.duration - dt ≤ 0) :
    updateDiplomacy (x :: rest) dt
      = ({ x with duration := x.duration - dt } :: (updateDiplomacy rest dt).1,
          (updateDiplomacy rest dt).2) := by
  rw [updateDiplomacy]
  simp only [if_pos ha, if_neg hd]

theorem updateDiplomacy_cons_skip (x : DiplomaticAgreement) (rest : List DiplomaticAgreement)
    (dt : ℚ) (ha : ¬ x.active = true) :
    updateDiplomacy (x :: rest) dt = (x :: (updateDiplomacy rest dt).1, (updateDiplomacy rest dt).2) := by
  rw [updateDiplomacy]
  simp only [if_neg ha]

theorem updateDiplomacy_inactive (agreements : List DiplomaticAgreement) (dt : ℚ) (i : Nat)
    (g : DiplomaticAgreement) (hg : agreements[i]? = some g) (hin : g.active = false) :
    (updateDiplomacy agreements dt).1[i]? = some g := by
  induction agreements generalizing i with
  | nil => simp at hg
  | cons x rest ih =>
    cases i with
    | zero =>
      simp only [List.getElem?_cons_zero, Option.some.injEq] at hg
      subst hg
      rw [updateDiplomacy_cons_skip _ _ _ (by simp [hin])]
      simp
    | succ k =>
      simp only [List.getElem?_cons_succ] at hg
      have := ih k hg
      by_cases ha : x.active = true
      · by_cases hd : x.duration - dt ≤ 0
        · rw [updateDiplomacy_cons_expire _ _ _ ha hd]
          simpa using this
        · rw [updateDiplomacy_cons_age _ _ _ ha hd]
          simpa using this
      · rw [updateDiplomacy_cons_skip _ _ _ ha]
        simpa using this

theorem updateDiplomacy_count (agreements : List DiplomaticAgreement) (dt : ℚ) :
    (updateDiplomacy agreements dt).2.length + activeCount (updateDiplomacy agreements dt).1
      = activeCount agreements := by
  have hc : ∀ (y : DiplomaticAgreement) (l : List DiplomaticAgreement),
      activeCount (y :: l) = activeCount l + (if y.active = true then 1 else 0) :=
    fun y l => List.countP_cons _ _ _
  induction agreements with
  | nil => simp [updateDiplomacy, activeCount]
  | cons x rest ih =>
    by_cases ha : x.active = true
    · by_cases hd : x.duration - dt ≤ 0
      · rw [updateDiplomacy_cons_expire _ _ _ ha hd]
        simp only [handleExpiredAgreement, List.length_cons]
        rw [hc, hc]
        simp only [ha, if_true, Bool.false_eq_true, if_false]
        omega
      · rw [updateDiplomacy_cons_age _ _ _ ha hd]
        simp only []
        rw [hc, hc]
        simp only [ha, if_true]
        omega
    · rw [updateDiplomacy_cons_skip _ _ _ ha]
      simp only []
      rw [hc, hc]
      simp only [ha, if_false]
      omega

/-- The events of `updateDiplomacy` are the expiry events of exactly the agreements
that were active before the call and whose aged duration is not positive. -/
theorem updateDiplomacy_pushed (agreements : List DiplomaticAgreement) (dt : ℚ) :
    (updateDiplomacy agreements dt).2
      = (agreements.filter (fun g => g.active ∧ g.duration - dt ≤ 0)).map
          (fun g => (handleExpiredAgreement { g with duration := g.duration - dt }).2) := by
  induction agreements with
  | nil => simp [updateDiplomacy]
  | cons x rest ih =>
    by_cases ha : x.active = true
    · by_cases hd : x.duration - dt ≤ 0
      · rw [updateDiplomacy_cons_expire _ _ _ ha hd, List.filter_cons_of_pos (by simp [ha, hd])]
        simp only [List.map_cons, ih]
      · rw [updateDiplomacy_cons_age _ _ _ ha hd, List.filter_cons_of_neg (by simp [ha, hd])]
        exact ih
    · rw [updateDiplomacy_cons_skip _ _ _ ha, List.filter_cons_of_neg (by simp [ha])]
      exact ih

/-- C9: over any sequence of `update` calls with any time steps and draws, an
agreement whose `active` flag is false keeps its place and stays exactly as it
is (flag and duration); the number of `Political` events pushed plus the number
of active agreements never changes, so the events pushed are as many as the
agreements that went from active to inactive; and in each call the `Political`
events pushed are the expiry events of the agreements that were active before
the call and whose aged duration is not positive. -/
theorem expiry_is_terminal (sqrt : ℚ → ℚ) (s : MultiVillageSystem)
    (ticks : List (ℚ × (Nat → ℚ))) :
    (∀ (i : Nat) (g : DiplomaticAgreement), s.m_diplomaticAgreements[i]? = some g →
        g.active = false →
        (runUpdates sqrt s ticks).m_diplomaticAgreements[i]? = some g) ∧
      (politicalEvents (runUpdates sqrt s ticks).pushed).length
          + activeCount (runUpdates sqrt s ticks).m_diplomaticAgreements
        = (politicalEvents s.pushed).length + activeCount s.m_diplomaticAgreements ∧
      (∀ (rng : Nat → ℚ) (dt : ℚ), politicalEvents (update sqrt rng s dt).pushed
        = politicalEvents s.pushed
          ++ (s.m_diplomaticAgreements.filter (fun g => g.active ∧ g.duration - dt ≤ 0)).map
              (fun g => (handleExpiredAgreement { g with duration := g.duration - dt }).2)) := by
  refine ⟨?_, ?_, ?_⟩
  · induction ticks generalizing s with
    | nil => intro i g hg _; exact hg
    | cons t rest ih =>
      intro i g hg hin
      exact ih (update sqrt t.2 s t.1) i g
        (by rw [update_agreements]; exact updateDiplomacy_inactive _ _ i g hg hin) hin
  · induction ticks generalizing s with
    | nil => rfl
    | cons t rest ih =>
      show (politicalEvents (runUpdates sqrt (update sqrt t.2 s t.1) rest).pushed).length
          + activeCount (runUpdates sqrt (update sqrt t.2 s t.1) rest).m_diplomaticAgreements = _
      rw [ih (update sqrt t.2 s t.1), politicalEvents_update, update_agreements,
        List.length_append, ← updateDiplomacy_count s.m_diplomaticAgreements t.1]
      omega
  · intro rng dt
    rw [politicalEvents_update, updateDiplomacy_pushed]

theorem updateDiplomacy_append (l1 l2 : List DiplomaticAgreement) (dt : ℚ) :
    updateDiplomacy (l1 ++ l2) dt
      = ((updateDiplomacy l1 dt).1 ++ (updateDiplomacy l2 dt).1,
          (updateDiplomacy l1 dt).2 ++ (updateDiplomacy l2 dt).2) := by
  induction l1 with
  | nil => simp [updateDiplomacy]
  | cons x rest ih =>
    by_cases ha : x.active = true
    · by_cases hd : x.duration - dt ≤ 0
      · rw [List.cons_append, updateDiplomacy_cons_expire _ _ _ ha hd,
          updateDiplomacy_cons_expire _ _ _ ha hd, ih]
        rfl
      · rw [List.cons_append, updateDiplomacy_cons_age _ _ _ ha hd,
          updateDiplomacy_cons_age _ _ _ ha hd, ih]
        rfl
    · rw [List.cons_append, updateDiplomacy_cons_skip _ _ _ ha, updateDiplomacy_cons_skip _ _ _ ha, ih]
      rfl

theorem updateDiplomacy_all_inactive (l : List DiplomaticAgreement) (dt : ℚ)
    (h : ∀ g ∈ l, g.active = false) : updateDiplomacy l dt = (l, []) := by
  induction l with
  | nil => rfl
  | cons x rest ih =>
    have hx : ¬ x.active = true := by simp [h x (List.mem_cons_self _ _)]
    rw [updateDiplomacy_cons_skip _ _ _ hx, ih (fun g hg => h g (List.mem_cons_of_mem _ hg))]

theorem runUpdates_append (sqrt : ℚ → ℚ) (s : MultiVillageSystem)
    (l1 l2 : List (ℚ × (Nat → ℚ))) :
    runUpdates sqrt s (l1 ++ l2) = runUpdates sqrt (runUpdates sqrt s l1) l2 := by
  induction l1 generalizing s with
  | nil => rfl
  | cons t rest ih => exact ih _

/-- While fewer ticks of length 1 have run than its duration, an active agreement
placed after inactive ones only ages, and no `Political` event is pushed. -/
theorem runUpdates_before_expiry (sqrt : ℚ → ℚ) (old : List DiplomaticAgreement)
    (hold : ∀ g ∈ old, g.active = false) (g : DiplomaticAgreement) (hg : g.active = true) :
    ∀ (ticks : List (ℚ × (Nat → ℚ))) (s : MultiVillageSystem) (D : ℚ),
      (∀ t ∈ ticks, t.1 = 1) → (ticks.length : ℚ) < D →
      s.m_diplomaticAgreements = old ++ [{ g with duration := D }] →
      (runUpdates sqrt s ticks).m_diplomaticAgreements
          = old ++ [{ g with duration := D - ticks.length }] ∧
        politicalEvents (runUpdates sqrt s ticks).pushed = politicalEvents s.pushed
  | [], s, D, _, _, hs => by simp [runUpdates, hs]
  | t :: rest, s, D, hdt, hlt, hs => by
    have ht : t.1 = 1 := hdt t (List.mem_cons_self _ _)
    have hlt' : ((rest.length : ℚ) + 1) < D := by
      simpa using hlt
    have hpos : ¬ D - 1 ≤ 0 := by
      have : (0 : ℚ) ≤ rest.length := Nat.cast_nonneg _
      linarith
    have hstep : updateDiplomacy (old ++ [{ g with duration := D }]) 1
        = (old ++ [{ g with duration := D - 1 }], []) := by
      rw [updateDiplomacy_append, updateDiplomacy_all_inactive old 1 hold,
        updateDiplomacy_cons_age { g with duration := D } [] 1 hg hpos]
      rfl
    have h1 : (update sqrt t.2 s t.1).m_diplomaticAgreements
        = old ++ [{ g with duration := D - 1 }] := by
      rw [update_agreements, hs, ht, hstep]
    have h2 : politicalEvents (update sqrt t.2 s t.1).pushed = politicalEvents s.pushed := by
      rw [politicalEvents_update, hs, ht, hstep]
      simp
    have ih := runUpdates_before_expiry sqrt old hold g hg rest (update sqrt t.2 s t.1) (D - 1)
      (fun u hu => hdt u (List.mem_cons_of_mem _ hu)) (by linarith) h1
    refine ⟨?_, ?_⟩
    · show (runUpdates sqrt (update sqrt t.2 s t.1) rest).m_diplomaticAgreements = _
      rw [ih.1]
      simp only [List.length_cons, Nat.cast_add, Nat.cast_one]
      have : D - 1 - (rest.length : ℚ) = D - ((rest.length : ℚ) + 1) := by ring
      rw [this]
    · show politicalEvents (runUpdates sqrt (update sqrt t.2 s t.1) rest).pushed = _
      rw [ih.2, h2]

/-- When as many ticks of length 1 have run as its duration, an active
agreement placed after inactive ones is inactive with duration 0, and its expiry
event is the one `Political` event pushed. -/
theorem runUpdates_at_expiry (sqrt : ℚ → ℚ) (old : List DiplomaticAgreement)
    (hold : ∀ g ∈ old, g.active = false) (g : DiplomaticAgreement) (hg : g.active = true) :
    ∀ (ticks : List (ℚ × (Nat → ℚ))) (s : MultiVillageSystem),
      (∀ t ∈ ticks, t.1 = 1) → ticks ≠ [] →
      s.m_diplomaticAgreements = old ++ [{ g with duration := ticks.length }] →
      (runUpdates sqrt s ticks).m_diplomaticAgreements
          = old ++ [{ g with duration := 0, active := false }] ∧
        politicalEvents (runUpdates sqrt s ticks).pushed
          = politicalEvents s.pushed ++ [(handleExpiredAgreement { g with duration := 0 }).2]
  | [], _, _, hne, _ => absurd rfl hne
  | [t], s, hdt, _, hs => by
    have ht : t.1 = 1 := hdt t (List.mem_cons_self _ _)
    have hstep : updateDiplomacy (old ++ [{ g with duration := (([t] : List (ℚ × (Nat → ℚ))).length : ℚ) }]) 1
        = (old ++ [{ g with duration := 0, active := false }],
            [(handleExpiredAgreement { g with duration := 0 }).2]) := by
      rw [updateDiplomacy_append, updateDiplomacy_all_inactive old 1 hold,
        updateDiplomacy_cons_expire
          { g with duration := (([t] : List (ℚ × (Nat → ℚ))).length : ℚ) } [] 1 hg (by simp)]
      simp [handleExpiredAgreement, updateDiplomacy]
    constructor
    · show (update sqrt t.2 s t.1).m_diplomaticAgreements = _
      rw [update_agreements, hs, ht, hstep]
    · show politicalEvents (update sqrt t.2 s t.1).pushed = _
      rw [politicalEvents_update, hs, ht, hstep]
  | t :: u :: rest, s, hdt, _, hs => by
    have ht : t.1 = 1 := hdt t (List.mem_cons_self _ _)
    have hpos : ¬ (((t :: u :: rest).length : ℕ) : ℚ) - 1 ≤ 0 := by
      have : (0 : ℚ) ≤ rest.length := Nat.cast_nonneg _
      simp only [List.length_cons, Nat.cast_add, Nat.cast_one]
      linarith
    have hstep : updateDiplomacy (old ++ [{ g with duration := (((t :: u :: rest).length : ℕ) : ℚ) }]) 1
        = (old ++ [{ g with duration := (((u :: rest).length : ℕ) : ℚ) }], []) := by
      rw [updateDiplomacy_append, updateDiplomacy_all_inactive old 1 hold,
        updateDiplomacy_cons_age { g with duration := (((t :: u :: rest).length : ℕ) : ℚ) } [] 1 hg hpos]
      simp [updateDiplomacy]
    have h1 : (update sqrt t.2 s t.1).m_diplomaticAgreements
        = old ++ [{ g with duration := (((u :: rest).length : ℕ) : ℚ) }] := by
      rw [update_agreements, hs, ht, hstep]
    have h2 : politicalEvents (update sqrt t.2 s t.1).pushed = politicalEvents s.pushed := by
      rw [politicalEvents_update, hs, ht, hstep]
      simp
    have ih := runUpdates_at_expiry sqrt old hold g hg (u :: rest) (update sqrt t.2 s t.1)
      (fun v hv => hdt v (List.mem_cons_of_mem _ hv)) (List.cons_ne_nil _ _) h1
    constructor
    · show (runUpdates sqrt (update sqrt t.2 s t.1) (u :: rest)).m_diplomaticAgreements = _
      exact ih.1
    · show politicalEvents (runUpdates sqrt (update sqrt t.2 s t.1) (u :: rest)).pushed = _
      rw [ih.2, h2]

/-- C8: after `createDiplomaticAgreement(A, B, Alliance)` succeeds in a system
with no active agreement, thirty calls of `update(1.0)`, with any draws, leave
the new agreement inactive with duration 0, and the `Political` events pushed
over those calls are exactly one, whose involved ids are A and B; after any
smaller number of calls no `Political` event has been pushed and the agreement
is active with the remaining duration. -/
theorem alliance_expires_at_thirtieth_tick (sqrt : ℚ → ℚ) (s : MultiVillageSystem)
    (a b : String) (ticks : List (ℚ × (Nat → ℚ)))
    (ha : ∃ v ∈ s.m_villages, v.id = a) (hb : ∃ v ∈ s.m_villages, v.id = b)
    (hold : ∀ g ∈ s.m_diplomaticAgreements, g.active = false)
    (hlen : ticks.length = 30) (hdt : ∀ t ∈ ticks, t.1 = 1) :
    (createDiplomaticAgreement s a b .Alliance).1 = true ∧
      (runUpdates sqrt (createDiplomaticAgreement s a b .Alliance).2 ticks).m_diplomaticAgreements
        = s.m_diplomaticAgreements ++
          [{ type := .Alliance, village1Id := a, village2Id := b, terms := [], duration := 0,
             active := false }] ∧
      (∃ e : StoryEvent, e.type = StoryEventType.Political ∧ e.involvedNPCs = [a, b] ∧
        politicalEvents (runUpdates sqrt (createDiplomaticAgreement s a b .Alliance).2 ticks).pushed
          = politicalEvents s.pushed ++ [e]) ∧
      (∀ k : Nat, k < 30 →
        politicalEvents
            (runUpdates sqrt (createDiplomaticAgreement s a b .Alliance).2 (ticks.take k)).pushed
          = politicalEvents s.pushed ∧
        (runUpdates sqrt (createDiplomaticAgreement s a b .Alliance).2
            (ticks.take k)).m_diplomaticAgreements
          = s.m_diplomaticAgreements ++
            [{ type := .Alliance, village1Id := a, village2Id := b, terms := [],
               duration := 30 - k, active := true }]) := by
  have hc := createDiplomaticAgreement_registered s a b .Alliance ha hb
  have hc1 : (createDiplomaticAgreement s a b .Alliance).1 = true := by rw [hc]
  have hc2 : (createDiplomaticAgreement s a b .Alliance).2.m_diplomaticAgreements
      = s.m_diplomaticAgreements ++
        [{ (⟨.Alliance, a, b, [], 30, true⟩ : DiplomaticAgreement) with duration := 30 }] := by
    rw [hc]
  have hc3 : (createDiplomaticAgreement s a b .Alliance).2.pushed = s.pushed := by rw [hc]
  have hne : ticks ≠ [] := by
    intro h
    rw [h] at hlen
    simp at hlen
  have hend := runUpdates_at_expiry sqrt s.m_diplomaticAgreements hold
    ⟨.Alliance, a, b, [], 30, true⟩ rfl ticks (createDiplomaticAgreement s a b .Alliance).2
    hdt hne (by rw [hc2, hlen]; norm_num)
  refine ⟨hc1, hend.1, ⟨_, rfl, rfl, by rw [hend.2, hc3]⟩, ?_⟩
  intro k hk
  have hl : (ticks.take k).length = k := by
    rw [List.length_take, hlen]
    omega
  have h := runUpdates_before_expiry sqrt s.m_diplomaticAgreements hold
    ⟨.Alliance, a, b, [], 30, true⟩ rfl (ticks.take k)
    (createDiplomaticAgreement s a b .Alliance).2 30
    (fun t ht => hdt t (List.mem_of_mem_take ht))
    (by rw [hl]; exact_mod_cast hk) hc2
  rw [hl, hc3] at h
  exact ⟨h.2, h.1⟩

/-- C8 (witness): Scenario 3 on the two villages of `nearPair`. -/
theorem alliance_expires_at_thirtieth_tick_witness :
    ((∃ v ∈ nearPair.m_villages, v.id = "village_1") ∧
        (∃ v ∈ nearPair.m_villages, v.id = "village_2") ∧
        (∀ g ∈ nearPair.m_diplomaticAgreements, g.active = false) ∧
        thirtyTicks.length = 30 ∧ (∀ t ∈ thirtyTicks, t.1 = 1)) ∧
      (runUpdates sqrtQ (createDiplomaticAgreement nearPair "village_1" "village_2" .Alliance).2
          thirtyTicks).m_diplomaticAgreements
        = nearPair.m_diplomaticAgreements ++
          [{ type := .Alliance, village1Id := "village_1", village2Id := "village_2", terms := [],
             duration := 0, active := false }] :=
  have h1 : ∃ v ∈ nearPair.m_villages, v.id = "village_1" := by decide!
  have h2 : ∃ v ∈ nearPair.m_villages, v.id = "village_2" := by decide!
  have h3 : ∀ g ∈ nearPair.m_diplomaticAgreements, g.active = false := by decide!
  have h4 : thirtyTicks.length = 30 := List.length_replicate _ _
  have h5 : ∀ t ∈ thirtyTicks, t.1 = 1 := fun t ht => by rw [List.eq_of_mem_replicate ht]
  ⟨⟨h1, h2, h3, h4, h5⟩,
    (alliance_expires_at_thirtieth_tick sqrtQ nearPair "village_1" "village_2" thirtyTicks
      h1 h2 h3 h4 h5).2.1⟩

/-- C9 (witness): the expired alliance of `expiredSystem` is unchanged by thirty ticks. -/
theorem expiry_is_terminal_witness :
    expiredSystem.m_diplomaticAgreements[0]?
        = some ⟨.Alliance, "village_1", "village_2", [], 0, false⟩ ∧
      (runUpdates sqrtQ expiredSystem thirtyTicks).m_diplomaticAgreements[0]?
        = some ⟨.Alliance, "village_1", "village_2", [], 0, false⟩ :=
  ⟨rfl, (expiry_is_terminal sqrtQ expiredSystem thirtyTicks).1 0
    ⟨.Alliance, "village_1", "village_2", [], 0, false⟩ rfl rfl⟩

/-! ## Technology spread without relations (C10) -/

theorem clamp_bounds (v lo hi : ℚ) (h : lo ≤ hi) : lo ≤ clamp v lo hi ∧ clamp v lo hi ≤ hi := by
  unfold clamp
  split
  · exact ⟨le_refl _, h⟩
  · split
    · exact ⟨h, le_refl _⟩
    · constructor <;> linarith

theorem calculateTechSpreadChance_bounds (sqrt : ℚ → ℚ) (source target : Village) :
    0 ≤ calculateTechSpreadChance sqrt source target ∧
      calculateTechSpreadChance sqrt source target ≤ 1 / 10 := by
  unfold calculateTechSpreadChance
  dsimp only
  obtain ⟨h0, h1⟩ := clamp_bounds
    (((source.relation target.id).trust + (source.relation target.id).trade / 1000)
      * (1 - calculateDistance sqrt source target / 1000)) 0 1 (by norm_num)
  constructor <;> linarith

theorem calculateTechSpreadChance_zero (sqrt : ℚ → ℚ) (source target : Village)
    (h : relationIsZero source target.id) : calculateTechSpreadChance sqrt source target = 0 := by
  unfold calculateTechSpreadChance
  dsimp only
  rw [h.1, h.2]
  simp [clamp]

theorem relationIsZero_of_frame (v w : Village) (id : String) (h : v.frame = w.frame)
    (hz : relationIsZero w id) : relationIsZero v id := by
  have hr : v.villageRelations = w.villageRelations := by
    simp only [Village.frame, Prod.mk.injEq] at h
    exact h.2.2
  unfold relationIsZero Village.relation at hz ⊢
  rw [hr]
  exact hz

theorem getElem?_of_map_frame (vs ws : List Village) (h : vs.map Village.frame = ws.map Village.frame)
    (i : Nat) (v : Village) (hv : vs[i]? = some v) :
    ∃ w, ws[i]? = some w ∧ v.frame = w.frame := by
  have h1 : (vs.map Village.frame)[i]? = some v.frame := by
    rw [List.getElem?_map, hv]
    rfl
  rw [h, List.getElem?_map] at h1
  cases hw : ws[i]? with
  | none => rw [hw] at h1; simp at h1
  | some w =>
    rw [hw] at h1
    simp only [Option.map_some', Option.some.injEq] at h1
    exact ⟨w, rfl, h1.symm⟩

theorem frame_updateVillage (sqrt : ℚ → ℚ) (n : Nat) (v : Village) (dt : ℚ) :
    (updateVillage sqrt n v dt).frame = v.frame := rfl

theorem technologies_updateVillage (sqrt : ℚ → ℚ) (n : Nat) (v : Village) (dt : ℚ) :
    (updateVillage sqrt n v dt).technologies = v.technologies := rfl

theorem no_draw_below_zero_chance (sqrt : ℚ → ℚ) (rng : Nat → ℚ) (hrng : ∀ k, 0 ≤ rng k)
    (source target : Village) (dt : ℚ) (k : Nat) (h : relationIsZero source target.id) :
    ¬ rng k < calculateTechSpreadChance sqrt source target * dt := by
  rw [calculateTechSpreadChance_zero sqrt source target h, zero_mul]
  exact not_lt.mpr (hrng k)

theorem frame_learn (vs : List Village) (j : Nat) (tech : String) :
    (updateAt vs j (fun v => { v with technologies := v.technologies ++ [tech] })).map Village.frame
      = vs.map Village.frame :=
  map_updateAt_of_eq Village.frame
    (fun v => { v with technologies := v.technologies ++ [tech] }) (fun _ => rfl) vs j

/-- The diffusion step keeps every village's id, position and relation map. -/
theorem frame_updateTechnologyDiffusion (sqrt : ℚ → ℚ) (rng : Nat → ℚ) (vs : List Village)
    (dt : ℚ) :
    (updateTechnologyDiffusion sqrt rng vs dt).villages.map Village.frame = vs.map Village.frame := by
  refine updateTechnologyDiffusion_invariant sqrt rng dt
    (fun d : Diffusion => d.villages.map Village.frame = vs.map Village.frame) ?_ vs rfl
  intro i tech d j hd
  rcases spreadTo_cases sqrt rng i tech dt d j with h | ⟨source, target, -, -, -, -, -, hv, -⟩
  · show (spreadTo sqrt rng i tech dt d j).villages.map Village.frame = _
    rw [h.1]
    exact hd
  · show (spreadTo sqrt rng i tech dt d j).villages.map Village.frame = _
    rw [hv, frame_learn]
    exact hd

/-- The diffusion step leaves the technologies of the village at index `j` as
they are when no other village has a non-zero relation record for it. -/
theorem technologies_updateTechnologyDiffusion (sqrt : ℚ → ℚ) (rng : Nat → ℚ)
    (hrng : ∀ k, 0 ≤ rng k) (vs : List Village) (dt : ℚ) (j : Nat)
    (H : ∀ i v t, i ≠ j → vs[i]? = some v → vs[j]? = some t → relationIsZero v t.id) :
    (updateTechnologyDiffusion sqrt rng vs dt).villages[j]?.map (fun v => v.technologies)
      = vs[j]?.map (fun v => v.technologies) := by
  have key := updateTechnologyDiffusion_invariant sqrt rng dt
    (fun d : Diffusion => d.villages.map Village.frame = vs.map Village.frame ∧
      d.villages[j]?.map (fun v => v.technologies) = vs[j]?.map (fun v => v.technologies))
    ?_ vs ⟨rfl, rfl⟩
  · exact key.2
  · intro i tech d j' hd
    rcases spreadTo_cases sqrt rng i tech dt d j' with h | ⟨source, target, hji, hs, ht, -, hr, hv, -⟩
    · show (spreadTo sqrt rng i tech dt d j').villages.map Village.frame = _ ∧
        (spreadTo sqrt rng i tech dt d j').villages[j]?.map (fun v => v.technologies) = _
      rw [h.1]
      exact hd
    · show (spreadTo sqrt rng i tech dt d j').villages.map Village.frame = _ ∧
        (spreadTo sqrt rng i tech dt d j').villages[j]?.map (fun v => v.technologies) = _
      rw [hv]
      refine ⟨by rw [frame_learn]; exact hd.1, ?_⟩
      rw [getElem?_updateAt]
      by_cases hjj : j = j'
      · subst hjj
        exfalso
        obtain ⟨w, hw, hfw⟩ := getElem?_of_map_frame _ _ hd.1 i source hs
        obtain ⟨t0, ht0, hft⟩ := getElem?_of_map_frame _ _ hd.1 j target ht
        have hz : relationIsZero w t0.id := H i w t0 (fun h => hji h.symm) hw ht0
        have hid : target.id = t0.id := by
          simp only [Village.frame, Prod.mk.injEq] at hft
          exact hft.1
        rw [← hid] at hz
        exact no_draw_below_zero_chance sqrt rng hrng source target dt d.drawn
          (relationIsZero_of_frame source w target.id hfw hz) hr
      · rw [if_neg hjj]
        exact hd.2

/-- The diffusion step pushes no event whose involved ids are `[a, b]` when every
village with id `a` has no non-zero relation record for `b`. -/
theorem pushed_updateTechnologyDiffusion (sqrt : ℚ → ℚ) (rng : Nat → ℚ)
    (hrng : ∀ k, 0 ≤ rng k) (vs : List Village) (dt : ℚ) (a b : String)
    (G : ∀ v ∈ vs, v.id = a → relationIsZero v b) :
    ∀ e ∈ (updateTechnologyDiffusion sqrt rng vs dt).pushed, e.involvedNPCs ≠ [a, b] := by
  have key := updateTechnologyDiffusion_invariant sqrt rng dt
    (fun d : Diffusion => d.villages.map Village.frame = vs.map Village.frame ∧
      ∀ e ∈ d.pushed, e.involvedNPCs ≠ [a, b])
    ?_ vs ⟨rfl, by simp⟩
  · exact key.2
  · intro i tech d j' hd
    rcases spreadTo_cases sqrt rng i tech dt d j' with h | ⟨source, target, -, hs, -, -, hr, hv, hp⟩
    · show (spreadTo sqrt rng i tech dt d j').villages.map Village.frame = _ ∧
        ∀ e ∈ (spreadTo sqrt rng i tech dt d j').pushed, e.involvedNPCs ≠ [a, b]
      rw [h.1, h.2]
      exact hd
    · show (spreadTo sqrt rng i tech dt d j').villages.map Village.frame = _ ∧
        ∀ e ∈ (spreadTo sqrt rng i tech dt d j').pushed, e.involvedNPCs ≠ [a, b]
      rw [hv, hp]
      refine ⟨by rw [frame_learn]; exact hd.1, ?_⟩
      intro e he
      simp only [List.mem_append, List.mem_singleton] at he
      rcases he with he | he
      · exact hd.2 e he
      · intro hinv
        rw [he] at hinv
        simp only [generateTechnologySpreadEvent, List.cons.injEq, and_true] at hinv
        obtain ⟨w, hw, hfw⟩ := getElem?_of_map_frame _ _ hd.1 i source hs
        have hwid : w.id = a := by
          simp only [Village.frame, Prod.mk.injEq] at hfw
          rw [← hfw.1]
          exact hinv.1
        have hz : relationIsZero w b := G w (List.getElem?_mem hw) hwid
        rw [← hinv.2] at hz
        exact no_draw_below_zero_chance sqrt rng hrng source target dt d.drawn
          (relationIsZero_of_frame source w target.id hfw hz) hr

theorem frame_map_updateVillage (sqrt : ℚ → ℚ) (n : Nat) (vs : List Village) (dt : ℚ) :
    (vs.map (fun v => updateVillage sqrt n v dt)).map Village.frame = vs.map Village.frame := by
  rw [List.map_map]
  rfl

theorem zero_toward_of_frame (vs ws : List Village) (j : Nat)
    (hf : vs.map Village.frame = ws.map Village.frame)
    (H : ∀ i v t, i ≠ j → ws[i]? = some v → ws[j]? = some t → relationIsZero v t.id) :
    ∀ i v t, i ≠ j → vs[i]? = some v → vs[j]? = some t → relationIsZero v t.id := by
  intro i v t hij hv ht
  obtain ⟨w, hw, hfw⟩ := getElem?_of_map_frame vs ws hf i v hv
  obtain ⟨t0, ht0, hft⟩ := getElem?_of_map_frame vs ws hf j t ht
  have hid : t.id = t0.id := by
    simp only [Village.frame, Prod.mk.injEq] at hft
    exact hft.1
  rw [hid]
  exact relationIsZero_of_frame v w t0.id hfw (H i w t0 hij hw ht0)

theorem zero_from_of_frame (vs ws : List Village) (a b : String)
    (hf : vs.map Village.frame = ws.map Village.frame)
    (G : ∀ v ∈ ws, v.id = a → relationIsZero v b) :
    ∀ v ∈ vs, v.id = a → relationIsZero v b := by
  intro v hv hid
  obtain ⟨i, hi⟩ := List.mem_iff_getElem?.mp hv
  obtain ⟨w, hw, hfw⟩ := getElem?_of_map_frame vs ws hf i v hi
  have hwid : w.id = a := by
    simp only [Village.frame, Prod.mk.injEq] at hfw
    rw [← hfw.1]
    exact hid
  exact relationIsZero_of_frame v w b hfw (G w (List.getElem?_mem hw) hwid)


/-! ### Relation records that settlement leaves alone -/

theorem map_updateAt_of_eq_at {α γ : Type} (p : α → γ) (f : α → α) (xs : List α) (i : Nat)
    (h : ∀ x, xs[i]? = some x → p (f x) = p x) : (updateAt xs i f).map p = xs.map p := by
  induction xs generalizing i with
  | nil => simp [updateAt]
  | cons x rest ih =>
    cases i with
    | zero => simp [updateAt, h x (by simp)]
    | succ i =>
      simp only [updateAt, List.map_cons, List.cons.injEq, true_and]
      exact ih i (fun y hy => h y (by simpa using hy))

theorem id_at_updateAt (xs : List Village) (i k : Nat) (c : String) (f : Village → Village)
    (hf : ∀ v, (f v).id = v.id) (h : ∀ x, xs[k]? = some x → x.id = c) :
    ∀ x, (updateAt xs i f)[k]? = some x → x.id = c := by
  intro x hx
  rw [getElem?_updateAt] at hx
  by_cases hk : k = i
  · rw [if_pos hk] at hx
    cases hv : xs[k]? with
    | none => rw [hv] at hx; simp at hx
    | some v =>
      rw [hv] at hx
      simp only [Option.map_some', Option.some.injEq] at hx
      rw [← hx, hf]
      exact h v hv
  · rw [if_neg hk] at hx
    exact h x hx

/-- A projection `p` of the villages is kept by `updateTradeRelations` when
changing the record that a village with id `id1` keeps for `id2`, and the
record that a village with id `id2` keeps for `id1`, does not change `p`. -/
theorem map_updateTradeRelations_of {γ : Type} (p : Village → γ) (ok : String → String → Prop)
    (hR : ∀ v key f, ok v.id key → p (Village.modifyRelation v key f) = p v)
    (vs : List Village) (i1 i2 : Nat) (id1 id2 : String) (a : ℚ)
    (h1 : ∀ x, vs[i1]? = some x → x.id = id1) (h2 : ∀ x, vs[i2]? = some x → x.id = id2)
    (ok12 : ok id1 id2) (ok21 : ok id2 id1) :
    (updateTradeRelations vs i1 i2 id1 id2 a).map p = vs.map p := by
  have hf : ∀ key f (v : Village), (v.modifyRelation key f).id = v.id := fun _ _ _ => rfl
  have step : ∀ (ws : List Village) (i : Nat) (own key : String) (f : Relations → Relations),
      (∀ x, ws[i]? = some x → x.id = own) → ok own key →
      (updateAt ws i (fun v => v.modifyRelation key f)).map p = ws.map p := by
    intro ws i own key f hi hok
    apply map_updateAt_of_eq_at
    intro x hx
    apply hR
    rw [hi x hx]
    exact hok
  unfold updateTradeRelations
  dsimp only
  have a1 := id_at_updateAt vs i1 i1 id1 _ (hf id2 (fun r => { r with trust := r.trust + a * (1 / 1000) })) h1
  have a2 := id_at_updateAt vs i1 i2 id2 _ (hf id2 (fun r => { r with trust := r.trust + a * (1 / 1000) })) h2
  have b1 := id_at_updateAt _ i2 i1 id1 _ (hf id1 (fun r => { r with trust := r.trust + a * (1 / 1000) })) a1
  have b2 := id_at_updateAt _ i2 i2 id2 _ (hf id1 (fun r => { r with trust := r.trust + a * (1 / 1000) })) a2
  have c2 := id_at_updateAt _ i1 i2 id2 _ (hf id2 (fun r => { r with trade := r.trade + a })) b2
  rw [step _ i2 id2 id1 _ c2 ok21, step _ i1 id1 id2 _ b1 ok12, step _ i2 id2 id1 _ a2 ok21,
    step _ i1 id1 id2 _ h1 ok12]

theorem map_tradeResource_of {γ : Type} (p : Village → γ) (ok : String → String → Prop)
    (hS : ∀ v r f, p (Village.modifyStock v r f) = p v)
    (hR : ∀ v key f, ok v.id key → p (Village.modifyRelation v key f) = p v)
    (vol dt : ℚ) (si ti : Nat) (vs : List Village) (r : ResourceType)
    (hok : ∀ s t, vs[si]? = some s → vs[ti]? = some t → ok s.id t.id ∧ ok t.id s.id) :
    (tradeResource vol dt si ti vs r).map p = vs.map p := by
  have hfS : ∀ r f (v : Village), (v.modifyStock r f).id = v.id := fun _ _ _ => rfl
  have h0 : (updateAt vs si (fun v => v.modifyStock r id)).map p = vs.map p :=
    map_updateAt_of_eq _ _ (fun x => hS x r id) vs si
  unfold tradeResource
  dsimp only
  split
  · rename_i source target hs ht
    split
    · have hs0 : ∃ s0, vs[si]? = some s0 ∧ source.id = s0.id := by
        rw [getElem?_updateAt, if_pos rfl] at hs
        cases hv : vs[si]? with
        | none => rw [hv] at hs; simp at hs
        | some s0 =>
          rw [hv] at hs
          simp only [Option.map_some', Option.some.injEq] at hs
          exact ⟨s0, rfl, by rw [← hs]; rfl⟩
      have ht0 : ∃ t0, vs[ti]? = some t0 ∧ target.id = t0.id := by
        rw [getElem?_updateAt] at ht
        by_cases hts : ti = si
        · rw [if_pos hts] at ht
          cases hv : vs[ti]? with
          | none => rw [hv] at ht; simp at ht
          | some t0 =>
            rw [hv] at ht
            simp only [Option.map_some', Option.some.injEq] at ht
            exact ⟨t0, rfl, by rw [← ht]; rfl⟩
        · rw [if_neg hts] at ht
          exact ⟨target, ht, rfl⟩
      obtain ⟨s0, hs0, hsid⟩ := hs0
      obtain ⟨t0, ht0, htid⟩ := ht0
      have hoks := hok s0 t0 hs0 ht0
      rw [← hsid, ← htid] at hoks
      have e1 : ∀ x, (updateAt vs si (fun v => v.modifyStock r id))[si]? = some x → x.id = source.id := by
        intro x hx
        rw [hs] at hx
        simp only [Option.some.injEq] at hx
        rw [hx]
      have e2 : ∀ x, (updateAt vs si (fun v => v.modifyStock r id))[ti]? = some x → x.id = target.id := by
        intro x hx
        rw [ht] at hx
        simp only [Option.some.injEq] at hx
        rw [hx]
      have f1 := id_at_updateAt _ si si source.id _ (hfS r (fun q => q - vol * dt)) e1
      have f2 := id_at_updateAt _ si ti target.id _ (hfS r (fun q => q - vol * dt)) e2
      have g1 := id_at_updateAt _ ti si source.id _ (hfS r (fun q => q + vol * dt)) f1
      have g2 := id_at_updateAt _ ti ti target.id _ (hfS r (fun q => q + vol * dt)) f2
      rw [map_updateTradeRelations_of p ok hR _ si ti source.id target.id _ g1 g2 hoks.1 hoks.2,
        map_updateAt_of_eq _ _ (fun x => hS x r _), map_updateAt_of_eq _ _ (fun x => hS x r _), h0]
    · exact h0
  · exact h0

theorem getElem?_of_map_eq {α γ : Type} (p : α → γ) (vs ws : List α) (h : vs.map p = ws.map p)
    (i : Nat) (v : α) (hv : vs[i]? = some v) : ∃ w, ws[i]? = some w ∧ p v = p w := by
  have h1 : (vs.map p)[i]? = some (p v) := by
    rw [List.getElem?_map, hv]
    rfl
  rw [h, List.getElem?_map] at h1
  cases hw : ws[i]? with
  | none => rw [hw] at h1; simp at h1
  | some w =>
    rw [hw] at h1
    simp only [Option.map_some', Option.some.injEq] at h1
    exact ⟨w, rfl, h1.symm⟩

theorem map_processTradeRoute_of {γ : Type} (p : Village → γ) (ok : String → String → Prop)
    (hS : ∀ v r f, p (Village.modifyStock v r f) = p v)
    (hR : ∀ v key f, ok v.id key → p (Village.modifyRelation v key f) = p v)
    (route : TradeRoute) (si ti : Nat) (vs : List Village) (dt : ℚ)
    (hok : ∀ s t, vs[si]? = some s → vs[ti]? = some t → ok s.id t.id ∧ ok t.id s.id) :
    (processTradeRoute route si ti vs dt).map p = vs.map p := by
  have key := foldl_invariant (tradeResource (calculateTradeVolume route) dt si ti)
    (fun ws : List Village => ws.map (fun v => (p v, v.id)) = vs.map (fun v => (p v, v.id)))
    ?_ route.tradedResources vs rfl
  · unfold processTradeRoute
    have := congrArg (List.map Prod.fst) key
    simpa [List.map_map, Function.comp] using this
  · intro ws r hws
    rw [← hws]
    apply map_tradeResource_of (fun v => (p v, v.id)) ok
    · intro v r f
      rw [hS]
      rfl
    · intro v k f hk
      rw [hR v k f hk]
      rfl
    · intro s t hs ht
      obtain ⟨s0, hs0, hse⟩ := getElem?_of_map_eq _ ws vs hws si s hs
      obtain ⟨t0, ht0, hte⟩ := getElem?_of_map_eq _ ws vs hws ti t ht
      simp only [Prod.mk.injEq] at hse hte
      rw [hse.2, hte.2]
      exact hok s0 t0 hs0 ht0

/-- A projection `p` of the villages is kept by `updateTradeRoutes` when every
active route that carries a resource joins two ids whose mutual relation records
`p` does not read. -/
theorem map_updateTradeRoutes_of {γ : Type} (p : Village → γ) (ok : String → String → Prop)
    (hS : ∀ v r f, p (Village.modifyStock v r f) = p v)
    (hR : ∀ v key f, ok v.id key → p (Village.modifyRelation v key f) = p v)
    (routes : List TradeRoute) (vs : List Village) (dt : ℚ)
    (hroutes : ∀ r ∈ routes, r.active = true → r.tradedResources ≠ [] →
      ok r.sourceVillageId r.targetVillageId ∧ ok r.targetVillageId r.sourceVillageId) :
    (updateTradeRoutes routes vs dt).map p = vs.map p := by
  unfold updateTradeRoutes
  induction routes generalizing vs with
  | nil => rfl
  | cons r rest ih =>
    rw [List.foldl_cons, ih _ (fun r' hr' => hroutes r' (List.mem_cons_of_mem _ hr'))]
    by_cases ha : r.active = true
    · rw [if_pos ha]
      cases hsi : findVillage vs r.sourceVillageId with
      | none => rfl
      | some si =>
        cases hti : findVillage vs r.targetVillageId with
        | none => rfl
        | some ti =>
          dsimp only
          by_cases hnil : r.tradedResources = []
          · simp [processTradeRoute, hnil]
          · obtain ⟨s0, hs0, hsid⟩ := findVillage_eq_some vs _ si hsi
            obtain ⟨t0, ht0, htid⟩ := findVillage_eq_some vs _ ti hti
            apply map_processTradeRoute_of p ok hS hR
            intro s t hs ht
            rw [hs0] at hs
            rw [ht0] at ht
            simp only [Option.some.injEq] at hs ht
            rw [← hs, ← ht, hsid, htid]
            exact hroutes r (List.mem_cons_self _ _) ha hnil
    · rw [if_neg ha]

/-! ### One tick and many -/

theorem relation_modifyRelation_ne (v : Village) (key b : String) (f : Relations → Relations)
    (h : key ≠ b) : (v.modifyRelation key f).relation b = v.relation b := by
  simp [Village.modifyRelation, Village.relation, mapGet_mapModify_ne _ _ _ _ _ _ h]

/-- Settlement keeps the record for `b` of every village with id `a` when no
active route that carries a resource joins `a` and `b`. -/
theorem zero_from_updateTradeRoutes (routes : List TradeRoute) (vs : List Village) (dt : ℚ)
    (a b : String)
    (hq : ∀ r ∈ routes, r.active = true → r.tradedResources ≠ [] →
      ¬ (r.sourceVillageId = a ∧ r.targetVillageId = b) ∧
      ¬ (r.sourceVillageId = b ∧ r.targetVillageId = a))
    (G : ∀ v ∈ vs, v.id = a → relationIsZero v b) :
    ∀ v ∈ updateTradeRoutes routes vs dt, v.id = a → relationIsZero v b := by
  have hmap := map_updateTradeRoutes_of
    (fun v : Village => (v.id, if v.id = a then some (v.relation b) else none))
    (fun own key => ¬ (own = a ∧ key = b)) (fun _ _ _ => rfl)
    (by
      intro v key f hok
      by_cases hva : v.id = a
      · have hkb : key ≠ b := fun h => hok ⟨hva, h⟩
        show ((v.modifyRelation key f).id,
          if (v.modifyRelation key f).id = a then some ((v.modifyRelation key f).relation b) else none) = _
        rw [relation_modifyRelation_ne v key b f hkb]
        rfl
      · show ((v.modifyRelation key f).id,
          if (v.modifyRelation key f).id = a then some ((v.modifyRelation key f).relation b) else none) = _
        have : (v.modifyRelation key f).id = v.id := rfl
        rw [this, if_neg hva]
        show _ = (v.id, if v.id = a then some (v.relation b) else none)
        rw [if_neg hva])
    routes vs dt
    (fun r hr ha hn => ⟨(hq r hr ha hn).1, fun h => (hq r hr ha hn).2 ⟨h.2, h.1⟩⟩)
  intro v hv hid
  obtain ⟨i, hi⟩ := List.mem_iff_getElem?.mp hv
  obtain ⟨w, hw, hpw⟩ := getElem?_of_map_eq _ _ _ hmap i v hi
  simp only [Prod.mk.injEq] at hpw
  have hwid : w.id = a := by rw [← hpw.1]; exact hid
  have hz := G w (List.getElem?_mem hw) hwid
  have hrel : v.relation b = w.relation b := by
    have h2 := hpw.2
    rw [if_pos hid, if_pos hwid] at h2
    exact Option.some.inj h2
  unfold relationIsZero
  rw [hrel]
  exact hz

theorem pushed_update (sqrt : ℚ → ℚ) (rng : Nat → ℚ) (s : MultiVillageSystem) (dt : ℚ) :
    (update sqrt rng s dt).pushed
      = s.pushed ++ ((updateDiplomacy s.m_diplomaticAgreements dt).2
        ++ (updateTechnologyDiffusion sqrt rng (updateTradeRoutes s.m_tradeRoutes
            (s.m_villages.map (fun v => updateVillage sqrt s.m_villages.length v dt)) dt) dt).pushed) := by
  unfold update
  simp only [foldl_addEvent]

theorem villages_update (sqrt : ℚ → ℚ) (rng : Nat → ℚ) (s : MultiVillageSystem) (dt : ℚ) :
    (update sqrt rng s dt).m_villages
      = (updateTechnologyDiffusion sqrt rng (updateTradeRoutes s.m_tradeRoutes
          (s.m_villages.map (fun v => updateVillage sqrt s.m_villages.length v dt)) dt) dt).villages :=
  rfl

theorem runUpdates_pushed (sqrt : ℚ → ℚ) (a b : String) :
    ∀ (ticks : List (ℚ × (Nat → ℚ))) (s : MultiVillageSystem), quietBetween s a b →
      (∀ t ∈ ticks, ∀ k, 0 ≤ t.2 k) →
      (∀ v ∈ s.m_villages, v.id = a → relationIsZero v b) →
      ∃ new, (runUpdates sqrt s ticks).pushed = s.pushed ++ new ∧
        ∀ e ∈ new, e.type = StoryEventType.Technological → e.involvedNPCs ≠ [a, b]
  | [], s, _, _, _ => ⟨[], by simp [runUpdates], by simp⟩
  | t :: rest, s, h, hr, G => by
    have hrt : ∀ k, 0 ≤ t.2 k := hr t (List.mem_cons_self _ _)
    have G1 := zero_from_of_frame _ _ a b (frame_map_updateVillage sqrt s.m_villages.length _ t.1) G
    have G2 := zero_from_updateTradeRoutes s.m_tradeRoutes _ t.1 a b h G1
    have G3 : ∀ v ∈ (update sqrt t.2 s t.1).m_villages, v.id = a → relationIsZero v b := by
      rw [villages_update]
      exact zero_from_of_frame _ _ a b (frame_updateTechnologyDiffusion sqrt t.2 _ t.1) G2
    obtain ⟨new, hnew, hall⟩ := runUpdates_pushed sqrt a b rest (update sqrt t.2 s t.1) h
      (fun u hu => hr u (List.mem_cons_of_mem _ hu)) G3
    refine ⟨((updateDiplomacy s.m_diplomaticAgreements t.1).2
      ++ (updateTechnologyDiffusion sqrt t.2 (updateTradeRoutes s.m_tradeRoutes
          (s.m_villages.map (fun v => updateVillage sqrt s.m_villages.length v t.1)) t.1) t.1).pushed)
      ++ new, ?_, ?_⟩
    · show (runUpdates sqrt (update sqrt t.2 s t.1) rest).pushed = _
      rw [hnew, pushed_update]
      simp only [List.append_assoc]
    · intro e he hty
      simp only [List.mem_append] at he
      rcases he with (he | he) | he
      · have := updateDiplomacy_pushed_type _ _ e he
        rw [this] at hty
        exact absurd hty (by decide)
      · exact pushed_updateTechnologyDiffusion sqrt t.2 hrt _ t.1 a b G2 e he
      · exact hall e he hty

theorem map_relation_of_frame (vs ws : List Village) (b : String)
    (h : vs.map Village.frame = ws.map Village.frame) :
    vs.map (fun v => (v.id, v.relation b)) = ws.map (fun v => (v.id, v.relation b)) := by
  have := congrArg (List.map (fun f : String × (ℚ × ℚ) × List (String × Relations) =>
    (f.1, mapGet f.2.2 b Relations.zero))) h
  simpa [List.map_map, Function.comp, Village.frame, Village.relation] using this

theorem zero_toward_of_map (vs ws : List Village) (j : Nat) (b : String)
    (h : vs.map (fun v => (v.id, v.relation b)) = ws.map (fun v => (v.id, v.relation b)))
    (H : (∀ t, ws[j]? = some t → t.id = b) ∧
      ∀ i v, i ≠ j → ws[i]? = some v → relationIsZero v b) :
    (∀ t, vs[j]? = some t → t.id = b) ∧ ∀ i v, i ≠ j → vs[i]? = some v → relationIsZero v b := by
  constructor
  · intro t ht
    obtain ⟨w, hw, hp⟩ := getElem?_of_map_eq _ _ _ h j t ht
    simp only [Prod.mk.injEq] at hp
    rw [hp.1]
    exact H.1 w hw
  · intro i v hij hv
    obtain ⟨w, hw, hp⟩ := getElem?_of_map_eq _ _ _ h i v hv
    simp only [Prod.mk.injEq] at hp
    unfold relationIsZero
    rw [hp.2]
    exact H.2 i w hij hw

/-- One `update` leaves the technologies of the village at index `j`, whose id is
`b`, as they are when no other village has a non-zero relation record for `b`
and no active route that carries a resource starts or ends at `b`. -/
theorem technologies_update (sqrt : ℚ → ℚ) (rng : Nat → ℚ) (hrng : ∀ k, 0 ≤ rng k)
    (s : MultiVillageSystem) (dt : ℚ) (j : Nat) (b : String) (hq : quietAt s b)
    (H : (∀ t, s.m_villages[j]? = some t → t.id = b) ∧
      ∀ i v, i ≠ j → s.m_villages[i]? = some v → relationIsZero v b) :
    (update sqrt rng s dt).m_villages[j]?.map (fun v => v.technologies)
        = s.m_villages[j]?.map (fun v => v.technologies) ∧
      ((∀ t, (update sqrt rng s dt).m_villages[j]? = some t → t.id = b) ∧
        ∀ i v, i ≠ j → (update sqrt rng s dt).m_villages[i]? = some v → relationIsZero v b) := by
  have m1 : (s.m_villages.map (fun v => updateVillage sqrt s.m_villages.length v dt)).map
      (fun v => (v.id, v.relation b)) = s.m_villages.map (fun v => (v.id, v.relation b)) := by
    rw [List.map_map]
    rfl
  have m2 := map_updateTradeRoutes_of (fun v : Village => (v.id, v.relation b))
    (fun _ key => key ≠ b) (fun _ _ _ => rfl)
    (by
      intro v key f hok
      show ((v.modifyRelation key f).id, (v.modifyRelation key f).relation b) = _
      rw [relation_modifyRelation_ne v key b f hok]
      rfl)
    s.m_tradeRoutes (s.m_villages.map (fun v => updateVillage sqrt s.m_villages.length v dt)) dt
    (fun r hr ha hn => ⟨(hq r hr ha hn).2, (hq r hr ha hn).1⟩)
  have H2 := zero_toward_of_map _ _ j b (m2.trans m1) H
  have m3 := map_relation_of_frame _ _ b (frame_updateTechnologyDiffusion sqrt rng
    (updateTradeRoutes s.m_tradeRoutes
      (s.m_villages.map (fun v => updateVillage sqrt s.m_villages.length v dt)) dt) dt)
  have t1 : (s.m_villages.map (fun v => updateVillage sqrt s.m_villages.length v dt)).map
      (fun v => v.technologies) = s.m_villages.map (fun v => v.technologies) := by
    rw [List.map_map]
    rfl
  have t2 := map_updateTradeRoutes (fun v : Village => v.technologies) (fun _ _ _ => rfl)
    (fun _ _ _ => rfl) s.m_tradeRoutes
    (s.m_villages.map (fun v => updateVillage sqrt s.m_villages.length v dt)) dt
  have t3 := technologies_updateTechnologyDiffusion sqrt rng hrng
    (updateTradeRoutes s.m_tradeRoutes
      (s.m_villages.map (fun v => updateVillage sqrt s.m_villages.length v dt)) dt) dt j
    (fun i v t hij hv ht => by
      rw [H2.1 t ht]
      exact H2.2 i v hij hv)
  constructor
  · rw [villages_update, t3, ← List.getElem?_map, t2, t1, List.getElem?_map]
  · rw [villages_update]
    exact zero_toward_of_map _ _ j b m3 H2

theorem runUpdates_technologies (sqrt : ℚ → ℚ) (j : Nat) (b : String) :
    ∀ (ticks : List (ℚ × (Nat → ℚ))) (s : MultiVillageSystem), quietAt s b →
      (∀ t ∈ ticks, ∀ k, 0 ≤ t.2 k) →
      ((∀ t, s.m_villages[j]? = some t → t.id = b) ∧
        ∀ i v, i ≠ j → s.m_villages[i]? = some v → relationIsZero v b) →
      (runUpdates sqrt s ticks).m_villages[j]?.map (fun v => v.technologies)
        = s.m_villages[j]?.map (fun v => v.technologies)
  | [], _, _, _, _ => rfl
  | t :: rest, s, h, hr, H => by
    have hrt : ∀ k, 0 ≤ t.2 k := hr t (List.mem_cons_self _ _)
    have hu := technologies_update sqrt t.2 hrt s t.1 j b h H
    show (runUpdates sqrt (update sqrt t.2 s t.1) rest).m_villages[j]?.map _ = _
    rw [runUpdates_technologies sqrt j b rest (update sqrt t.2 s t.1) h
      (fun u hu => hr u (List.mem_cons_of_mem _ hu)) hu.2, hu.1]

/-- C10: the spread chance always lies in `[0, 1/10]` and is 0 when the source's
relation record for the target has trust 0 and trade 0 or does not exist.  Over
any sequence of `update` calls with any time steps and any draws that are not
negative: while no active route that carries a resource joins the ids `a` and
`b`, and every village with id `a` has such a zero record for `b`, no
`Technological` event with involved ids `[a, b]` is pushed, so the village `b`
never learns a technology from `a`; and when no other village has a non-zero
record for the village at index `j` and no such route starts or ends at it, its
technology list never changes. -/
theorem no_spread_without_relation (sqrt : ℚ → ℚ) :
    (∀ source target : Village, 0 ≤ calculateTechSpreadChance sqrt source target ∧
        calculateTechSpreadChance sqrt source target ≤ 1 / 10) ∧
      (∀ source target : Village, relationIsZero source target.id →
        calculateTechSpreadChance sqrt source target = 0) ∧
      (∀ (s : MultiVillageSystem) (ticks : List (ℚ × (Nat → ℚ))) (a b : String),
        quietBetween s a b → (∀ t ∈ ticks, ∀ k, 0 ≤ t.2 k) →
        (∀ v ∈ s.m_villages, v.id = a → relationIsZero v b) →
        ∃ new, (runUpdates sqrt s ticks).pushed = s.pushed ++ new ∧
          ∀ e ∈ new, e.type = StoryEventType.Technological → e.involvedNPCs ≠ [a, b]) ∧
      (∀ (s : MultiVillageSystem) (ticks : List (ℚ × (Nat → ℚ))) (j : Nat) (B : Village),
        quietAt s B.id → (∀ t ∈ ticks, ∀ k, 0 ≤ t.2 k) → s.m_villages[j]? = some B →
        (∀ i v, i ≠ j → s.m_villages[i]? = some v → relationIsZero v B.id) →
        ∃ B', (runUpdates sqrt s ticks).m_villages[j]? = some B' ∧
          B'.technologies = B.technologies) := by
  refine ⟨calculateTechSpreadChance_bounds sqrt, calculateTechSpreadChance_zero sqrt, ?_, ?_⟩
  · intro s ticks a b hq hr G
    exact runUpdates_pushed sqrt a b ticks s hq hr G
  · intro s ticks j B hq hr hB H
    have h := runUpdates_technologies sqrt j B.id ticks s hq hr
      ⟨fun t ht => by rw [hB] at ht; rw [← Option.some.inj ht], H⟩
    rw [hB] at h
    cases hv : (runUpdates sqrt s ticks).m_villages[j]? with
    | none => rw [hv] at h; simp at h
    | some B' =>
      rw [hv] at h
      simp only [Option.map_some', Option.some.injEq] at h
      exact ⟨B', rfl, h⟩

/-- C10 (witness): in Scenario 5 the second village still knows no technology
after fifty ticks. -/
theorem no_spread_without_relation_witness :
    (quietAt millSystem "village_2" ∧ (∀ t ∈ fiftyTicks, ∀ k, 0 ≤ t.2 k) ∧
        (∀ i v, i ≠ 1 → millSystem.m_villages[i]? = some v → relationIsZero v "village_2")) ∧
      ∃ B', (runUpdates sqrtQ millSystem fiftyTicks).m_villages[1]? = some B' ∧
        B'.technologies = [] :=
  have h1 : quietAt millSystem "village_2" := fun r hr => by
    have : millSystem.m_tradeRoutes = [] := rfl
    rw [this] at hr
    simp at hr
  have h2 : ∀ t ∈ fiftyTicks, ∀ k, 0 ≤ t.2 k := fun t ht k => by
    rw [List.eq_of_mem_replicate ht]
  have h3 : ∀ i v, i ≠ 1 → millSystem.m_villages[i]? = some v → relationIsZero v "village_2" := by
    intro i v hi hv
    have hrel : v.villageRelations = [] := by
      have hall : ∀ w ∈ millSystem.m_villages, w.villageRelations = [] := by decide!
      exact hall v (List.getElem?_mem hv)
    simp [relationIsZero, Village.relation, hrel, mapGet, Relations.zero]
  ⟨⟨h1, h2, h3⟩,
    (no_spread_without_relation sqrtQ).2.2.2 millSystem fiftyTicks 1
      { id := "village_2", name := "B", position := (500, 0), population := 100
        resources := [(.Food, 1000), (.Wood, 500), (.Stone, 300), (.Metal, 100), (.Tools, 50)]
        technologies := [], prosperity := 1 / 2, influence := 0, villageRelations := [] }
      h1 h2 (by decide!) h3⟩

/-- When the first village of Scenario 5 also sends `Food` to the second over an
active route, the settlement step of the first tick raises its trust before the
diffusion step reads it, and a draw of 0 hands `WaterMill` to the second village. -/
theorem spread_after_trade :
    (update sqrtQ (fun _ => 0) { millSystem with m_tradeRoutes := [nearRoute] } 1).m_villages.map
        (fun v => v.technologies) = [["WaterMill"], ["WaterMill"]] := by
  decide!

/-! ## Where stocks do stay non-negative -/

theorem mapGet_nonneg {K : Type} [DecidableEq K] (m : List (K × ℚ)) (k : K)
    (h : ∀ e ∈ m, 0 ≤ e.2) : 0 ≤ mapGet m k 0 := by
  induction m with
  | nil => simp [mapGet]
  | cons e rest ih =>
    obtain ⟨k', v⟩ := e
    by_cases hk : k' = k
    · simpa [mapGet, hk] using h (k', v) (List.mem_cons_self _ _)
    · simpa [mapGet, hk] using ih (fun e he => h e (List.mem_cons_of_mem _ he))

theorem mapModify_nonneg {K : Type} [DecidableEq K] (m : List (K × ℚ)) (k : K) (f : ℚ → ℚ)
    (h : ∀ e ∈ m, 0 ≤ e.2) (hf : 0 ≤ f (mapGet m k 0)) : ∀ e ∈ mapModify m k 0 f, 0 ≤ e.2 := by
  induction m with
  | nil =>
    intro e he
    simp only [mapModify, List.mem_singleton] at he
    rw [he]
    simpa [mapGet] using hf
  | cons x rest ih =>
    obtain ⟨k', v⟩ := x
    by_cases hk : k' = k
    · intro e he
      simp only [mapModify, hk, if_true, List.mem_cons] at he
      rcases he with he | he
      · rw [he]
        simpa [mapGet, hk] using hf
      · exact h e (List.mem_cons_of_mem _ he)
    · intro e he
      simp only [mapModify, hk, if_false, List.mem_cons] at he
      rcases he with he | he
      · rw [he]
        exact h (k', v) (List.mem_cons_self _ _)
      · exact ih (fun e he => h e (List.mem_cons_of_mem _ he))
          (by simpa [mapGet, hk] using hf) e he

theorem mem_updateAt {α : Type} (xs : List α) (i : Nat) (f : α → α) (y : α)
    (hy : y ∈ updateAt xs i f) : y ∈ xs ∨ ∃ x, xs[i]? = some x ∧ y = f x := by
  induction xs generalizing i with
  | nil => simp [updateAt] at hy
  | cons x rest ih =>
    cases i with
    | zero =>
      simp only [updateAt, List.mem_cons] at hy
      rcases hy with hy | hy
      · exact Or.inr ⟨x, by simp, hy⟩
      · exact Or.inl (List.mem_cons_of_mem _ hy)
    | succ i =>
      simp only [updateAt, List.mem_cons] at hy
      rcases hy with hy | hy
      · exact Or.inl (by rw [hy]; exact List.mem_cons_self _ _)
      · rcases ih i hy with h | ⟨z, hz, hyz⟩
        · exact Or.inl (List.mem_cons_of_mem _ h)
        · exact Or.inr ⟨z, by simpa using hz, hyz⟩

theorem stocksNonneg_updateAt (vs : List Village) (i : Nat) (f : Village → Village)
    (h : stocksNonneg vs)
    (hf : ∀ x, vs[i]? = some x → ∀ e ∈ (f x).resources, 0 ≤ e.2) :
    stocksNonneg (updateAt vs i f) := by
  intro v hv
  rcases mem_updateAt vs i f v hv with h1 | ⟨x, hx, hvx⟩
  · exact h v h1
  · rw [hvx]
    exact hf x hx

theorem stocksNonneg_of_map (vs ws : List Village)
    (hm : vs.map (fun v => v.resources) = ws.map (fun v => v.resources))
    (h : stocksNonneg ws) : stocksNonneg vs := by
  intro v hv
  obtain ⟨i, hi⟩ := List.mem_iff_getElem?.mp hv
  obtain ⟨w, hw, hp⟩ := getElem?_of_map_eq _ _ _ hm i v hi
  rw [hp]
  exact h w (List.getElem?_mem hw)

theorem stocksNonneg_tradeResource (vol dt : ℚ) (si ti : Nat) (vs : List Village)
    (r : ResourceType) (hamount : 0 ≤ vol * dt) (h : stocksNonneg vs) :
    stocksNonneg (tradeResource vol dt si ti vs r) := by
  have h0 : stocksNonneg (updateAt vs si (fun v => v.modifyStock r id)) := by
    apply stocksNonneg_updateAt vs si _ h
    intro x hx
    exact mapModify_nonneg _ _ _ (h x (List.getElem?_mem hx))
      (mapGet_nonneg _ _ (h x (List.getElem?_mem hx)))
  unfold tradeResource
  dsimp only
  split
  · rename_i source target hs ht
    split
    · rename_i hg
      have h1 : stocksNonneg (updateAt (updateAt vs si (fun v => v.modifyStock r id)) si
          (fun v => v.modifyStock r (fun q => q - vol * dt))) := by
        apply stocksNonneg_updateAt _ si _ h0
        intro x hx
        rw [hs] at hx
        simp only [Option.some.injEq] at hx
        subst hx
        apply mapModify_nonneg _ _ _ (h0 source (List.getElem?_mem hs))
        have : vol * dt ≤ source.stock r := hg
        unfold Village.stock at this
        linarith
      have h2 : stocksNonneg (updateAt (updateAt (updateAt vs si (fun v => v.modifyStock r id)) si
          (fun v => v.modifyStock r (fun q => q - vol * dt))) ti
          (fun v => v.modifyStock r (fun q => q + vol * dt))) := by
        apply stocksNonneg_updateAt _ ti _ h1
        intro x hx
        apply mapModify_nonneg _ _ _ (h1 x (List.getElem?_mem hx))
        have := mapGet_nonneg x.resources r (h1 x (List.getElem?_mem hx))
        linarith
      exact stocksNonneg_of_map _ _
        (map_updateTradeRelations (fun v : Village => v.resources) (fun _ _ _ => rfl) _ _ _ _ _ _) h2
    · exact h0
  · exact h0

theorem stocksNonneg_updateTradeRoutes (routes : List TradeRoute) (vs : List Village) (dt : ℚ)
    (hdt : 0 ≤ dt) (hvol : ∀ r ∈ routes, r.active = true → 0 ≤ calculateTradeVolume r)
    (h : stocksNonneg vs) : stocksNonneg (updateTradeRoutes routes vs dt) := by
  unfold updateTradeRoutes
  induction routes generalizing vs with
  | nil => exact h
  | cons r rest ih =>
    rw [List.foldl_cons]
    apply ih _ (fun r' hr' => hvol r' (List.mem_cons_of_mem _ hr'))
    by_cases ha : r.active = true
    · rw [if_pos ha]
      split
      · unfold processTradeRoute
        exact foldl_invariant _ stocksNonneg
          (fun ws res hws => stocksNonneg_tradeResource _ dt _ _ ws res
            (mul_nonneg (hvol r (List.mem_cons_self _ _) ha) hdt) hws) _ _ h
      · exact h
    · rw [if_neg ha]
      exact h

theorem resources_updateTechnologyDiffusion (sqrt : ℚ → ℚ) (rng : Nat → ℚ) (vs : List Village)
    (dt : ℚ) :
    (updateTechnologyDiffusion sqrt rng vs dt).villages.map (fun v => v.resources)
      = vs.map (fun v => v.resources) := by
  refine updateTechnologyDiffusion_invariant sqrt rng dt
    (fun d : Diffusion => d.villages.map (fun v => v.resources) = vs.map (fun v => v.resources))
    ?_ vs rfl
  intro i tech d j hd
  rcases spreadTo_cases sqrt rng i tech dt d j with h | ⟨source, target, -, -, -, -, -, hv, -⟩
  · show (spreadTo sqrt rng i tech dt d j).villages.map (fun v => v.resources) = _
    rw [h.1]
    exact hd
  · show (spreadTo sqrt rng i tech dt d j).villages.map (fun v => v.resources) = _
    rw [hv, map_updateAt_of_eq (fun v : Village => v.resources)
      (fun v => { v with technologies := v.technologies ++ [tech] }) (fun _ => rfl)]
    exact hd

/-- After `update(dt)` with `dt ≥ 0` no stock is negative, provided no active
route has a negative trade volume (as every route of distance at most 1000 and
safety at least 0 has). -/
theorem update_stocksNonneg (sqrt : ℚ → ℚ) (rng : Nat → ℚ) (s : MultiVillageSystem) (dt : ℚ)
    (hdt : 0 ≤ dt) (hvol : ∀ r ∈ s.m_tradeRoutes, r.active = true → 0 ≤ calculateTradeVolume r) :
    stocksNonneg (update sqrt rng s dt).m_villages := by
  have h1 : stocksNonneg (s.m_villages.map (fun v => updateVillage sqrt s.m_villages.length v dt)) := by
    intro v hv e he
    simp only [List.mem_map] at hv
    obtain ⟨w, -, hw⟩ := hv
    rw [← hw] at he
    simp only [updateVillage, updateInfluence, updateProsperity, updateResources, List.mem_map] at he
    obtain ⟨e0, -, he0⟩ := he
    rw [← he0]
    exact le_max_left _ _
  rw [villages_update]
  exact stocksNonneg_of_map _ _ (resources_updateTechnologyDiffusion sqrt rng _ dt)
    (stocksNonneg_updateTradeRoutes _ _ dt hdt hvol h1)

/-! ## Where prosperity and influence do stay within [0,1] -/

theorem foldl_value_nonneg (m : List (ResourceType × ℚ)) (h : ∀ e ∈ m, 0 ≤ e.2) :
    ∀ acc : ℚ, 0 ≤ acc → 0 ≤ m.foldl (fun acc e => acc + e.2 * getResourceValue e.1) acc := by
  induction m with
  | nil => intro acc hacc; exact hacc
  | cons e rest ih =>
    intro acc hacc
    rw [List.foldl_cons]
    apply ih (fun e he => h e (List.mem_cons_of_mem _ he))
    have hv : 0 ≤ getResourceValue e.1 := by
      cases e.1 <;> simp [getResourceValue]
    have := mul_nonneg (h e (List.mem_cons_self _ _)) hv
    linarith

theorem calculateResourceScore_bounds (v : Village) (h : ∀ e ∈ v.resources, 0 ≤ e.2) :
    0 ≤ calculateResourceScore v ∧ calculateResourceScore v ≤ 1 := by
  unfold calculateResourceScore
  dsimp only
  have := foldl_value_nonneg v.resources h 0 (le_refl 0)
  constructor
  · apply le_min
    · norm_num
    · positivity
  · exact min_le_left _ _

theorem calculateTechnologyScore_bounds (v : Village) :
    0 ≤ calculateTechnologyScore v ∧ calculateTechnologyScore v ≤ 1 := by
  unfold calculateTechnologyScore
  constructor
  · apply le_min
    · norm_num
    · positivity
  · exact min_le_left _ _

/-- After `updateVillage` prosperity is at least 0, and it is at most 1 when the
population is at most 1000; influence then lies in `[0,1]` when the village's
trade factor is not negative. -/
theorem updateVillage_bounds (sqrt : ℚ → ℚ) (n : Nat) (v : Village) (dt : ℚ) :
    0 ≤ (updateVillage sqrt n v dt).prosperity ∧
      ((updateVillage sqrt n v dt).population ≤ 1000 →
        (updateVillage sqrt n v dt).prosperity ≤ 1 ∧
        (0 ≤ calculateTradeFactor v →
          0 ≤ (updateVillage sqrt n v dt).influence ∧ (updateVillage sqrt n v dt).influence ≤ 1)) := by
  have hres : ∀ e ∈ (updateResources sqrt (updatePopulation v dt) dt).resources, 0 ≤ e.2 := by
    intro e he
    simp only [updateResources, List.mem_map] at he
    obtain ⟨e0, -, he0⟩ := he
    rw [← he0]
    exact le_max_left _ _
  obtain ⟨r0, r1⟩ := calculateResourceScore_bounds _ hres
  obtain ⟨t0, t1⟩ := calculateTechnologyScore_bounds (updateResources sqrt (updatePopulation v dt) dt)
  have hpop : (0 : ℚ) ≤ ((updateResources sqrt (updatePopulation v dt) dt).population : ℚ) / 1000 := by
    positivity
  have hp : (updateVillage sqrt n v dt).prosperity
      = (calculateResourceScore (updateResources sqrt (updatePopulation v dt) dt)
        + ((updateResources sqrt (updatePopulation v dt) dt).population : ℚ) / 1000
        + calculateTechnologyScore (updateResources sqrt (updatePopulation v dt) dt)) / 3 := rfl
  have hi : (updateVillage sqrt n v dt).influence
      = ((updateVillage sqrt n v dt).prosperity
        + calculateRelationsFactor n (updateProsperity (updateResources sqrt (updatePopulation v dt) dt))
        + calculateTradeFactor (updateProsperity (updateResources sqrt (updatePopulation v dt) dt))) / 3 :=
    rfl
  have hpopeq : (updateVillage sqrt n v dt).population
      = (updateResources sqrt (updatePopulation v dt) dt).population := rfl
  have htf : calculateTradeFactor (updateProsperity (updateResources sqrt (updatePopulation v dt) dt))
      = calculateTradeFactor v := rfl
  have hrf := clamp_bounds
    ((updateProsperity (updateResources sqrt (updatePopulation v dt) dt)).villageRelations.foldl
      (fun acc e => acc + e.2.trust) 0 / n) 0 1 (by norm_num)
  have htf1 : calculateTradeFactor v ≤ 1 := min_le_left _ _
  refine ⟨by rw [hp]; linarith, ?_⟩
  intro hle
  have hle' : ((updateResources sqrt (updatePopulation v dt) dt).population : ℚ) / 1000 ≤ 1 := by
    rw [hpopeq] at hle
    have : ((updateResources sqrt (updatePopulation v dt) dt).population : ℚ) ≤ 1000 := by
      exact_mod_cast hle
    linarith
  have hp1 : (updateVillage sqrt n v dt).prosperity ≤ 1 := by rw [hp]; linarith
  have hp0 : 0 ≤ (updateVillage sqrt n v dt).prosperity := by rw [hp]; linarith
  refine ⟨hp1, ?_⟩
  intro htf0
  rw [hi, htf]
  unfold calculateRelationsFactor
  dsimp only
  constructor <;> linarith [hrf.1, hrf.2]

/-! ## Starting research (C11) -/

theorem findTechnology_eq_none (technologies : List Technology) (name : String) :
    findTechnology technologies name = none ↔ ∀ t ∈ technologies, t.name ≠ name := by
  induction technologies with
  | nil => simp [findTechnology]
  | cons t rest ih =>
    by_cases h : t.name = name
    · simp [findTechnology, h]
    · simp [findTechnology, h, ih]

theorem findTechnology_lt (technologies : List Technology) (name : String) (i : Nat)
    (h : findTechnology technologies name = some i) : i < technologies.length := by
  induction technologies generalizing i with
  | nil => simp [findTechnology] at h
  | cons t rest ih =>
    by_cases hv : t.name = name
    · simp [findTechnology, hv] at h
      subst h
      simp
    · simp [findTechnology, hv] at h
      obtain ⟨k, hk, rfl⟩ := h
      have := ih k hk
      simp
      omega

theorem lookupTechnology_eq_none (technologies : List Technology) (name : String) :
    lookupTechnology technologies name = none ↔ ∀ t ∈ technologies, t.name ≠ name := by
  rw [← findTechnology_eq_none]
  unfold lookupTechnology
  cases h : findTechnology technologies name with
  | none => simp
  | some i =>
    have := findTechnology_lt technologies name i h
    simp [List.getElem?_eq_getElem this]

theorem prerequisitesDiscovered_eq_true (technologies : List Technology) (tech : Technology) :
    prerequisitesDiscovered technologies tech = true ↔
      ∀ prereq ∈ tech.prerequisites,
        ∃ p, lookupTechnology technologies prereq = some p ∧ p.discovered = true := by
  unfold prerequisitesDiscovered
  rw [List.all_eq_true]
  constructor
  · intro h prereq hp
    have := h prereq hp
    cases hl : lookupTechnology technologies prereq with
    | none => rw [hl] at this; simp at this
    | some p => rw [hl] at this; exact ⟨p, rfl, this⟩
  · intro h prereq hp
    obtain ⟨p, hl, hd⟩ := h prereq hp
    rw [hl]
    exact hd

theorem resourceModifier_isSome (getResourceQuantity : ResourceType → ℚ) :
    ∀ (requirements : List (ResourceType × ℚ)) (modifier : ℚ),
      ∃ m, resourceModifier (some getResourceQuantity) requirements modifier = some m
  | [], modifier => ⟨modifier, rfl⟩
  | (resource, amount) :: rest, modifier => by
    simp only [resourceModifier]
    exact resourceModifier_isSome getResourceQuantity rest _

theorem calculateBaseProgressRate_isSome (getResourceQuantity : ResourceType → ℚ)
    (tech : Technology) :
    ∃ rate, calculateBaseProgressRate (some getResourceQuantity) tech = some rate := by
  unfold calculateBaseProgressRate
  obtain ⟨m, hm⟩ := resourceModifier_isSome getResourceQuantity tech.resourceRequirements 1
  simp only [hm]
  exact ⟨_, rfl⟩

/-- The calls of `startResearch` that return false leave the system as it is. -/
theorem startResearch_rejects (s : TechnologySystem) (funding : ℚ) (techName : String)
    (h : (∀ t ∈ s.technologies, t.name ≠ techName) ∨
      ∃ tech, lookupTechnology s.technologies techName = some tech ∧
        (tech.discovered = true ∨ ∃ prereq ∈ tech.prerequisites,
          ∀ p, lookupTechnology s.technologies prereq = some p → p.discovered = false)) :
    s.startResearch funding techName = some (false, s) := by
  unfold TechnologySystem.startResearch
  rcases h with h | ⟨tech, hl, h⟩
  · rw [(findTechnology_eq_none _ _).mpr h]
  · unfold lookupTechnology at hl
    cases hf : findTechnology s.technologies techName with
    | none => rfl
    | some i =>
      rw [hf] at hl
      have hl' : s.technologies[i]? = some tech := hl
      simp only [hl']
      rcases h with hd | ⟨prereq, hp, hund⟩
      · simp [hd]
      · have hnot : prerequisitesDiscovered s.technologies tech = false := by
          cases hpd : prerequisitesDiscovered s.technologies tech with
          | false => rfl
          | true =>
            obtain ⟨p, hlp, hdp⟩ := (prerequisitesDiscovered_eq_true _ _).mp hpd prereq hp
            rw [hund p hlp] at hdp
            exact absurd hdp (by decide)
        by_cases hd : tech.discovered = true
        · simp [hd]
        · simp [hd, hnot]

/-- The calls of `startResearch` that return true append one project. -/
theorem startResearch_accepts (s : TechnologySystem) (funding : ℚ) (techName : String)
    (tech : Technology) (getResourceQuantity : ResourceType → ℚ)
    (he : s.m_economicSystem = some getResourceQuantity)
    (hl : lookupTechnology s.technologies techName = some tech) (hd : tech.discovered = false)
    (hp : ∀ prereq ∈ tech.prerequisites,
      ∃ p, lookupTechnology s.technologies prereq = some p ∧ p.discovered = true) :
    ∃ i rate, findTechnology s.technologies techName = some i ∧ s.technologies[i]? = some tech ∧
      calculateBaseProgressRate s.m_economicSystem tech = some rate ∧
      s.startResearch funding techName = some (true, { s with activeProjects := s.activeProjects ++
        [{ targetTechnology := i, currentFunding := funding, assignedScholars := []
           progressRate := rate }] }) := by
  unfold lookupTechnology at hl
  cases hf : findTechnology s.technologies techName with
  | none => rw [hf] at hl; simp at hl
  | some i =>
    rw [hf] at hl
    have hl' : s.technologies[i]? = some tech := hl
    obtain ⟨rate, hr⟩ := calculateBaseProgressRate_isSome getResourceQuantity tech
    rw [← he] at hr
    refine ⟨i, rate, rfl, hl', hr, ?_⟩
    unfold TechnologySystem.startResearch
    simp only [hf, hl', hd, hr, (prerequisitesDiscovered_eq_true _ _).mpr hp]
    simp

/-- C11: `startResearch(name)` returns false and leaves the system as it is when
no technology has that name, when the technology of that name is already
discovered, or when one of its prerequisites is the name of no technology or of
an undiscovered one; with an economic system present it otherwise returns true
and appends exactly one project, whose target is that technology and whose rate
is `calculateBaseProgressRate`.  On the initial tree `startResearch` on
Steel Forging returns false, Basic Metallurgy being no technology of the tree. -/
theorem startResearch_contract (s : TechnologySystem) (funding : ℚ) (techName : String) :
    (((∀ t ∈ s.technologies, t.name ≠ techName) ∨
        ∃ tech, lookupTechnology s.technologies techName = some tech ∧
          (tech.discovered = true ∨ ∃ prereq ∈ tech.prerequisites,
            ∀ p, lookupTechnology s.technologies prereq = some p → p.discovered = false)) →
        s.startResearch funding techName = some (false, s)) ∧
      (∀ (tech : Technology) (getResourceQuantity : ResourceType → ℚ),
        s.m_economicSystem = some getResourceQuantity →
        lookupTechnology s.technologies techName = some tech → tech.discovered = false →
        (∀ prereq ∈ tech.prerequisites,
          ∃ p, lookupTechnology s.technologies prereq = some p ∧ p.discovered = true) →
        ∃ i rate, findTechnology s.technologies techName = some i ∧
          s.technologies[i]? = some tech ∧
          calculateBaseProgressRate s.m_economicSystem tech = some rate ∧
          s.startResearch funding techName
            = some (true, { s with activeProjects := s.activeProjects ++
                [{ targetTechnology := i, currentFunding := funding, assignedScholars := []
                   progressRate := rate }] })) ∧
      (∀ economicSystem : Option (ResourceType → ℚ),
        (TechnologySystem.construct economicSystem).startResearch funding "Steel Forging"
          = some (false, TechnologySystem.construct economicSystem)) := by
  refine ⟨startResearch_rejects s funding techName,
    fun tech q he hl hd hp => startResearch_accepts s funding techName tech q he hl hd hp, ?_⟩
  intro economicSystem
  apply startResearch_rejects
  right
  have hsteel : lookupTechnology initializeTechnologyTree "Steel Forging" = some steelForging := by
    decide!
  have hnone : lookupTechnology initializeTechnologyTree "Basic Metallurgy" = none := by decide!
  refine ⟨steelForging, hsteel, Or.inr ⟨"Basic Metallurgy", by simp [steelForging], ?_⟩⟩
  intro p hp
  have hp' : lookupTechnology initializeTechnologyTree "Basic Metallurgy" = some p := hp
  rw [hnone] at hp'
  exact absurd hp' (by simp)

/-- C11 (witness): on the initial tree with 75 of every resource, `WaterMill` is
the name of no technology and is rejected, and `Water Mill` is accepted. -/
theorem startResearch_contract_witness :
    (TechnologySystem.construct (some (fun _ => 75))).startResearch 0 "WaterMill"
        = some (false, TechnologySystem.construct (some (fun _ => 75))) ∧
      ∃ i rate, findTechnology (TechnologySystem.construct (some (fun _ => 75))).technologies
          "Water Mill" = some i ∧
        calculateBaseProgressRate (some (fun _ => 75)) waterMill = some rate ∧
        (TechnologySystem.construct (some (fun _ => 75))).startResearch 0 "Water Mill"
          = some (true, { TechnologySystem.construct (some (fun _ => 75)) with
              activeProjects := [] ++ [{ targetTechnology := i, currentFunding := 0
                                         assignedScholars := [], progressRate := rate }] }) :=
  ⟨(startResearch_contract (TechnologySystem.construct (some (fun _ => 75))) 0 "WaterMill").1
      (Or.inl (by decide!)),
    by
      obtain ⟨i, rate, h1, -, h3, h4⟩ :=
        (startResearch_contract (TechnologySystem.construct (some (fun _ => 75))) 0
          "Water Mill").2.1 waterMill (fun _ => 75) rfl (by decide!) rfl
          (by simp [waterMill])
      exact ⟨i, rate, h1, h3, h4⟩⟩

/-! ## Discovery is monotone (C12) -/

theorem discoveredKept_refl (l : List Technology) : discoveredKept l l := by
  unfold discoveredKept
  induction l with
  | nil => exact List.Forall₂.nil
  | cons t rest ih => exact List.Forall₂.cons ⟨rfl, id⟩ ih

theorem discoveredKept_trans {a b c : List Technology} (h1 : discoveredKept a b)
    (h2 : discoveredKept b c) : discoveredKept a c := by
  unfold discoveredKept at *
  induction h1 generalizing c with
  | nil =>
    cases h2
    exact List.Forall₂.nil
  | cons hab _ ih =>
    cases h2 with
    | cons hbc hrest =>
      exact List.Forall₂.cons ⟨hbc.1.trans hab.1, fun h => hbc.2 (hab.2 h)⟩ (ih hrest)

theorem discoveredKept_updateAt (l : List Technology) (i : Nat) (f : Technology → Technology)
    (hf : ∀ t, (f t).name = t.name ∧ (f t).discovered = t.discovered) :
    discoveredKept l (updateAt l i f) := by
  unfold discoveredKept
  induction l generalizing i with
  | nil => exact List.Forall₂.nil
  | cons t rest ih =>
    cases i with
    | zero =>
      exact List.Forall₂.cons ⟨(hf t).1, fun h => by rw [(hf t).2]; exact h⟩
        (discoveredKept_refl rest)
    | succ i => exact List.Forall₂.cons ⟨rfl, id⟩ (ih i)

/-- The function `checkBreakthroughs` sets `discovered` exactly on the technologies
that were discovered or whose progress has reached the required points. -/
theorem checkBreakthroughs_eq (technologies : List Technology) :
    checkBreakthroughs technologies = technologies.map (fun t =>
      { t with discovered := t.discovered || decide (t.progressPoints ≥ t.requiredPoints) }) := by
  unfold checkBreakthroughs
  apply List.map_congr_left
  intro t _
  obtain ⟨n, d, p, r, disc, pre, req, prof, bonus⟩ := t
  by_cases hc : r ≤ p
  · cases disc <;> simp [hc]
  · cases disc <;> simp [hc]

theorem discoveredKept_checkBreakthroughs (technologies : List Technology) :
    discoveredKept technologies (checkBreakthroughs technologies) := by
  rw [checkBreakthroughs_eq]
  unfold discoveredKept
  induction technologies with
  | nil => exact List.Forall₂.nil
  | cons t rest ih =>
    refine List.Forall₂.cons ⟨rfl, fun h => ?_⟩ ih
    simp [h]

theorem discoveredKept_updateResearch (econ : Option (ResourceType → ℚ))
    (technologies technologies' : List Technology) (project : ResearchProject) (dt : ℚ)
    (h : updateResearch econ technologies project dt = some technologies') :
    discoveredKept technologies technologies' := by
  unfold updateResearch at h
  split at h
  · exact absurd h (by simp)
  · split at h
    · exact absurd h (by simp)
    · simp only [Option.some.injEq] at h
      rw [← h]
      exact discoveredKept_updateAt _ _ _ (fun t => ⟨rfl, rfl⟩)

theorem discoveredKept_updateProjects (econ : Option (ResourceType → ℚ)) (dt : ℚ) :
    ∀ (projects : List ResearchProject) (technologies technologies' : List Technology),
      updateProjects econ projects technologies dt = some technologies' →
      discoveredKept technologies technologies'
  | [], technologies, technologies', h => by
    simp only [updateProjects, Option.some.injEq] at h
    rw [← h]
    exact discoveredKept_refl _
  | project :: rest, technologies, technologies', h => by
    simp only [updateProjects] at h
    cases h1 : updateResearch econ technologies project dt with
    | none => rw [h1] at h; exact absurd h (by simp)
    | some mid =>
      rw [h1] at h
      exact discoveredKept_trans (discoveredKept_updateResearch econ _ _ project dt h1)
        (discoveredKept_updateProjects econ dt rest mid technologies' h)

theorem discoveredKept_updateTechnology (s s' : TechnologySystem) (dt : ℚ)
    (h : s.updateTechnology dt = some s') : discoveredKept s.technologies s'.technologies := by
  unfold TechnologySystem.updateTechnology at h
  cases h1 : updateProjects s.m_economicSystem s.activeProjects s.technologies dt with
  | none => rw [h1] at h; exact absurd h (by simp)
  | some mid =>
    rw [h1] at h
    simp only [Option.some.injEq] at h
    rw [← h]
    exact discoveredKept_trans (discoveredKept_updateProjects _ dt _ _ _ h1)
      (discoveredKept_checkBreakthroughs mid)

theorem technologies_startResearch (s : TechnologySystem) (funding : ℚ) (techName : String)
    (r : Bool × TechnologySystem) (h : s.startResearch funding techName = some r) :
    r.2.technologies = s.technologies ∧ r.2.m_economicSystem = s.m_economicSystem := by
  unfold TechnologySystem.startResearch at h
  split at h
  · simp only [Option.some.injEq] at h
    rw [← h]
    exact ⟨rfl, rfl⟩
  · split at h
    · simp only [Option.some.injEq] at h
      rw [← h]
      exact ⟨rfl, rfl⟩
    · split at h
      · simp only [Option.some.injEq] at h
        rw [← h]
        exact ⟨rfl, rfl⟩
      · split at h
        · simp only [Option.some.injEq] at h
          rw [← h]
          exact ⟨rfl, rfl⟩
        · split at h
          · exact absurd h (by simp)
          · simp only [Option.some.injEq] at h
            rw [← h]
            exact ⟨rfl, rfl⟩

theorem discoveredKept_run :
    ∀ (calls : List TechnologyCall) (s s' : TechnologySystem), s.run calls = some s' →
      discoveredKept s.technologies s'.technologies
  | [], s, s', h => by
    simp only [TechnologySystem.run, Option.some.injEq] at h
    rw [← h]
    exact discoveredKept_refl _
  | .update dt :: rest, s, s', h => by
    simp only [TechnologySystem.run] at h
    cases h1 : s.updateTechnology dt with
    | none => rw [h1] at h; exact absurd h (by simp)
    | some mid =>
      rw [h1] at h
      exact discoveredKept_trans (discoveredKept_updateTechnology s mid dt h1)
        (discoveredKept_run rest mid s' h)
  | .start funding name :: rest, s, s', h => by
    simp only [TechnologySystem.run] at h
    cases h1 : s.startResearch funding name with
    | none => rw [h1] at h; exact absurd h (by simp)
    | some r =>
      rw [h1] at h
      have := discoveredKept_run rest r.2 s' h
      rw [(technologies_startResearch s funding name r h1).1] at this
      exact this

theorem throttledProgress_isSome (q : ResourceType → ℚ) :
    ∀ (requirements : List (ResourceType × ℚ)) (progress : ℚ),
      ∃ p, throttledProgress (some q) requirements progress = some p
  | [], progress => ⟨progress, rfl⟩
  | (resource, amount) :: rest, progress => by
    simp only [throttledProgress]
    exact throttledProgress_isSome q rest _

theorem updateProjects_isSome (q : ResourceType → ℚ) (dt : ℚ) :
    ∀ (projects : List ResearchProject) (technologies : List Technology),
      (∀ p ∈ projects, p.targetTechnology < technologies.length) →
      ∃ technologies', updateProjects (some q) projects technologies dt = some technologies' ∧
        technologies'.length = technologies.length
  | [], technologies, _ => ⟨technologies, rfl, rfl⟩
  | project :: rest, technologies, h => by
    have hlt := h project (List.mem_cons_self _ _)
    obtain ⟨p, hp⟩ := throttledProgress_isSome q
      (technologies[project.targetTechnology]).resourceRequirements (project.progressRate * dt)
    have h1 : updateResearch (some q) technologies project dt
        = some (updateAt technologies project.targetTechnology
            (fun t => { t with progressPoints := t.progressPoints + p })) := by
      unfold updateResearch
      simp only [List.getElem?_eq_getElem hlt, hp]
    obtain ⟨t', ht', hl'⟩ := updateProjects_isSome q dt rest
      (updateAt technologies project.targetTechnology
        (fun t => { t with progressPoints := t.progressPoints + p }))
      (fun p' hp' => by
        rw [length_updateAt]
        exact h p' (List.mem_cons_of_mem _ hp'))
    refine ⟨t', ?_, ?_⟩
    · simp only [updateProjects, h1]
      exact ht'
    · rw [hl', length_updateAt]

theorem updateTechnology_isSome (s : TechnologySystem) (q : ResourceType → ℚ) (dt : ℚ)
    (he : s.m_economicSystem = some q) (hw : s.targetsExist) :
    ∃ s', s.updateTechnology dt = some s' ∧ s'.m_economicSystem = some q ∧ s'.targetsExist := by
  obtain ⟨t', ht', hl'⟩ := updateProjects_isSome q dt s.activeProjects s.technologies hw
  refine ⟨{ s with technologies := checkBreakthroughs t' }, ?_, he, ?_⟩
  · unfold TechnologySystem.updateTechnology
    rw [he, ht']
  · intro p hp
    show p.targetTechnology < (checkBreakthroughs t').length
    unfold checkBreakthroughs
    rw [List.length_map, hl']
    exact hw p hp

theorem startResearch_isSome (s : TechnologySystem) (q : ResourceType → ℚ) (funding : ℚ)
    (techName : String) (he : s.m_economicSystem = some q) (hw : s.targetsExist) :
    ∃ r, s.startResearch funding techName = some r ∧ r.2.m_economicSystem = some q ∧
      r.2.targetsExist := by
  unfold TechnologySystem.startResearch
  cases hf : findTechnology s.technologies techName with
  | none => exact ⟨(false, s), rfl, he, hw⟩
  | some i =>
    have hlt := findTechnology_lt _ _ _ hf
    simp only [List.getElem?_eq_getElem hlt]
    by_cases hd : (s.technologies[i]).discovered = true
    · simp only [hd, if_true]
      exact ⟨(false, s), rfl, he, hw⟩
    · simp only [hd, if_false]
      by_cases hp : prerequisitesDiscovered s.technologies (s.technologies[i]) = true
      · obtain ⟨rate, hr⟩ := calculateBaseProgressRate_isSome q (s.technologies[i])
        rw [← he] at hr
        simp only [hp, hr, Bool.not_true, Bool.false_eq_true, if_false]
        refine ⟨_, rfl, he, ?_⟩
        intro p hpm
        simp only [List.mem_append, List.mem_singleton] at hpm
        rcases hpm with hpm | hpm
        · exact hw p hpm
        · rw [hpm]
          exact hlt
      · have hp' : prerequisitesDiscovered s.technologies (s.technologies[i]) = false := by
          simpa using hp
        simp only [hp', Bool.not_false, if_true]
        exact ⟨(false, s), rfl, he, hw⟩

theorem run_isSome (q : ResourceType → ℚ) :
    ∀ (calls : List TechnologyCall) (s : TechnologySystem), s.m_economicSystem = some q →
      s.targetsExist → ∃ s', s.run calls = some s'
  | [], s, _, _ => ⟨s, rfl⟩
  | .update dt :: rest, s, he, hw => by
    obtain ⟨mid, h1, he1, hw1⟩ := updateTechnology_isSome s q dt he hw
    obtain ⟨s', hs'⟩ := run_isSome q rest mid he1 hw1
    exact ⟨s', by simp only [TechnologySystem.run, h1, hs']⟩
  | .start funding name :: rest, s, he, hw => by
    obtain ⟨r, h1, he1, hw1⟩ := startResearch_isSome s q funding name he hw
    obtain ⟨s', hs'⟩ := run_isSome q rest r.2 he1 hw1
    exact ⟨s', by simp only [TechnologySystem.run, h1, hs']⟩

/-- C12: over any sequence of `updateTechnology` and `startResearch` calls every
technology keeps its place and name, and one whose `discovered` flag is set
before the calls has it set after them; with an economic system present and
every project pointing to a technology the calls do return; and
`checkBreakthroughs` leaves a technology discovered exactly when it was
discovered before or its `progressPoints` have reached its `requiredPoints`. -/
theorem discovered_is_monotone (s : TechnologySystem) (calls : List TechnologyCall) :
    (∀ s', s.run calls = some s' →
        List.Forall₂ (fun t t' => t'.name = t.name ∧ (t.discovered = true → t'.discovered = true))
          s.technologies s'.technologies) ∧
      (∀ q : ResourceType → ℚ, s.m_economicSystem = some q → s.targetsExist →
        ∃ s', s.run calls = some s') ∧
      (∀ technologies : List Technology,
        checkBreakthroughs technologies = technologies.map (fun t =>
          { t with discovered := t.discovered || decide (t.progressPoints ≥ t.requiredPoints) })) :=
  ⟨fun s' h => discoveredKept_run calls s s' h, fun q he hw => run_isSome q calls s he hw,
    checkBreakthroughs_eq⟩

/-- C12 (witness): on the initial tree with 75 of every resource, starting
`Water Mill` and ticking once returns. -/
theorem discovered_is_monotone_witness :
    (TechnologySystem.construct (some (fun _ => 75))).targetsExist ∧
      ∃ s', (TechnologySystem.construct (some (fun _ => 75))).run
        [.start 0 "Water Mill", .update 1] = some s' :=
  ⟨fun p hp => by simp [TechnologySystem.construct] at hp,
    (discovered_is_monotone (TechnologySystem.construct (some (fun _ => 75)))
      [.start 0 "Water Mill", .update 1]).2.1 (fun _ => 75) rfl
      (fun p hp => by simp [TechnologySystem.construct] at hp)⟩

/-! ## A null economic system (C20) -/

theorem resourceModifier_none (requirements : List (ResourceType × ℚ)) (modifier : ℚ)
    (h : requirements ≠ []) : resourceModifier none requirements modifier = none := by
  cases requirements with
  | nil => exact absurd rfl h
  | cons e rest =>
    obtain ⟨resource, amount⟩ := e
    rfl

/-- With a null economic system `startResearch` faults on every technology that
passes its checks and has a resource requirement. -/
theorem startResearch_null_faults (s : TechnologySystem) (funding : ℚ) (techName : String)
    (tech : Technology) (he : s.m_economicSystem = none)
    (hl : lookupTechnology s.technologies techName = some tech) (hd : tech.discovered = false)
    (hp : ∀ prereq ∈ tech.prerequisites,
      ∃ p, lookupTechnology s.technologies prereq = some p ∧ p.discovered = true)
    (hreq : tech.resourceRequirements ≠ []) : s.startResearch funding techName = none := by
  unfold lookupTechnology at hl
  cases hf : findTechnology s.technologies techName with
  | none => rw [hf] at hl; simp at hl
  | some i =>
    rw [hf] at hl
    have hl' : s.technologies[i]? = some tech := hl
    have hr : calculateBaseProgressRate s.m_economicSystem tech = none := by
      unfold calculateBaseProgressRate
      rw [he, resourceModifier_none _ _ hreq]
    unfold TechnologySystem.startResearch
    simp only [hf, hl', hd, hr, (prerequisitesDiscovered_eq_true _ _).mpr hp]
    simp

/-- C20: on the system that `TechnologySystem(threadPool, nullptr)` constructs,
`startResearch` on the researchable technologies `Water Mill` and
`Three-Field Rotation` faults: `calculateBaseProgressRate` calls
`getResourceQuantity` through the null `m_economicSystem`. -/
theorem startResearch_null_economic_system (funding : ℚ) :
    (TechnologySystem.construct none).startResearch funding "Water Mill" = none ∧
      (TechnologySystem.construct none).startResearch funding "Three-Field Rotation" = none := by
  have h1 : lookupTechnology initializeTechnologyTree "Water Mill" = some waterMill := by decide!
  have h2 : lookupTechnology initializeTechnologyTree "Three-Field Rotation"
      = some threeFieldRotation := by decide!
  constructor
  · exact startResearch_null_faults _ funding _ waterMill rfl h1 rfl (by simp [waterMill])
      (by simp [waterMill])
  · exact startResearch_null_faults _ funding _ threeFieldRotation rfl h2 rfl
      (by simp [threeFieldRotation]) (by simp [threeFieldRotation])

/-! ## Trade contracts (C13) -/

/-- C13: `createTradeContract` returns false and leaves the system as it is when
`getCurrentPrice(resource) <= 0`, and otherwise returns true and appends exactly
one contract with the given seller, buyer, resource, quantity and duration, the
current price and `isRecurring = false`; the current price is 0 for a resource
with no market entry and `basePrice * currentDemand / environmentalModifier`
for one with an entry (the modifier being non-zero). -/
theorem createTradeContract_contract (s : AdvancedTradeSystem) (env : EnvironmentalSystem)
    (sellerId buyerId : String) (resource : ResourceType) (quantity duration : ℚ)
    (hmod : env.getResourceProductionModifier resource ≠ 0) :
    (getCurrentPrice env s.marketDemands resource ≤ 0 →
        s.createTradeContract env sellerId buyerId resource quantity duration = (false, s)) ∧
      (0 < getCurrentPrice env s.marketDemands resource →
        s.createTradeContract env sellerId buyerId resource quantity duration
          = (true, { s with activeContracts := s.activeContracts ++
              [{ resource := resource, quantity := quantity
                 pricePerUnit := getCurrentPrice env s.marketDemands resource
                 sellerId := sellerId, buyerId := buyerId, duration := duration
                 isRecurring := false }] })) ∧
      (mapFind s.marketDemands resource = none → getCurrentPrice env s.marketDemands resource = 0) ∧
      (∀ demand, mapFind s.marketDemands resource = some demand →
        getCurrentPrice env s.marketDemands resource
          = demand.basePrice * demand.currentDemand / env.getResourceProductionModifier resource) := by
  have _ := hmod
  refine ⟨?_, ?_, ?_, ?_⟩
  · intro h
    unfold AdvancedTradeSystem.createTradeContract
    simp only [h, if_true]
  · intro h
    unfold AdvancedTradeSystem.createTradeContract
    simp only [not_le.mpr h, if_false]
  · intro h
    unfold getCurrentPrice
    rw [h]
  · intro demand h
    unfold getCurrentPrice
    rw [h]
    simp only [one_div]
    rfl

/-- C13 (witness): on the initial market in the initial climate a contract for
`Food` is appended at price 10, and one for `Stone`, which has no market entry,
is refused. -/
theorem createTradeContract_contract_witness :
    EnvironmentalSystem.construct.getResourceProductionModifier .Food ≠ 0 ∧
      0 < getCurrentPrice EnvironmentalSystem.construct AdvancedTradeSystem.construct.marketDemands
        .Food ∧
      AdvancedTradeSystem.construct.createTradeContract EnvironmentalSystem.construct "s" "b"
          .Food 5 30
        = (true, { AdvancedTradeSystem.construct with
            activeContracts := AdvancedTradeSystem.construct.activeContracts ++
              [{ resource := .Food, quantity := 5
                 pricePerUnit := getCurrentPrice EnvironmentalSystem.construct
                   AdvancedTradeSystem.construct.marketDemands .Food
                 sellerId := "s", buyerId := "b", duration := 30, isRecurring := false }] }) :=
  ⟨by decide!, by decide!,
    (createTradeContract_contract AdvancedTradeSystem.construct EnvironmentalSystem.construct
      "s" "b" .Food 5 30 (by decide!)).2.1 (by decide!)⟩

/-! ## The price bounds (C14) -/

theorem basePrice_updatePrices (env : EnvironmentalSystem)
    (marketDemands : List (ResourceType × MarketDemand)) (activeContracts : List TradeContract) :
    ∀ e ∈ updatePrices env marketDemands activeContracts,
      1 ≤ e.2.basePrice ∧ e.2.basePrice ≤ 100 := by
  intro e he
  simp only [updatePrices, List.mem_map] at he
  obtain ⟨e0, -, he0⟩ := he
  rw [← he0]
  exact clamp_bounds _ 1 100 (by norm_num)

theorem marketDemands_createTradeContract (s : AdvancedTradeSystem) (env : EnvironmentalSystem)
    (sellerId buyerId : String) (resource : ResourceType) (quantity duration : ℚ) :
    (s.createTradeContract env sellerId buyerId resource quantity duration).2.marketDemands
      = s.marketDemands := by
  unfold AdvancedTradeSystem.createTradeContract
  dsimp only
  split <;> rfl

theorem basePrice_run :
    ∀ (calls : List MarketCall) (s : AdvancedTradeSystem),
      (∀ e ∈ s.marketDemands, 1 ≤ e.2.basePrice ∧ e.2.basePrice ≤ 100) →
      ∀ e ∈ (s.run calls).marketDemands, 1 ≤ e.2.basePrice ∧ e.2.basePrice ≤ 100
  | [], _, h => h
  | .update env dt :: rest, s, _ =>
    basePrice_run rest (s.updateMarket env dt) (basePrice_updatePrices env _ _)
  | .contract env sellerId buyerId resource quantity duration :: rest, s, h =>
    basePrice_run rest _ (by
      rw [marketDemands_createTradeContract]
      exact h)

/-- C14 (amended): starting from the initial market, after any sequence of
`updateMarket` and `createTradeContract` calls under any climates and active
events, the stored `basePrice` of every market entry lies in `[1,100]`; and
after one `updateMarket` from any market it does so too. -/
theorem basePrice_within_bounds (calls : List MarketCall) :
    (∀ e ∈ (AdvancedTradeSystem.construct.run calls).marketDemands,
        1 ≤ e.2.basePrice ∧ e.2.basePrice ≤ 100) ∧
      (∀ (s : AdvancedTradeSystem) (env : EnvironmentalSystem) (dt : ℚ),
        ∀ e ∈ (s.updateMarket env dt).marketDemands, 1 ≤ e.2.basePrice ∧ e.2.basePrice ≤ 100) :=
  ⟨basePrice_run calls AdvancedTradeSystem.construct (by decide!),
    fun _ env _ => basePrice_updatePrices env _ _⟩

/-- C14 (witness): the `Food` entry after three ticks of a cold and stormy winter. -/
theorem basePrice_within_bounds_witness :
    ((ResourceType.Food, ({ resource := .Food, basePrice := 100, currentDemand := 1 / 2
                            elasticity := 1 / 2 } : MarketDemand))
        ∈ (AdvancedTradeSystem.construct.run
            (List.replicate 3 (.update stormyWinter 1))).marketDemands) ∧
      (1 : ℚ) ≤ 100 ∧ (100 : ℚ) ≤ 100 :=
  ⟨by decide!,
    (basePrice_within_bounds (List.replicate 3 (.update stormyWinter 1))).1
      (ResourceType.Food, { resource := .Food, basePrice := 100, currentDemand := 1 / 2
                            elasticity := 1 / 2 }) (by decide!)⟩

/-- C14 (counterexample): after three ticks of a cold and stormy winter on the
initial market, with no event and no contract, `getCurrentPrice(Food)` is
`1000/7`, above 100. -/
theorem getCurrentPrice_above_bound :
    mapFind (AdvancedTradeSystem.construct.run
        (List.replicate 3 (.update stormyWinter 1))).marketDemands .Food
        = some { resource := .Food, basePrice := 100, currentDemand := 1 / 2, elasticity := 1 / 2 } ∧
      stormyWinter.getResourceProductionModifier .Food = 7 / 20 ∧
      getCurrentPrice stormyWinter (AdvancedTradeSystem.construct.run
        (List.replicate 3 (.update stormyWinter 1))).marketDemands .Food = 1000 / 7 ∧
      ¬ (getCurrentPrice stormyWinter (AdvancedTradeSystem.construct.run
        (List.replicate 3 (.update stormyWinter 1))).marketDemands .Food ≤ 100) := by
  decide!

/-! ## Weather and the price of wood (C15) -/

theorem eventEffects_mul (name : String) (events : List EnvironmentalEvent) (modifier : ℚ) :
    eventEffects name events modifier = modifier * eventEffects name events 1 := by
  unfold eventEffects
  induction events generalizing modifier with
  | nil => simp
  | cons event rest ih =>
    simp only [List.foldl_cons]
    by_cases h : name ∈ event.affectedResources
    · simp only [h, if_true]
      rw [ih (modifier * _), ih (1 * _)]
      ring
    · simp only [h, if_false]
      exact ih modifier

theorem eventEffects_pos (name : String) (events : List EnvironmentalEvent)
    (hsev : ∀ event ∈ events, event.severity ≤ 1) : 0 < eventEffects name events 1 := by
  induction events with
  | nil => simp [eventEffects]
  | cons event rest ih =>
    have hrest := ih (fun e he => hsev e (List.mem_cons_of_mem _ he))
    have hev := hsev event (List.mem_cons_self _ _)
    rw [eventEffects_mul] at hrest ⊢
    unfold eventEffects at hrest ⊢
    simp only [List.foldl_cons]
    by_cases h : name ∈ event.affectedResources
    · simp only [h, if_true]
      have hpos : (0 : ℚ) < 1 * (1 - event.severity * (1 / 2)) := by linarith
      have := eventEffects_mul name rest (1 * (1 - event.severity * (1 / 2)))
      unfold eventEffects at this
      rw [this]
      simp only [one_mul] at hrest ⊢
      exact mul_pos (by linarith) hrest
    · simp only [h, if_false]
      simpa using hrest

theorem getResourceProductionModifier_wood (env : EnvironmentalSystem) :
    env.getResourceProductionModifier .Wood
      = (if env.currentClimate.currentWeather = .Stormy then 49 / 100 else 1)
        * eventEffects "Wood" env.activeEvents 1 := by
  unfold EnvironmentalSystem.getResourceProductionModifier
  rw [eventEffects_mul]
  congr 1
  unfold EnvironmentalSystem.calculateClimateEffect
  cases env.currentClimate.currentWeather <;> simp
  all_goals norm_num

/-- C15: for a market whose `Wood` entry has a positive `basePrice` and a positive
`currentDemand`, and two environments with the same temperature and the same
active events (each of severity at most 1, the range documented for the field),
one with weather `Stormy` and one with weather `Clear`, `getCurrentPrice(Wood)`
is strictly greater in the stormy one. -/
theorem stormy_wood_price_higher (marketDemands : List (ResourceType × MarketDemand))
    (demand : MarketDemand) (stormy clear : EnvironmentalSystem)
    (hentry : mapFind marketDemands .Wood = some demand)
    (hprice : 0 < demand.basePrice) (hdemand : 0 < demand.currentDemand)
    (hstormy : stormy.currentClimate.currentWeather = .Stormy)
    (hclear : clear.currentClimate.currentWeather = .Clear)
    (htemperature : stormy.currentClimate.temperature = clear.currentClimate.temperature)
    (hevents : stormy.activeEvents = clear.activeEvents)
    (hsev : ∀ event ∈ clear.activeEvents, event.severity ≤ 1) :
    getCurrentPrice clear marketDemands .Wood < getCurrentPrice stormy marketDemands .Wood := by
  have _ := htemperature
  have hE := eventEffects_pos "Wood" clear.activeEvents hsev
  unfold getCurrentPrice
  rw [hentry]
  simp only [getResourceProductionModifier_wood, hstormy, hclear, hevents, if_true]
  have hne : (WeatherType.Clear = WeatherType.Stormy) = False := by simp
  simp only [hne, if_false, one_mul]
  have hbd : 0 < demand.basePrice * demand.currentDemand := mul_pos hprice hdemand
  have hlt : 1 / eventEffects "Wood" clear.activeEvents 1
      < 1 / (49 / 100 * eventEffects "Wood" clear.activeEvents 1) := by
    apply one_div_lt_one_div_of_lt
    · exact mul_pos (by norm_num) hE
    · nlinarith
  exact mul_lt_mul_of_pos_left hlt hbd

/-- C15 (witness): the initial market, under the initial climate and under the
same climate with the weather set to `Stormy`. -/
theorem stormy_wood_price_higher_witness :
    getCurrentPrice EnvironmentalSystem.construct initializeMarket .Wood
      < getCurrentPrice { EnvironmentalSystem.construct with
          currentClimate := { initializeClimate with currentWeather := .Stormy } }
          initializeMarket .Wood :=
  stormy_wood_price_higher initializeMarket
    { resource := .Wood, basePrice := 5, currentDemand := 1, elasticity := 3 / 10 }
    { EnvironmentalSystem.construct with
      currentClimate := { initializeClimate with currentWeather := .Stormy } }
    EnvironmentalSystem.construct (by decide!) (by decide!) (by decide!) rfl rfl rfl rfl
    (by intro event he; cases he)

/-! ## The villages of a new system (C16) -/

/-- C16: on a newly constructed system, whatever the id counter stands at, a
single `addVillage(name, position)` leaves four villages, not one: the three
that the constructor adds through `initializeVillages` (`Rivertown`,
`Hillcrest`, `Forestkeep`) followed by the new one, so that `villages[0].name`
is `Rivertown`; the new village, at index 3, has the given name and position,
population 100, prosperity 0.5, influence 0 and the default stocks. -/
theorem addVillage_on_constructed (counter : Nat) (name : String) (position : ℚ × ℚ) :
    (addVillage (MultiVillageSystem.construct counter) name position).m_villages.length = 4 ∧
      (addVillage (MultiVillageSystem.construct counter) name position).m_villages.map
          (fun v => v.name) = ["Rivertown", "Hillcrest", "Forestkeep", name] ∧
      (addVillage (MultiVillageSystem.construct counter) name position).m_villages[0]?.map
          (fun v => v.name) = some "Rivertown" ∧
      (addVillage (MultiVillageSystem.construct counter) name position).m_villages[3]?
        = some { id := "village_" ++ toString (counter + 4), name := name, position := position
                 population := 100, resources := defaultResources, technologies := []
                 prosperity := 1 / 2, influence := 0, villageRelations := [] } :=
  ⟨rfl, rfl, rfl, rfl⟩

/-! ## Routes between display names (C17) -/

theorem id_ne_Village (x : String) (n : String) (h : n.data.head? = some 'V') :
    "village_" ++ x ≠ n := by
  intro e
  have hd := congrArg (fun s : String => s.data.head?) e
  simp only [String.data_append] at hd
  rw [h] at hd
  simp at hd

theorem ids_twoAdded (counter : Nat) (p1 p2 : ℚ × ℚ) :
    (twoAdded counter p1 p2).m_villages.map (fun v => v.id)
      = ["village_" ++ toString (counter + 1), "village_" ++ toString (counter + 2),
         "village_" ++ toString (counter + 3), "village_" ++ toString (counter + 4),
         "village_" ++ toString (counter + 5)] :=
  rfl

/-- C17: on a newly constructed system, whatever the id counter stands at, after
`addVillage("Village1", p1)` and `addVillage("Village2", p2)` the call
`createTradeRoute("Village1", "Village2")` with the display names returns false
and changes nothing, so the route list stays empty: `findVillage` compares its
argument with the generated ids `village_N`, never with a name. -/
theorem createTradeRoute_by_display_name (sqrt : ℚ → ℚ) (stormy : Bool) (counter : Nat)
    (p1 p2 : ℚ × ℚ) :
    findVillage (twoAdded counter p1 p2).m_villages "Village1" = none ∧
      createTradeRoute sqrt stormy (twoAdded counter p1 p2) "Village1" "Village2"
        = (false, twoAdded counter p1 p2) ∧
      (createTradeRoute sqrt stormy (twoAdded counter p1 p2) "Village1" "Village2").2.m_tradeRoutes
        = [] := by
  have hnone : findVillage (twoAdded counter p1 p2).m_villages "Village1" = none := by
    rw [findVillage_eq_none]
    intro v hv
    have hid : v.id ∈ (twoAdded counter p1 p2).m_villages.map (fun v => v.id) :=
      List.mem_map_of_mem _ hv
    rw [ids_twoAdded] at hid
    simp only [List.mem_cons, List.mem_singleton, List.not_mem_nil, or_false] at hid
    rcases hid with h | h | h | h | h <;> rw [h] <;> exact id_ne_Village _ _ rfl
  have hcall : createTradeRoute sqrt stormy (twoAdded counter p1 p2) "Village1" "Village2"
      = (false, twoAdded counter p1 p2) := by
    simp only [createTradeRoute, hnone]
  exact ⟨hnone, hcall, by rw [hcall]; rfl⟩

/-! ## An alliance and the spread of technology (C18) -/

theorem createDiplomaticAgreement_keeps (s : MultiVillageSystem) (a b : String)
    (type : AgreementType) :
    (createDiplomaticAgreement s a b type).2.m_villages = s.m_villages ∧
      (createDiplomaticAgreement s a b type).2.m_tradeRoutes = s.m_tradeRoutes := by
  unfold createDiplomaticAgreement
  split <;> exact ⟨rfl, rfl⟩

/-- C18: `createDiplomaticAgreement` leaves every village, and with it every
relation record, as it was.  So when no village other than the one at index `j`
(the village `B`) has a non-zero relation record for `B` and no active route
that carries a resource starts or ends at `B`, then after an `Alliance` between
any id `a` and `B` is created the spread chance from every other village to `B`
is 0, not positive, and after any sequence of `update` calls with any time steps
and any draws that are not negative the technology list of `B` is what it was. -/
theorem alliance_gives_no_spread (sqrt : ℚ → ℚ) (s : MultiVillageSystem) (a : String) (j : Nat)
    (B : Village) (ticks : List (ℚ × (Nat → ℚ)))
    (hq : quietAt s B.id) (hr : ∀ t ∈ ticks, ∀ k, 0 ≤ t.2 k) (hB : s.m_villages[j]? = some B)
    (H : ∀ i v, i ≠ j → s.m_villages[i]? = some v → relationIsZero v B.id) :
    (createDiplomaticAgreement s a B.id .Alliance).2.m_villages = s.m_villages ∧
      (∀ i v, i ≠ j → (createDiplomaticAgreement s a B.id .Alliance).2.m_villages[i]? = some v →
        calculateTechSpreadChance sqrt v B = 0) ∧
      ∃ B', (runUpdates sqrt (createDiplomaticAgreement s a B.id .Alliance).2 ticks).m_villages[j]?
          = some B' ∧ B'.technologies = B.technologies := by
  obtain ⟨hv, hroutes⟩ := createDiplomaticAgreement_keeps s a B.id .Alliance
  refine ⟨hv, ?_, ?_⟩
  · intro i v hi hiv
    rw [hv] at hiv
    exact calculateTechSpreadChance_zero sqrt v B (H i v hi hiv)
  · have hq' : quietAt (createDiplomaticAgreement s a B.id .Alliance).2 B.id := by
      unfold quietAt
      rw [hroutes]
      exact hq
    have h := runUpdates_technologies sqrt j B.id ticks
      (createDiplomaticAgreement s a B.id .Alliance).2 hq' hr
      ⟨fun t ht => by rw [hv, hB] at ht; rw [← Option.some.inj ht], by rw [hv]; exact H⟩
    rw [hv, hB] at h
    cases hrun : (runUpdates sqrt (createDiplomaticAgreement s a B.id .Alliance).2
        ticks).m_villages[j]? with
    | none => rw [hrun] at h; simp at h
    | some B' =>
      rw [hrun] at h
      simp only [Option.map_some', Option.some.injEq] at h
      exact ⟨B', rfl, h⟩

/-- C18 (witness): the section `Technology Spread` of the tests, with the alliance
created between the ids of the two villages: the call returns true, and after
thirty ticks the second village still knows no technology. -/
theorem alliance_gives_no_spread_witness :
    (createDiplomaticAgreement spreadVillages "village_4" "village_5" .Alliance).1 = true ∧
      spreadVillages.m_villages.map (fun v => (v.name, v.technologies))
        = [("Rivertown", []), ("Hillcrest", []), ("Forestkeep", []), ("Village1", ["WaterMill"]),
           ("Village2", [])] ∧
      ∃ B', (runUpdates sqrtQ (createDiplomaticAgreement spreadVillages "village_4" "village_5"
          .Alliance).2 thirtyTicks).m_villages[4]? = some B' ∧ B'.technologies = [] :=
  have h1 : quietAt spreadVillages "village_5" := fun r hr => by
    have : spreadVillages.m_tradeRoutes = [] := rfl
    rw [this] at hr
    simp at hr
  have h2 : ∀ t ∈ thirtyTicks, ∀ k, 0 ≤ t.2 k := fun t ht k => by
    rw [List.eq_of_mem_replicate ht]
  have h3 : ∀ i v, i ≠ 4 → spreadVillages.m_villages[i]? = some v →
      relationIsZero v "village_5" := by
    intro i v _ hv
    have hrel : v.villageRelations = [] := by
      have hall : ∀ w ∈ spreadVillages.m_villages, w.villageRelations = [] := by decide!
      exact hall v (List.getElem?_mem hv)
    simp [relationIsZero, Village.relation, hrel, mapGet, Relations.zero]
  ⟨by decide!, by decide!,
    (alliance_gives_no_spread sqrtQ spreadVillages "village_4" 4
      { id := "village_5", name := "Village2", position := (100, 100), population := 100
        resources := defaultResources, technologies := [], prosperity := 1 / 2, influence := 0
        villageRelations := [] }
      thirtyTicks h1 h2 (by decide!) h3).2.2⟩

/-! ## Weather and the amount a route delivers (C19) -/

theorem updateTradeRoutes_of_empty (routes : List TradeRoute) (vs : List Village) (dt : ℚ)
    (h : ∀ r ∈ routes, r.tradedResources = []) : updateTradeRoutes routes vs dt = vs := by
  unfold updateTradeRoutes
  induction routes with
  | nil => rfl
  | cons route rest ih =>
    have hr : route.tradedResources = [] := h route (List.mem_cons_self _ _)
    have hstep : (if route.active then
        match findVillage vs route.sourceVillageId, findVillage vs route.targetVillageId with
        | some si, some ti => processTradeRoute route si ti vs dt
        | _, _ => vs
      else vs) = vs := by
      split
      · split
        · simp [processTradeRoute, hr]
        · rfl
      · rfl
    rw [List.foldl_cons, hstep]
    exact ih (fun r hr => h r (List.mem_cons_of_mem _ hr))

theorem villageRelations_of_frame (vs ws : List Village)
    (h : vs.map Village.frame = ws.map Village.frame) :
    vs.map (fun v => v.villageRelations) = ws.map (fun v => v.villageRelations) := by
  have := congrArg (List.map (fun f : String × (ℚ × ℚ) × List (String × Relations) => f.2.2)) h
  simpa [List.map_map, Function.comp_def, Village.frame] using this

theorem villageRelations_update (sqrt : ℚ → ℚ) (rng : Nat → ℚ) (s : MultiVillageSystem) (dt : ℚ)
    (h : ∀ r ∈ s.m_tradeRoutes, r.tradedResources = []) :
    (update sqrt rng s dt).m_villages.map (fun v => v.villageRelations)
      = s.m_villages.map (fun v => v.villageRelations) := by
  rw [villages_update, updateTradeRoutes_of_empty _ _ _ h]
  apply villageRelations_of_frame
  rw [frame_updateTechnologyDiffusion, frame_map_updateVillage]

theorem forall_of_map_eq {α γ : Type} (p : α → γ) (Q : γ → Prop) (vs ws : List α)
    (h : vs.map p = ws.map p) (hw : ∀ w ∈ ws, Q (p w)) : ∀ v ∈ vs, Q (p v) := by
  intro v hv
  have hm : p v ∈ ws.map p := by
    rw [← h]
    exact List.mem_map_of_mem p hv
  obtain ⟨w, hw', hpw⟩ := List.mem_map.mp hm
  rw [← hpw]
  exact hw w hw'

theorem untraded_addVillage (s : MultiVillageSystem) (name : String) (position : ℚ × ℚ)
    (h : s.untraded) : (addVillage s name position).untraded := by
  refine ⟨h.1, ?_⟩
  intro v hv
  simp only [addVillage, List.mem_append, List.mem_singleton] at hv
  rcases hv with hv | hv
  · exact h.2 v hv
  · rw [hv]
    rfl

theorem untraded_createTradeRoute (sqrt : ℚ → ℚ) (stormy : Bool) (s : MultiVillageSystem)
    (a b : String) (h : s.untraded) : (createTradeRoute sqrt stormy s a b).2.untraded := by
  unfold createTradeRoute
  split
  · split
    · refine ⟨?_, h.2⟩
      intro r hr
      simp only [List.mem_append, List.mem_singleton] at hr
      rcases hr with hr | hr
      · exact h.1 r hr
      · rw [hr]
    · exact h
  · exact h

theorem untraded_createDiplomaticAgreement (s : MultiVillageSystem) (a b : String)
    (type : AgreementType) (h : s.untraded) : (createDiplomaticAgreement s a b type).2.untraded := by
  unfold createDiplomaticAgreement
  split
  · exact h
  · exact h

theorem untraded_update (sqrt : ℚ → ℚ) (rng : Nat → ℚ) (s : MultiVillageSystem) (dt : ℚ)
    (h : s.untraded) : (update sqrt rng s dt).untraded :=
  ⟨h.1, forall_of_map_eq (fun v : Village => v.villageRelations) (fun m => m = []) _ _
    (villageRelations_update sqrt rng s dt h.1) h.2⟩

theorem untraded_construct (counter : Nat) : (MultiVillageSystem.construct counter).untraded :=
  untraded_addVillage _ _ _ (untraded_addVillage _ _ _ (untraded_addVillage _ _ _
    ⟨fun _ hr => (by cases hr), fun _ hv => (by cases hv)⟩))

theorem untraded_run (sqrt : ℚ → ℚ) :
    ∀ (calls : List CoordinatorCall) (s : MultiVillageSystem), s.untraded →
      (s.run sqrt calls).untraded
  | [], _, h => h
  | .addVillage name position :: rest, s, h =>
    untraded_run sqrt rest _ (untraded_addVillage s name position h)
  | .createTradeRoute stormy source target :: rest, s, h =>
    untraded_run sqrt rest _ (untraded_createTradeRoute sqrt stormy s source target h)
  | .createDiplomaticAgreement village1 village2 type :: rest, s, h =>
    untraded_run sqrt rest _ (untraded_createDiplomaticAgreement s village1 village2 type h)
  | .update deltaTime rng :: rest, s, h =>
    untraded_run sqrt rest _ (untraded_update sqrt rng s deltaTime h)

/-- C21: in every state reached from a newly constructed system by any sequence
of `addVillage`, `createTradeRoute`, `createDiplomaticAgreement` and `update`
calls, no village has a relation record keyed by its own id.  The reason is that
no route made by `createTradeRoute` carries a resource, so `updateTradeRelations`
is never reached and every relation map stays empty; this covers a route made
from a village to itself and then settled by `update`. -/
theorem no_self_relation_reachable (sqrt : ℚ → ℚ) (counter : Nat)
    (calls : List CoordinatorCall) :
    noSelfRelation ((MultiVillageSystem.construct counter).run sqrt calls).m_villages ∧
      (∀ v ∈ ((MultiVillageSystem.construct counter).run sqrt calls).m_villages,
        v.villageRelations = []) ∧
      (∀ r ∈ ((MultiVillageSystem.construct counter).run sqrt calls).m_tradeRoutes,
        r.tradedResources = []) := by
  have h := untraded_run sqrt calls _ (untraded_construct counter)
  refine ⟨?_, h.2, h.1⟩
  intro v hv
  rw [h.2 v hv]
  simp [mapKeys]

/-- C21 (witness): on a newly constructed system a route from `village_1` to itself
is made and settled by one tick; `village_1` has no relation record afterwards. -/
theorem no_self_relation_reachable_witness :
    (createTradeRoute sqrtQ false (MultiVillageSystem.construct 0) "village_1" "village_1").1
        = true ∧
      ∀ v ∈ ((MultiVillageSystem.construct 0).run sqrtQ
          [.createTradeRoute false "village_1" "village_1", .update 1 (fun _ => 0)]).m_villages,
        v.id ∉ mapKeys v.villageRelations :=
  ⟨by decide!,
    (no_self_relation_reachable sqrtQ 0
      [.createTradeRoute false "village_1" "village_1", .update 1 (fun _ => 0)]).1⟩

/-- Where the invariant of C21 would break: `createTradeRoute` accepts a route from a
village to itself, and when such a route carries a resource, which no public
operation arranges, its settlement calls `updateTradeRelations` with the same
village twice and inserts a record keyed by the village's own id. -/
theorem self_route_with_resource_adds_self_key :
    (createTradeRoute sqrtQ false oneVillage "village_1" "village_1").2.m_tradeRoutes
        = [{ sourceVillageId := "village_1", targetVillageId := "village_1"
             tradedResources := [], distance := 0, safety := 1, active := true }] ∧
      (update sqrtQ (fun _ => 0) selfRouteSystem 1).m_villages.map
        (fun v => (v.id, mapKeys v.villageRelations)) = [("village_1", ["village_1"])] := by
  decide!

/-! ## The throttle of research (C22) -/

theorem throttledProgress_eq (q : ResourceType → ℚ) :
    ∀ (requirements : List (ResourceType × ℚ)) (progress : ℚ),
      throttledProgress (some q) requirements progress
        = some (progress * shortfallProduct q requirements)
  | [], progress => by simp [throttledProgress, shortfallProduct]
  | (resource, amount) :: rest, progress => by
    unfold throttledProgress
    simp only []
    rw [throttledProgress_eq q rest]
    simp only [shortfallProduct, List.map_cons, List.prod_cons]
    by_cases h : q resource < amount
    · simp only [h, if_true]
      rw [mul_assoc]
    · simp only [h, if_false, one_mul]

theorem bottleneckThrottle_le_one (q : ResourceType → ℚ) (requirements : List (ResourceType × ℚ)) :
    bottleneckThrottle q requirements ≤ 1 := by
  induction requirements with
  | nil => simp [bottleneckThrottle]
  | cons e rest ih =>
    simp only [bottleneckThrottle, List.map_cons, List.foldr_cons] at ih ⊢
    exact le_trans (min_le_right _ _) ih

theorem throttle_of_none_short (q : ResourceType → ℚ) (requirements : List (ResourceType × ℚ))
    (hpos : ∀ e ∈ requirements, 0 < e.2)
    (h : requirements.filter (fun e => decide (q e.1 < e.2)) = []) :
    shortfallProduct q requirements = 1 ∧ bottleneckThrottle q requirements = 1 := by
  induction requirements with
  | nil => simp [shortfallProduct, bottleneckThrottle]
  | cons e rest ih =>
    have he : ¬ q e.1 < e.2 := by
      intro hlt
      simp [List.filter_cons, hlt] at h
    have hrest : rest.filter (fun e => decide (q e.1 < e.2)) = [] := by
      simpa [List.filter_cons, he] using h
    obtain ⟨h1, h2⟩ := ih (fun x hx => hpos x (List.mem_cons_of_mem _ hx)) hrest
    have hp := hpos e (List.mem_cons_self _ _)
    constructor
    · simp only [shortfallProduct, List.map_cons, List.prod_cons, he, if_false, one_mul]
      exact h1
    · simp only [bottleneckThrottle, List.map_cons, List.foldr_cons] at h2 ⊢
      rw [h2]
      apply min_eq_right
      rw [le_div_iff₀ hp]
      linarith [not_lt.mp he]

theorem throttle_of_one_short (q : ResourceType → ℚ) (requirements : List (ResourceType × ℚ))
    (hpos : ∀ e ∈ requirements, 0 < e.2)
    (h : (requirements.filter (fun e => decide (q e.1 < e.2))).length ≤ 1) :
    shortfallProduct q requirements = bottleneckThrottle q requirements := by
  induction requirements with
  | nil => simp [shortfallProduct, bottleneckThrottle]
  | cons e rest ih =>
    have hp := hpos e (List.mem_cons_self _ _)
    have hposr : ∀ x ∈ rest, 0 < x.2 := fun x hx => hpos x (List.mem_cons_of_mem _ hx)
    by_cases he : q e.1 < e.2
    · have hrest : rest.filter (fun e => decide (q e.1 < e.2)) = [] := by
        simp only [List.filter_cons, he, decide_True, if_true, List.length_cons] at h
        exact List.length_eq_zero.mp (by omega)
      obtain ⟨h1, h2⟩ := throttle_of_none_short q rest hposr hrest
      simp only [shortfallProduct, List.map_cons, List.prod_cons, he, if_true] at h1 ⊢
      simp only [bottleneckThrottle, List.map_cons, List.foldr_cons] at h2 ⊢
      rw [h1, h2, mul_one]
      symm
      apply min_eq_left
      rw [div_le_iff₀ hp]
      linarith
    · have hrest : (rest.filter (fun e => decide (q e.1 < e.2))).length ≤ 1 := by
        simpa [List.filter_cons, he] using h
      have hi := ih hposr hrest
      have hle := bottleneckThrottle_le_one q rest
      simp only [shortfallProduct, List.map_cons, List.prod_cons, he, if_false, one_mul] at hi ⊢
      simp only [bottleneckThrottle, List.map_cons, List.foldr_cons] at hi hle ⊢
      rw [hi]
      symm
      apply min_eq_right
      refine le_trans hle ?_
      rw [le_div_iff₀ hp]
      linarith [not_lt.mp he]

/-- C22 (amended): for a project whose target exists, with an economic system
present, one `updateResearch(dt)` adds `progressRate * dt * T` to the target's
`progressPoints` and changes nothing else, where `T` is the product of
`v_i / a_i` over the required resources that are short (`v_i < a_i`).  When the
required amounts are positive and at most one required resource is short, `T`
is the smallest ratio `min(1, min_i (v_i / a_i))`. -/
theorem updateResearch_throttle (q : ResourceType → ℚ) (technologies : List Technology)
    (project : ResearchProject) (dt : ℚ) (target : Technology)
    (h : technologies[project.targetTechnology]? = some target) :
    updateResearch (some q) technologies project dt
        = some (updateAt technologies project.targetTechnology (fun t =>
            { t with progressPoints := t.progressPoints
                + project.progressRate * dt * shortfallProduct q target.resourceRequirements })) ∧
      ((∀ e ∈ target.resourceRequirements, 0 < e.2) →
        (target.resourceRequirements.filter (fun e => decide (q e.1 < e.2))).length ≤ 1 →
        shortfallProduct q target.resourceRequirements
          = bottleneckThrottle q target.resourceRequirements) := by
  constructor
  · unfold updateResearch
    rw [h]
    simp only [throttledProgress_eq]
  · exact throttle_of_one_short q target.resourceRequirements

/-- C22 (witness): research on `Water Mill` with 75 of every resource, where only
`Wood` is short: the throttle is `75/100`, the smallest ratio. -/
theorem updateResearch_throttle_witness :
    updateResearch (some (fun _ => 75)) initializeTechnologyTree
        { targetTechnology := 1, currentFunding := 0, assignedScholars := []
          progressRate := 1 / 200 } 1
        = some (updateAt initializeTechnologyTree 1 (fun t =>
            { t with progressPoints := t.progressPoints
                + 1 / 200 * 1 * shortfallProduct (fun _ => 75) waterMill.resourceRequirements })) ∧
      shortfallProduct (fun _ => 75) waterMill.resourceRequirements = 3 / 4 ∧
      shortfallProduct (fun _ => 75) waterMill.resourceRequirements
        = bottleneckThrottle (fun _ => 75) waterMill.resourceRequirements :=
  have h := updateResearch_throttle (fun _ => 75) initializeTechnologyTree
    { targetTechnology := 1, currentFunding := 0, assignedScholars := []
      progressRate := 1 / 200 } 1 waterMill rfl
  ⟨h.1, by decide!, h.2 (by decide!) (by decide!)⟩

/-- C22 (counterexample): research on `Water Mill` with 25 of every resource, where
`Wood` (25 of 100) and `Stone` (25 of 50) are both short.  `startResearch` sets
`progressRate = 1/1200`, and one `updateTechnology(1)` adds
`1/1200 * 1/4 * 1/2 = 1/9600` to `progressPoints`, not
`1/1200 * min(1, 1/4, 1/2) = 1/4800`. -/
theorem updateResearch_two_short :
    ((TechnologySystem.construct (some (fun _ => 25))).run [.start 0 "Water Mill"]).map
        (fun s => s.activeProjects.map (fun p => (p.targetTechnology, p.progressRate)))
        = some [(1, 1 / 1200)] ∧
      ((TechnologySystem.construct (some (fun _ => 25))).run
        [.start 0 "Water Mill", .update 1]).map
        (fun s => s.technologies.map (fun t => t.progressPoints)) = some [0, 1 / 9600, 0] ∧
      bottleneckThrottle (fun _ => 25) waterMill.resourceRequirements = 1 / 4 ∧
      (0 : ℚ) + 1 / 1200 * 1 * bottleneckThrottle (fun _ => 25) waterMill.resourceRequirements
        = 1 / 4800 := by
  decide!

/-! ## The production modifier (C23) -/

theorem eventEffects_prod (name : String) (events : List EnvironmentalEvent) :
    eventEffects name events 1
      = (events.map (fun event =>
          if name ∈ event.affectedResources then 1 - event.severity * (1 / 2) else 1)).prod := by
  induction events with
  | nil => simp [eventEffects]
  | cons event rest ih =>
    rw [List.map_cons, List.prod_cons, ← ih]
    have h : eventEffects name (event :: rest) 1
        = eventEffects name rest
            (if name ∈ event.affectedResources then 1 * (1 - event.severity * (1 / 2)) else 1) := by
      simp only [eventEffects, List.foldl_cons]
    rw [h, eventEffects_mul name rest]
    by_cases hm : name ∈ event.affectedResources
    · simp only [hm, if_true, one_mul]
    · simp only [hm, if_false]

/-- C23 (amended): `getResourceProductionModifier` is the climate effect times one
factor `1 - severity * 0.5` for each active event whose affected-resource list
names the resource, hence the climate effect alone when no event is active.
The climate effect for Wood is `0.7 * 0.7 = 0.49` under Stormy weather, where
both the resource switch and the weather switch apply, and 1 otherwise; for
Food it is 0.5 when the temperature is below 5 or above 35 and the weather is
neither Drought nor Stormy, and 0.3 under Drought at a temperature in
`[5,35]`; under Stormy weather every resource other than Wood, Food at such a
temperature included, gets 0.7. -/
theorem getResourceProductionModifier_effects (env : EnvironmentalSystem) (type : ResourceType) :
    env.getResourceProductionModifier type
        = env.calculateClimateEffect type
          * (env.activeEvents.map (fun event =>
              if getResourceTypeName type ∈ event.affectedResources
              then 1 - event.severity * (1 / 2) else 1)).prod ∧
      (env.activeEvents = [] →
        env.getResourceProductionModifier type = env.calculateClimateEffect type) ∧
      env.calculateClimateEffect .Wood
        = (if env.currentClimate.currentWeather = .Stormy then 49 / 100 else 1) ∧
      ((env.currentClimate.temperature < 5 ∨ env.currentClimate.temperature > 35) →
        env.currentClimate.currentWeather ≠ .Drought →
        env.currentClimate.currentWeather ≠ .Stormy →
        env.calculateClimateEffect .Food = 1 / 2) ∧
      (env.currentClimate.currentWeather = .Drought →
        5 ≤ env.currentClimate.temperature → env.currentClimate.temperature ≤ 35 →
        env.calculateClimateEffect .Food = 3 / 10) ∧
      (env.currentClimate.currentWeather = .Stormy → type ≠ .Wood →
        (type = .Food → 5 ≤ env.currentClimate.temperature ∧ env.currentClimate.temperature ≤ 35) →
        env.calculateClimateEffect type = 7 / 10) := by
  have hmain : env.getResourceProductionModifier type
      = env.calculateClimateEffect type
        * (env.activeEvents.map (fun event =>
            if getResourceTypeName type ∈ event.affectedResources
            then 1 - event.severity * (1 / 2) else 1)).prod := by
    unfold EnvironmentalSystem.getResourceProductionModifier
    rw [eventEffects_mul, eventEffects_prod, one_mul]
  refine ⟨hmain, ?_, ?_, ?_, ?_, ?_⟩
  · intro h
    rw [hmain, h]
    simp
  · unfold EnvironmentalSystem.calculateClimateEffect
    cases env.currentClimate.currentWeather <;> simp
    all_goals norm_num
  · intro ht hd hs
    unfold EnvironmentalSystem.calculateClimateEffect
    have ht' : env.currentClimate.temperature < 5 ∨ 35 < env.currentClimate.temperature := ht
    cases hw : env.currentClimate.currentWeather <;> simp [hw, ht'] at hd hs ⊢
  · intro hw h5 h35
    unfold EnvironmentalSystem.calculateClimateEffect
    have ht' : ¬ (env.currentClimate.temperature < 5 ∨ 35 < env.currentClimate.temperature) := by
      intro h
      rcases h with h | h <;> linarith
    simp [hw, ht']
  · intro hw hne hfood
    unfold EnvironmentalSystem.calculateClimateEffect
    cases type with
    | Wood => exact absurd rfl hne
    | Food =>
      obtain ⟨h5, h35⟩ := hfood rfl
      have ht' : ¬ (env.currentClimate.temperature < 5 ∨ 35 < env.currentClimate.temperature) := by
        intro h
        rcases h with h | h <;> linarith
      simp [hw, ht']
    | Stone => simp [hw]
    | Metal => simp [hw]
    | Cloth => simp [hw]
    | Tools => simp [hw]

/-- C23 (witness): a heat wave in clear weather with one flood of severity 1/2:
Food is at `0.5 * (1 - 0.5 * 0.5) = 3/8`. -/
theorem getResourceProductionModifier_effects_witness :
    hotFlood.calculateClimateEffect .Food = 1 / 2 ∧
      hotFlood.getResourceProductionModifier .Food
        = hotFlood.calculateClimateEffect .Food
          * (hotFlood.activeEvents.map (fun event =>
              if getResourceTypeName .Food ∈ event.affectedResources
              then 1 - event.severity * (1 / 2) else 1)).prod ∧
      hotFlood.getResourceProductionModifier .Food = 3 / 8 :=
  ⟨(getResourceProductionModifier_effects hotFlood .Food).2.2.2.1 (Or.inr (by decide!))
      (by decide) (by decide),
    (getResourceProductionModifier_effects hotFlood .Food).1, by decide!⟩

/-- C23 (counterexample): under Stormy weather with no active event, at the initial
temperature, the modifier for Wood is 49/100, not 7/10. -/
theorem wood_modifier_under_storm :
    (EnvironmentalSystem.construct.setWeather .Stormy).activeEvents = [] ∧
      (EnvironmentalSystem.construct.setWeather .Stormy).currentClimate.currentWeather = .Stormy ∧
      (EnvironmentalSystem.construct.setWeather .Stormy).getResourceProductionModifier .Wood
        = 49 / 100 ∧
      (EnvironmentalSystem.construct.setWeather .Stormy).getResourceProductionModifier .Wood
        ≠ 7 / 10 := by
  decide!

/-! ## The ageing of contracts (C24) -/

/-- C24: `processContracts(dt)` reduces every duration by `dt`, keeps a contract
exactly when it is recurring or its reduced duration is positive, gives a kept
contract whose reduced duration is not positive the current price of its
resource and the duration 30, and changes no other field; the kept contracts
stay in their order. -/
theorem processContracts_contract (env : EnvironmentalSystem)
    (marketDemands : List (ResourceType × MarketDemand)) (dt : ℚ)
    (contracts : List TradeContract) :
    processContracts env marketDemands dt contracts
        = processContractsSpec (getCurrentPrice env marketDemands) dt contracts ∧
      ((processContracts env marketDemands dt contracts).map TradeContract.terms).Sublist
        (contracts.map TradeContract.terms) ∧
      (processContracts env marketDemands dt contracts).map TradeContract.terms
        = (contracts.filter (fun c => c.isRecurring || decide (0 < c.duration - dt))).map
            TradeContract.terms := by
  have h1 : processContracts env marketDemands dt contracts
      = processContractsSpec (getCurrentPrice env marketDemands) dt contracts := by
    induction contracts with
    | nil => rfl
    | cons c rest ih =>
      unfold processContracts
      simp only []
      rw [ih]
      unfold processContractsSpec
      by_cases hd : c.duration - dt ≤ 0
      · have hd' : c.duration ≤ dt := by linarith
        have hn : ¬ dt < c.duration := not_lt.mpr hd'
        cases hr : c.isRecurring <;> simp [List.filter_cons, hd', hn, hr]
      · have hp : dt < c.duration := by linarith [not_le.mp hd]
        have hd' : ¬ c.duration ≤ dt := not_le.mpr hp
        simp [List.filter_cons, hd', hp]
  have h3 : (processContracts env marketDemands dt contracts).map TradeContract.terms
      = (contracts.filter (fun c => c.isRecurring || decide (0 < c.duration - dt))).map
          TradeContract.terms := by
    rw [h1]
    unfold processContractsSpec
    rw [List.map_map]
    apply List.map_congr_left
    intro c _
    simp only [Function.comp]
    split <;> rfl
  refine ⟨h1, ?_, h3⟩
  rw [h3]
  exact List.Sublist.map _ (List.filter_sublist _)

/-! ## The price update (C25) -/

theorem mapFind_map {K V : Type} [DecidableEq K] (g : K → V → V) (m : List (K × V)) (k : K) :
    mapFind (m.map (fun e => (e.1, g e.1 e.2))) k = (mapFind m k).map (g k) := by
  induction m with
  | nil => rfl
  | cons e rest ih =>
    obtain ⟨k', v⟩ := e
    by_cases h : k' = k
    · simp [mapFind, h]
    · simp [mapFind, h, ih]

theorem foldl_supply (type : ResourceType) (contracts : List TradeContract) :
    ∀ total : ℚ,
      contracts.foldl (fun total contract =>
        if contract.resource = type then total + contract.quantity else total) total
        = total + totalContractSupply contracts type := by
  induction contracts with
  | nil => simp [totalContractSupply]
  | cons c rest ih =>
    intro total
    rw [List.foldl_cons, ih]
    by_cases h : c.resource = type
    · simp [totalContractSupply, List.filter_cons, h] at ih ⊢
      ring
    · simp [totalContractSupply, List.filter_cons, h]

theorem calculateSupplySurplus_eq (marketDemands : List (ResourceType × MarketDemand))
    (activeContracts : List TradeContract) (type : ResourceType) (demand : MarketDemand)
    (h : mapFind marketDemands type = some demand) :
    calculateSupplySurplus marketDemands activeContracts type
      = (totalContractSupply activeContracts type - demand.currentDemand * 100)
        / (demand.currentDemand * 100) := by
  unfold calculateSupplySurplus
  simp only [h, foldl_supply, zero_add]

theorem currentDemand_updateDemands (env : EnvironmentalSystem)
    (marketDemands : List (ResourceType × MarketDemand)) :
    ∀ e ∈ updateDemands env marketDemands, 1 / 2 ≤ e.2.currentDemand ∧ e.2.currentDemand ≤ 2 := by
  intro e he
  simp only [updateDemands, List.mem_map] at he
  obtain ⟨e0, -, he0⟩ := he
  rw [← he0]
  exact clamp_bounds _ (1 / 2) 2 (by norm_num)

/-- C25: after `updatePrices`, for every resource with a market entry, whose demand
and environmental modifier are not zero, the stored `basePrice` is
`clamp(oldBase * (1 + (demand - 1) * elasticity) * (1 / envModifier) * (1 - surplus * 0.1), 1, 100)`
with `surplus = (totalContractSupply - demand * 100) / (demand * 100)`, so it
lies in `[1,100]`; the other fields of the entry are as before.  The demands
that `updatePrices` finds in `updateMarket` are those left by `updateDemands`,
which lie in `[0.5, 2]`. -/
theorem updatePrices_formula (env : EnvironmentalSystem)
    (marketDemands : List (ResourceType × MarketDemand)) (activeContracts : List TradeContract)
    (type : ResourceType) (old : MarketDemand) (hentry : mapFind marketDemands type = some old)
    (hdemand : old.currentDemand ≠ 0) (hmod : env.getResourceProductionModifier type ≠ 0) :
    (∃ new, mapFind (updatePrices env marketDemands activeContracts) type = some new ∧
        new.basePrice
          = clamp (old.basePrice * (1 + (old.currentDemand - 1) * old.elasticity)
              * (1 / env.getResourceProductionModifier type)
              * (1 - (totalContractSupply activeContracts type - old.currentDemand * 100)
                  / (old.currentDemand * 100) * (1 / 10))) 1 100 ∧
        1 ≤ new.basePrice ∧ new.basePrice ≤ 100 ∧
        new.resource = old.resource ∧ new.currentDemand = old.currentDemand ∧
        new.elasticity = old.elasticity) ∧
      (∀ dt e, e ∈ updateDemands env marketDemands →
        (1 / 2 ≤ e.2.currentDemand ∧ e.2.currentDemand ≤ 2) ∧
        ({ marketDemands := marketDemands, activeContracts := activeContracts
            : AdvancedTradeSystem }.updateMarket env dt).marketDemands
          = updatePrices env (updateDemands env marketDemands)
              (processContracts env (updateDemands env marketDemands) dt activeContracts)) := by
  have _ := hdemand
  have _ := hmod
  refine ⟨?_, fun dt e he => ⟨currentDemand_updateDemands env marketDemands e he, rfl⟩⟩
  have hf := mapFind_map (fun k (d : MarketDemand) =>
    { d with basePrice := clamp (d.basePrice * (1 + (d.currentDemand - 1) * d.elasticity)
        * (1 / env.getResourceProductionModifier k)
        * (1 - calculateSupplySurplus marketDemands activeContracts k * (1 / 10))) 1 100 })
    marketDemands type
  rw [hentry] at hf
  refine ⟨_, hf, ?_, ?_, ?_, rfl, rfl, rfl⟩
  · simp only [calculateSupplySurplus_eq marketDemands activeContracts type old hentry]
  · exact (clamp_bounds _ 1 100 (by norm_num)).1
  · exact (clamp_bounds _ 1 100 (by norm_num)).2

/-- C25 (witness): the `Food` entry of the initial market in the initial climate
with no contract: the surplus is `-1` and the price goes from 10 to 11. -/
theorem updatePrices_formula_witness :
    ∃ new, mapFind (updatePrices EnvironmentalSystem.construct initializeMarket []) .Food
        = some new ∧ new.basePrice = 11 ∧ 1 ≤ new.basePrice ∧ new.basePrice ≤ 100 := by
  obtain ⟨new, h1, h2, h3, h4, -⟩ := (updatePrices_formula EnvironmentalSystem.construct
    initializeMarket [] .Food
    { resource := .Food, basePrice := 10, currentDemand := 1, elasticity := 1 / 2 }
    (by decide!) (by decide!) (by decide!)).1
  refine ⟨new, h1, ?_, h3, h4⟩
  rw [h2]
  decide!

/-! ## Technology names stay unique (C26) -/

theorem nodup_updateTechnologyDiffusion (sqrt : ℚ → ℚ) (rng : Nat → ℚ) (vs : List Village)
    (dt : ℚ) (h : ∀ v ∈ vs, v.technologies.Nodup) :
    ∀ v ∈ (updateTechnologyDiffusion sqrt rng vs dt).villages, v.technologies.Nodup := by
  refine updateTechnologyDiffusion_invariant sqrt rng dt
    (fun d => ∀ v ∈ d.villages, v.technologies.Nodup) ?_ vs h
  intro i tech d j hd
  rcases spreadTo_cases sqrt rng i tech dt d j with hsame | ⟨source, target, -, -, ht, hlacks, -, hv, -⟩
  · rw [hsame.1]
    exact hd
  · rw [hv]
    intro v hvmem
    rcases mem_updateAt _ _ _ _ hvmem with hold | ⟨x, hx, hvx⟩
    · exact hd v hold
    · rw [ht] at hx
      have hxt : x = target := (Option.some.inj hx).symm
      rw [hvx, hxt]
      have hnd := hd target (List.getElem?_mem ht)
      show (target.technologies ++ [tech]).Nodup
      rw [List.nodup_append]
      refine ⟨hnd, List.nodup_singleton _, ?_⟩
      intro a ha hb
      rw [List.mem_singleton.mp hb] at ha
      exact hlacks ha

/-- C26: if no village's technology list holds a name twice before `update(dt)`,
then none does after it, for every time step and every sequence of draws: the
per-village step and the settlement of routes leave the lists alone, and
`spreadTechnology` appends a technology to a target only after finding that the
target's list, as it then stands, lacks it. -/
theorem technologies_stay_unique (sqrt : ℚ → ℚ) (rng : Nat → ℚ) (s : MultiVillageSystem)
    (dt : ℚ) (h : ∀ v ∈ s.m_villages, v.technologies.Nodup) :
    ∀ v ∈ (update sqrt rng s dt).m_villages, v.technologies.Nodup := by
  rw [villages_update]
  apply nodup_updateTechnologyDiffusion
  apply forall_of_map_eq (fun v : Village => v.technologies) (fun l => l.Nodup) _ s.m_villages _ h
  rw [map_updateTradeRoutes (fun v : Village => v.technologies) (fun _ _ _ => rfl)
    (fun _ _ _ => rfl), List.map_map]
  rfl

/-- C26 (witness): two villages that know `WaterMill` both offer it to a third
within one tick whose draws are all 0; the third learns it once. -/
theorem technologies_stay_unique_witness :
    (∀ v ∈ twoSources.m_villages, v.technologies.Nodup) ∧
      twoSources.m_villages.map (fun v => v.technologies) = [["WaterMill"], ["WaterMill"], []] ∧
      (update sqrtQ (fun _ => 0) twoSources 1).m_villages.map (fun v => v.technologies)
        = [["WaterMill"], ["WaterMill"], ["WaterMill"]] ∧
      ∀ v ∈ (update sqrtQ (fun _ => 0) twoSources 1).m_villages, v.technologies.Nodup :=
  have h : ∀ v ∈ twoSources.m_villages, v.technologies.Nodup := by decide!
  ⟨h, by decide!, by decide!, technologies_stay_unique sqrtQ (fun _ => 0) twoSources 1 h⟩

/-! ## The direction of trade (C27) -/

theorem calculateRouteSafety_far (sqrt : ℚ → ℚ) (stormy : Bool) (v1 v2 : Village)
    (h : 1000 < calculateDistance sqrt v1 v2) : calculateRouteSafety sqrt stormy v1 v2 = 1 / 10 := by
  unfold calculateRouteSafety
  simp only []
  have hneg : 1 - calculateDistance sqrt v1 v2 / 1000 < 0 := by
    rw [sub_neg, lt_div_iff₀ (by norm_num)]
    linarith
  have hlt : (if stormy = true then (1 - calculateDistance sqrt v1 v2 / 1000) * (7 / 10)
      else 1 - calculateDistance sqrt v1 v2 / 1000) < 1 / 10 := by
    split
    · nlinarith
    · linarith
  unfold clamp
  rw [if_pos hlt]

/-- C27: `calculateTradeVolume` is negative for a route that `createTradeRoute` makes
between two registered villages more than 1000 apart: the safety is clamped to
0.1 but the distance factor `1 - distance/1000` is not clamped, so the volume is
`1 - distance/1000 < 0`.  When such a route carries a resource of which the
source holds a quantity that is not negative, `processTradeRoute` with `dt > 0`
raises the source's stock and lowers the target's. -/
theorem long_route_trades_backwards (sqrt : ℚ → ℚ) (stormy : Bool) (s : MultiVillageSystem)
    (a b : String) (si ti : Nat) (source target : Village) (dt : ℚ) (r : ResourceType)
    (hsi : findVillage s.m_villages a = some si) (hti : findVillage s.m_villages b = some ti)
    (hs : s.m_villages[si]? = some source) (ht : s.m_villages[ti]? = some target)
    (hne : si ≠ ti) (hfar : 1000 < calculateDistance sqrt source target) (hdt : 0 < dt)
    (hstock : 0 ≤ stockAt s.m_villages si r) :
    ∃ route, createTradeRoute sqrt stormy s a b
        = (true, { s with m_tradeRoutes := s.m_tradeRoutes ++ [route] }) ∧
      route.safety = 1 / 10 ∧
      calculateTradeVolume route = 1 - calculateDistance sqrt source target / 1000 ∧
      calculateTradeVolume route < 0 ∧
      stockAt s.m_villages si r
        < stockAt (processTradeRoute { route with tradedResources := [r] } si ti s.m_villages dt)
            si r ∧
      stockAt (processTradeRoute { route with tradedResources := [r] } si ti s.m_villages dt) ti r
        < stockAt s.m_villages ti r := by
  have hsafe := calculateRouteSafety_far sqrt stormy source target hfar
  have hneg : 1 - calculateDistance sqrt source target / 1000 < 0 := by
    rw [sub_neg, lt_div_iff₀ (by norm_num)]
    linarith
  have hvol : ∀ traded : List ResourceType, calculateTradeVolume
      { sourceVillageId := a, targetVillageId := b, tradedResources := traded
        distance := calculateDistance sqrt source target
        safety := calculateRouteSafety sqrt stormy source target, active := true }
      = 1 - calculateDistance sqrt source target / 1000 := by
    intro traded
    simp only [calculateTradeVolume, hsafe]
    ring
  have hlen1 : si < s.m_villages.length := by
    by_contra hc
    rw [List.getElem?_eq_none (not_lt.mp hc)] at hs
    cases hs
  have hlen2 : ti < s.m_villages.length := by
    by_contra hc
    rw [List.getElem?_eq_none (not_lt.mp hc)] at ht
    cases ht
  have hamount : (1 - calculateDistance sqrt source target / 1000) * dt < 0 :=
    mul_neg_of_neg_of_pos hneg hdt
  have hguard : stockAt s.m_villages si r
      ≥ (1 - calculateDistance sqrt source target / 1000) * dt := by linarith
  have hne' : ti ≠ si := fun h => hne h.symm
  have hproc : processTradeRoute
      { sourceVillageId := a, targetVillageId := b, tradedResources := [r]
        distance := calculateDistance sqrt source target
        safety := calculateRouteSafety sqrt stormy source target, active := true }
      si ti s.m_villages dt
      = tradeResource (1 - calculateDistance sqrt source target / 1000) dt si ti s.m_villages r := by
    simp only [processTradeRoute, hvol, List.foldl_cons, List.foldl_nil]
  refine ⟨_, ?_, hsafe, hvol [], by rw [hvol]; exact hneg, ?_, ?_⟩
  · simp only [createTradeRoute, hsi, hti, hs, ht]
  · show _ < stockAt (processTradeRoute
      { sourceVillageId := a, targetVillageId := b, tradedResources := [r]
        distance := calculateDistance sqrt source target
        safety := calculateRouteSafety sqrt stormy source target, active := true }
      si ti s.m_villages dt) si r
    rw [hproc, stockAt_tradeResource _ dt si ti s.m_villages r hlen1 hlen2]
    simp only [hguard, true_and, if_true, hne, if_false]
    linarith
  · show stockAt (processTradeRoute
      { sourceVillageId := a, targetVillageId := b, tradedResources := [r]
        distance := calculateDistance sqrt source target
        safety := calculateRouteSafety sqrt stormy source target, active := true }
      si ti s.m_villages dt) ti r < _
    rw [hproc, stockAt_tradeResource _ dt si ti s.m_villages r hlen1 hlen2]
    simp only [hguard, true_and, if_true, hne', if_false]
    linarith

/-- C27 (witness): the villages of `farPair`, 2000 apart: the route that
`createTradeRoute` makes has volume `-1`. -/
theorem long_route_trades_backwards_witness :
    ∃ route, createTradeRoute sqrtQ false farPair "village_1" "village_2"
        = (true, { farPair with m_tradeRoutes := farPair.m_tradeRoutes ++ [route] }) ∧
      calculateTradeVolume route = -1 ∧ calculateTradeVolume route < 0 := by
  obtain ⟨route, h1, -, h3, h4, -, -⟩ := long_route_trades_backwards sqrtQ false farPair
    "village_1" "village_2" 0 1
    { id := "village_1", name := "A", position := (0, 0), population := 100
      resources := defaultResources, technologies := [], prosperity := 1 / 2, influence := 0
      villageRelations := [] }
    { id := "village_2", name := "B", position := (2000, 0), population := 100
      resources := defaultResources, technologies := [], prosperity := 1 / 2, influence := 0
      villageRelations := [] }
    1 .Tools (by decide!) (by decide!) (by decide!) (by decide!) (by decide) (by decide!)
    (by norm_num) (by decide!)
  refine ⟨route, h1, ?_, h4⟩
  rw [h3]
  decide!

/-! ## The production modifier is never zero (C29) -/

theorem calculateClimateEffect_bounds (env : EnvironmentalSystem) (type : ResourceType) :
    0 < env.calculateClimateEffect type ∧ env.calculateClimateEffect type ≤ 1 := by
  unfold EnvironmentalSystem.calculateClimateEffect
  cases type <;> cases env.currentClimate.currentWeather <;> simp only [] <;>
    (try split_ifs) <;> norm_num

theorem eventFactors_bounds (name : String) (events : List EnvironmentalEvent)
    (hsev : ∀ event ∈ events, 0 ≤ event.severity ∧ event.severity ≤ 1) :
    0 < (events.map (fun event =>
          if name ∈ event.affectedResources then 1 - event.severity * (1 / 2) else 1)).prod ∧
      (events.map (fun event =>
          if name ∈ event.affectedResources then 1 - event.severity * (1 / 2) else 1)).prod ≤ 1 := by
  induction events with
  | nil => simp
  | cons event rest ih =>
    obtain ⟨h0, h1⟩ := ih (fun e he => hsev e (List.mem_cons_of_mem _ he))
    obtain ⟨hs0, hs1⟩ := hsev event (List.mem_cons_self _ _)
    rw [List.map_cons, List.prod_cons]
    have hf : 0 < (if name ∈ event.affectedResources then 1 - event.severity * (1 / 2) else 1) ∧
        (if name ∈ event.affectedResources then 1 - event.severity * (1 / 2) else 1) ≤ (1 : ℚ) := by
      split_ifs
      · constructor <;> linarith
      · constructor <;> norm_num
    exact ⟨mul_pos hf.1 h0, mul_le_one₀ hf.2 (le_of_lt h0) h1⟩

/-- C29: for every resource kind, every climate and every list of active events
whose severities all lie in `[0,1]`, `getResourceProductionModifier` returns a
value in `(0,1]`; so the divisor `envModifier` of `getCurrentPrice` and
`updatePrices` is not zero. -/
theorem modifier_in_unit_interval (env : EnvironmentalSystem) (type : ResourceType)
    (hsev : ∀ event ∈ env.activeEvents, 0 ≤ event.severity ∧ event.severity ≤ 1) :
    0 < env.getResourceProductionModifier type ∧ env.getResourceProductionModifier type ≤ 1 ∧
      env.getResourceProductionModifier type ≠ 0 := by
  have hm : env.getResourceProductionModifier type
      = env.calculateClimateEffect type
        * (env.activeEvents.map (fun event =>
            if getResourceTypeName type ∈ event.affectedResources
            then 1 - event.severity * (1 / 2) else 1)).prod := by
    unfold EnvironmentalSystem.getResourceProductionModifier
    rw [eventEffects_mul, eventEffects_prod, one_mul]
  obtain ⟨hc0, hc1⟩ := calculateClimateEffect_bounds env type
  obtain ⟨he0, he1⟩ := eventFactors_bounds (getResourceTypeName type) env.activeEvents hsev
  rw [hm]
  exact ⟨mul_pos hc0 he0, mul_le_one₀ hc1 (le_of_lt he0) he1, ne_of_gt (mul_pos hc0 he0)⟩

/-- C29 (witness): Food in a heat wave with a flood of severity 1/2 is at 3/8. -/
theorem modifier_in_unit_interval_witness :
    (∀ event ∈ hotFlood.activeEvents, 0 ≤ event.severity ∧ event.severity ≤ 1) ∧
      hotFlood.getResourceProductionModifier .Food = 3 / 8 ∧
      0 < hotFlood.getResourceProductionModifier .Food ∧
      hotFlood.getResourceProductionModifier .Food ≤ 1 ∧
      hotFlood.getResourceProductionModifier .Food ≠ 0 :=
  have h : ∀ event ∈ hotFlood.activeEvents, 0 ≤ event.severity ∧ event.severity ≤ 1 := by decide!
  ⟨h, by decide!, modifier_in_unit_interval hotFlood .Food h⟩

/-! ## The index into a pattern's event sequence (C30) -/

theorem updateStoryArc_generates (sin : ℚ → ℚ) (storyPatterns : List StoryPattern)
    (arc : StoryArc) (dt : ℚ) (pattern : StoryPattern) (progression : ℚ)
    (hp : findPattern storyPatterns arc.name = some pattern)
    (hval : ∀ e, pattern.validationFunc e = true)
    (hprog : arc.progression + dt / ((pattern.minDuration + pattern.maxDuration) * (1 / 2))
      = progression)
    (hlt : arc.events.length < ⌈progression * pattern.eventSequence.length⌉.toNat)
    (hin : arc.events.length < pattern.eventSequence.length) :
    ∃ arc', updateStoryArc sin storyPatterns arc dt = some arc' ∧ arc'.name = arc.name ∧
      arc'.progression = progression ∧ arc'.events.length = arc.events.length + 1 ∧
      arc'.isComplete = arc.isComplete := by
  obtain ⟨nextType, hnext⟩ : ∃ t, pattern.eventSequence[arc.events.length]? = some t :=
    ⟨pattern.eventSequence[arc.events.length], List.getElem?_eq_getElem hin⟩
  have hdur : calculateArcDuration storyPatterns arc
      = (pattern.minDuration + pattern.maxDuration) * (1 / 2) := by
    simp only [calculateArcDuration, hp]
  obtain ⟨grown, hgrown⟩ : ∃ grown : StoryArc, grown = { arc with
      progression := progression
      events := arc.events ++ [patternEvent { arc with progression := progression } nextType] } :=
    ⟨_, rfl⟩
  have hcheck : checkEventTriggers storyPatterns
      { arc with progression := arc.progression + dt / calculateArcDuration storyPatterns arc }
      = some grown := by
    rw [hdur, hprog, hgrown]
    simp only [checkEventTriggers, hp, hlt, if_true, generatePatternEvent, hnext, hval]
  have hnot : ¬ ((updateArcTension sin grown).progression ≥ 1 ∧
      (updateArcTension sin grown).events.all (fun e => !e.requiresResolution) = true) := by
    intro h
    have h2 : grown.events.all (fun e => !e.requiresResolution) = true := h.2
    rw [hgrown] at h2
    simp [patternEvent] at h2
  unfold updateStoryArc
  simp only [hcheck]
  rw [if_neg hnot]
  refine ⟨_, rfl, ?_, ?_, ?_, ?_⟩
  · show grown.name = arc.name
    rw [hgrown]
  · show grown.progression = progression
    rw [hgrown]
  · show grown.events.length = arc.events.length + 1
    rw [hgrown]
    simp
  · show grown.isComplete = arc.isComplete
    rw [hgrown]

theorem updateStoryArc_out_of_range (sin : ℚ → ℚ) (storyPatterns : List StoryPattern)
    (arc : StoryArc) (dt : ℚ) (pattern : StoryPattern) (progression : ℚ)
    (hp : findPattern storyPatterns arc.name = some pattern)
    (hprog : arc.progression + dt / ((pattern.minDuration + pattern.maxDuration) * (1 / 2))
      = progression)
    (hlt : arc.events.length < ⌈progression * pattern.eventSequence.length⌉.toNat)
    (hout : pattern.eventSequence.length ≤ arc.events.length) :
    updateStoryArc sin storyPatterns arc dt = none := by
  have hnext : pattern.eventSequence[arc.events.length]? = none := List.getElem?_eq_none hout
  have hdur : calculateArcDuration storyPatterns arc
      = (pattern.minDuration + pattern.maxDuration) * (1 / 2) := by
    simp only [calculateArcDuration, hp]
  have hcheck : checkEventTriggers storyPatterns
      { arc with progression := arc.progression + dt / calculateArcDuration storyPatterns arc }
      = none := by
    rw [hdur, hprog]
    simp only [checkEventTriggers, hp, hlt, if_true, generatePatternEvent, hnext]
  unfold updateStoryArc
  simp only [hcheck]

/-- Every arc that matches a pattern, holds as many events as the pattern's sequence
has elements and is taken past progression 1 by the tick makes
`generatePatternEvent` read `eventSequence[arc.events.size()]` past the end. -/
theorem full_arc_past_one_out_of_range (sin : ℚ → ℚ) (storyPatterns : List StoryPattern)
    (arc : StoryArc) (dt : ℚ) (pattern : StoryPattern)
    (hp : findPattern storyPatterns arc.name = some pattern)
    (hfull : arc.events.length = pattern.eventSequence.length) (hpos : 0 < arc.events.length)
    (hpast : 1 < arc.progression + dt / ((pattern.minDuration + pattern.maxDuration) * (1 / 2))) :
    updateStoryArc sin storyPatterns arc dt = none := by
  refine updateStoryArc_out_of_range sin storyPatterns arc dt pattern _ hp rfl ?_
    (le_of_eq hfull.symm)
  rw [← hfull, Int.lt_toNat, Int.lt_ceil]
  have hn : (0 : ℚ) < arc.events.length := by exact_mod_cast hpos
  push_cast
  nlinarith

/-- C30: the index `arc.events.size()` that `generatePatternEvent` uses can equal the
length of the pattern's event sequence.  The arc that `createNewStoryArc` makes
from a `Technological` event matches the pattern `Innovation` (three elements,
duration 120).  Two calls of `updateStoryArcs(50)` take it to progression 5/6
with three events and leave it active; the third takes the progression to
5/4, so `expectedEvents = ceil(3.75) = 4 > 3` and `generatePatternEvent` reads
`eventSequence[3]`, past the end.  This holds whatever `std::sin` returns. -/
theorem pattern_index_out_of_range (sin : ℚ → ℚ) :
    createNewStoryArc initializeStoryPatterns [] breakthroughEvent = [innovationArc] ∧
      findPattern initializeStoryPatterns innovationArc.name = some innovationPattern ∧
      innovationPattern.eventSequence.length = 3 ∧
      ∃ arc1 arc2,
        updateStoryArcs sin initializeStoryPatterns [innovationArc] 50 = some [arc1] ∧
        updateStoryArcs sin initializeStoryPatterns [arc1] 50 = some [arc2] ∧
        arc2.name = "Innovation" ∧ arc2.progression = 5 / 6 ∧ arc2.events.length = 3 ∧
        arc2.isComplete = false ∧
        ⌈(arc2.progression + 50 / 120) * 3⌉.toNat = 4 ∧
        generatePatternEvent { arc2 with progression := arc2.progression + 50 / 120 }
          innovationPattern = none ∧
        updateStoryArcs sin initializeStoryPatterns [arc2] 50 = none := by
  have hfind : findPattern initializeStoryPatterns "Innovation" = some innovationPattern := by
    simp [findPattern, initializeStoryPatterns, romancePattern, tradeDisputePattern,
      innovationPattern]
  have hval : ∀ e, innovationPattern.validationFunc e = true := fun _ => rfl
  have hlist : ∀ (arc arc' : StoryArc) (dt : ℚ),
      updateStoryArc sin initializeStoryPatterns arc dt = some arc' → arc'.isComplete = false →
      updateStoryArcs sin initializeStoryPatterns [arc] dt = some [arc'] := by
    intro arc arc' dt h hc
    simp [updateStoryArcs, updateEachArc, h, hc]
  obtain ⟨arc1, h1, hn1, hp1, hl1, hc1⟩ := updateStoryArc_generates sin initializeStoryPatterns
    innovationArc 50 innovationPattern (5 / 12) hfind hval (by decide!) (by decide!) (by decide!)
  have hc1' : arc1.isComplete = false := hc1
  have hn1' : arc1.name = "Innovation" := hn1
  have hl1' : arc1.events.length = 2 := hl1
  obtain ⟨arc2, h2, hn2, hp2, hl2, hc2⟩ := updateStoryArc_generates sin initializeStoryPatterns
    arc1 50 innovationPattern (5 / 6) (by rw [hn1']; exact hfind) hval
    (by rw [hp1]; decide!) (by rw [hl1']; decide!) (by rw [hl1']; decide!)
  have hc2' : arc2.isComplete = false := by rw [hc2]; exact hc1'
  have hn2' : arc2.name = "Innovation" := by rw [hn2]; exact hn1'
  have hl2' : arc2.events.length = 3 := by rw [hl2, hl1']
  have h3 : updateStoryArc sin initializeStoryPatterns arc2 50 = none :=
    full_arc_past_one_out_of_range sin initializeStoryPatterns arc2 50 innovationPattern
      (by rw [hn2']; exact hfind) (by rw [hl2']; rfl) (by rw [hl2']; norm_num)
      (by rw [hp2]; decide!)
  refine ⟨by decide!, hfind, rfl, arc1, arc2, hlist _ _ _ h1 hc1', hlist _ _ _ h2 hc2', hn2', hp2,
    hl2', hc2', ?_, ?_, ?_⟩
  · rw [hp2]
    decide!
  · simp only [generatePatternEvent, hl2']
    rfl
  · simp [updateStoryArcs, updateEachArc, h3]

/-! ## Stocks in the states that the public operations reach (C1) -/

theorem population_updateTechnologyDiffusion (sqrt : ℚ → ℚ) (rng : Nat → ℚ) (vs : List Village)
    (dt : ℚ) :
    (updateTechnologyDiffusion sqrt rng vs dt).villages.map (fun v => (v.population, v.resources))
      = vs.map (fun v => (v.population, v.resources)) := by
  refine updateTechnologyDiffusion_invariant sqrt rng dt
    (fun d => d.villages.map (fun v => (v.population, v.resources))
      = vs.map (fun v => (v.population, v.resources))) ?_ vs rfl
  intro i tech d j hd
  rcases spreadTo_cases sqrt rng i tech dt d j with hsame | ⟨_, _, -, -, -, -, -, hv, -⟩
  · rw [hsame.1]
    exact hd
  · rw [hv, map_updateAt_of_eq (fun v : Village => (v.population, v.resources))
      (fun v => { v with technologies := v.technologies ++ [tech] }) (fun _ => rfl)]
    exact hd

theorem population_update (sqrt : ℚ → ℚ) (rng : Nat → ℚ) (s : MultiVillageSystem) (dt : ℚ)
    (h : ∀ r ∈ s.m_tradeRoutes, r.tradedResources = []) :
    (update sqrt rng s dt).m_villages.map (fun v => (v.population, v.resources))
      = s.m_villages.map (fun v =>
          ((updateVillage sqrt s.m_villages.length v dt).population,
            (updateVillage sqrt s.m_villages.length v dt).resources)) := by
  rw [villages_update, updateTradeRoutes_of_empty _ _ _ h, population_updateTechnologyDiffusion,
    List.map_map]
  rfl

theorem updateVillage_resources_nonneg (sqrt : ℚ → ℚ) (n : Nat) (v : Village) (dt : ℚ) :
    ∀ e ∈ (updateVillage sqrt n v dt).resources, 0 ≤ e.2 := by
  intro e he
  have hr : (updateVillage sqrt n v dt).resources
      = (updateResources sqrt (updatePopulation v dt) dt).resources := rfl
  rw [hr] at he
  simp only [updateResources, List.mem_map] at he
  obtain ⟨e0, -, he0⟩ := he
  rw [← he0]
  exact le_max_left _ _

theorem stocked_update (sqrt : ℚ → ℚ) (rng : Nat → ℚ) (s : MultiVillageSystem) (dt : ℚ)
    (h : ∀ r ∈ s.m_tradeRoutes, r.tradedResources = []) : (update sqrt rng s dt).stocked := by
  refine ⟨h, ?_⟩
  refine forall_of_map_eq (fun v : Village => (v.population, v.resources))
    (fun p => ∀ e ∈ p.2, 0 ≤ e.2) _
    (s.m_villages.map (fun v => updateVillage sqrt s.m_villages.length v dt)) ?_ ?_
  · rw [population_update sqrt rng s dt h, List.map_map]
    rfl
  · intro w hw
    obtain ⟨v, -, hvw⟩ := List.mem_map.mp hw
    rw [← hvw]
    exact updateVillage_resources_nonneg sqrt s.m_villages.length v dt

theorem stocked_addVillage (s : MultiVillageSystem) (name : String) (position : ℚ × ℚ)
    (h : s.stocked) : (addVillage s name position).stocked := by
  refine ⟨h.1, ?_⟩
  intro v hv
  simp only [addVillage, List.mem_append, List.mem_singleton] at hv
  rcases hv with hv | hv
  · exact h.2 v hv
  · rw [hv]
    show ∀ e ∈ defaultResources, 0 ≤ e.2
    decide!

theorem stocked_createTradeRoute (sqrt : ℚ → ℚ) (stormy : Bool) (s : MultiVillageSystem)
    (a b : String) (h : s.stocked) : (createTradeRoute sqrt stormy s a b).2.stocked := by
  unfold createTradeRoute
  split
  · split
    · refine ⟨?_, h.2⟩
      intro r hr
      simp only [List.mem_append, List.mem_singleton] at hr
      rcases hr with hr | hr
      · exact h.1 r hr
      · rw [hr]
    · exact h
  · exact h

theorem stocked_createDiplomaticAgreement (s : MultiVillageSystem) (a b : String)
    (type : AgreementType) (h : s.stocked) : (createDiplomaticAgreement s a b type).2.stocked := by
  unfold createDiplomaticAgreement
  split
  · exact h
  · exact h

theorem stocked_construct (counter : Nat) : (MultiVillageSystem.construct counter).stocked :=
  stocked_addVillage _ _ _ (stocked_addVillage _ _ _ (stocked_addVillage _ _ _
    ⟨fun _ hr => (by cases hr), fun _ hv => (by cases hv)⟩))

theorem stocked_run (sqrt : ℚ → ℚ) :
    ∀ (calls : List CoordinatorCall) (s : MultiVillageSystem), s.stocked →
      (s.run sqrt calls).stocked
  | [], _, h => h
  | .addVillage name position :: rest, s, h =>
    stocked_run sqrt rest _ (stocked_addVillage s name position h)
  | .createTradeRoute stormy source target :: rest, s, h =>
    stocked_run sqrt rest _ (stocked_createTradeRoute sqrt stormy s source target h)
  | .createDiplomaticAgreement village1 village2 type :: rest, s, h =>
    stocked_run sqrt rest _ (stocked_createDiplomaticAgreement s village1 village2 type h)
  | .update deltaTime rng :: rest, s, h =>
    stocked_run sqrt rest _ (stocked_update sqrt rng s deltaTime h.1)

/-- C1: in every state reached from a newly constructed system by any sequence of
`addVillage`, `createTradeRoute`, `createDiplomaticAgreement` and `update`
calls, every resource quantity of every village is `>= 0`, and it is so again
after a further `update(dt)`, for every `dt` and every sequence of draws.
`updateResources` clamps each quantity at 0, and the settlement step moves
nothing, because a route made by `createTradeRoute` carries no resource,
whatever its distance.  For any state at all, `update(dt)` with `dt >= 0`
leaves every quantity `>= 0` when no active route has a negative trade volume,
whatever the traded-resource lists are. -/
theorem stocks_stay_nonnegative (sqrt : ℚ → ℚ) (counter : Nat) (calls : List CoordinatorCall) :
    stocksNonneg ((MultiVillageSystem.construct counter).run sqrt calls).m_villages ∧
      (∀ (dt : ℚ) (rng : Nat → ℚ),
        stocksNonneg (update sqrt rng ((MultiVillageSystem.construct counter).run sqrt calls)
          dt).m_villages) ∧
      (∀ r ∈ ((MultiVillageSystem.construct counter).run sqrt calls).m_tradeRoutes,
        r.tradedResources = []) ∧
      (∀ (s : MultiVillageSystem) (dt : ℚ) (rng : Nat → ℚ), 0 ≤ dt →
        (∀ r ∈ s.m_tradeRoutes, r.active = true → 0 ≤ calculateTradeVolume r) →
        stocksNonneg (update sqrt rng s dt).m_villages) := by
  have h := stocked_run sqrt calls _ (stocked_construct counter)
  exact ⟨h.2, fun dt rng => (stocked_update sqrt rng _ dt h.1).2, h.1,
    fun s dt rng hdt hvol => update_stocksNonneg sqrt rng s dt hdt hvol⟩

/-- C1 (witness): a village is added 5000 away from `village_1`, a route is made
between the two and a tick of length 1 is run; the route has a negative trade
volume and carries nothing, and no village holds a negative quantity.  In
`nearSystem`, whose route carries `Food` with volume 5/2, a tick leaves no
negative quantity either. -/
theorem stocks_stay_nonnegative_witness :
    (((MultiVillageSystem.construct 0).run sqrtQ
        [.addVillage "Far" (5000, 0), .createTradeRoute false "village_1" "village_4"]
        ).m_tradeRoutes.map (fun r => (r.distance, calculateTradeVolume r, r.tradedResources))
        = [(5000, -4, [])]) ∧
      stocksNonneg ((MultiVillageSystem.construct 0).run sqrtQ
        [.addVillage "Far" (5000, 0), .createTradeRoute false "village_1" "village_4",
          .update 1 (fun _ => 0)]).m_villages ∧
      ((0 : ℚ) ≤ 1 ∧ ∀ r ∈ nearSystem.m_tradeRoutes, r.active = true → 0 ≤ calculateTradeVolume r) ∧
      stocksNonneg (update sqrtQ (fun _ => 0) nearSystem 1).m_villages :=
  have hvol : ∀ r ∈ nearSystem.m_tradeRoutes, r.active = true → 0 ≤ calculateTradeVolume r := by
    decide!
  ⟨by decide!,
    (stocks_stay_nonnegative sqrtQ 0
      [.addVillage "Far" (5000, 0), .createTradeRoute false "village_1" "village_4",
        .update 1 (fun _ => 0)]).1,
    ⟨by norm_num, hvol⟩,
    (stocks_stay_nonnegative sqrtQ 0 []).2.2.2 nearSystem 1 (fun _ => 0) (by norm_num) hvol⟩

/-! ## Population growth (C28) -/

theorem sizeCast_of_range (x : ℚ) (h0 : 0 ≤ x) (h1 : x < 2 ^ 64) : sizeCast x = ⌊x⌋.toNat := by
  unfold sizeCast
  rw [if_pos ⟨h0, h1⟩]

theorem val_sizeAdd_of_lt (a : Fin (2 ^ 64)) (b : Nat) (h : a.val + b < 2 ^ 64) :
    (sizeAdd a b).val = a.val + b := by
  simp only [sizeAdd]
  exact Nat.mod_eq_of_lt h

theorem updateVillage_population (sqrt : ℚ → ℚ) (n : Nat) (v : Village) (dt : ℚ) :
    (updateVillage sqrt n v dt).population
      = sizeAdd v.population (sizeCast (calculateGrowthRate v * dt)) := rfl

theorem calculateGrowthRate_nonneg (v : Village) (h : ∀ e ∈ v.resources, 0 ≤ e.2) :
    0 ≤ calculateGrowthRate v := by
  unfold calculateGrowthRate
  have hf : 0 ≤ v.stock .Food := mapGet_nonneg _ _ h
  have ht : 0 ≤ v.stock .Tools := mapGet_nonneg _ _ h
  have hp : (0 : ℚ) ≤ v.population := Nat.cast_nonneg _
  exact mul_nonneg (mul_nonneg (by norm_num) (div_nonneg hf hp)) (div_nonneg ht hp)

theorem population_of_fit (sqrt : ℚ → ℚ) (n : Nat) (v : Village) (dt : ℚ)
    (h0 : 0 ≤ calculateGrowthRate v * dt)
    (hfit : (v.population : ℚ) + calculateGrowthRate v * dt < 2 ^ 64) :
    ((updateVillage sqrt n v dt).population : ℕ)
      = (v.population : ℕ) + ⌊calculateGrowthRate v * dt⌋.toNat := by
  have hp : (0 : ℚ) ≤ v.population := Nat.cast_nonneg _
  have hx : calculateGrowthRate v * dt < 2 ^ 64 := by linarith
  rw [updateVillage_population, sizeCast_of_range _ h0 hx]
  apply val_sizeAdd_of_lt
  have hfl : ((⌊calculateGrowthRate v * dt⌋.toNat : ℕ) : ℚ) ≤ calculateGrowthRate v * dt := by
    have h1 : ((⌊calculateGrowthRate v * dt⌋.toNat : ℕ) : ℤ) = ⌊calculateGrowthRate v * dt⌋ :=
      Int.toNat_of_nonneg (Int.floor_nonneg.mpr h0)
    have h2 : ((⌊calculateGrowthRate v * dt⌋.toNat : ℕ) : ℚ)
        = ((⌊calculateGrowthRate v * dt⌋ : ℤ) : ℚ) := by
      rw [← h1]
      push_cast
      rfl
    rw [h2]
    exact Int.floor_le _
  have hq : (((v.population : ℕ) + ⌊calculateGrowthRate v * dt⌋.toNat : ℕ) : ℚ) < 2 ^ 64 := by
    push_cast
    linarith
  exact_mod_cast hq

theorem populated_update (sqrt : ℚ → ℚ) (rng : Nat → ℚ) (s : MultiVillageSystem) (dt : ℚ)
    (hs : s.stocked) (hp : s.populated) (hdt : 0 ≤ dt) (hfit : s.growthFits dt) :
    (update sqrt rng s dt).populated := by
  refine forall_of_map_eq (fun v : Village => (v.population, v.resources))
    (fun p => 100 ≤ p.1) _
    (s.m_villages.map (fun v => updateVillage sqrt s.m_villages.length v dt)) ?_ ?_
  · rw [population_update sqrt rng s dt hs.1, List.map_map]
    rfl
  · intro w hw
    obtain ⟨v, hv, hvw⟩ := List.mem_map.mp hw
    rw [← hvw]
    show 100 ≤ (updateVillage sqrt s.m_villages.length v dt).population
    have h0 : 0 ≤ calculateGrowthRate v * dt :=
      mul_nonneg (calculateGrowthRate_nonneg v (hs.2 v hv)) hdt
    have hval := population_of_fit sqrt s.m_villages.length v dt h0 (hfit v hv)
    have h100 : (100 : ℕ) ≤ (v.population : ℕ) := hp v hv
    rw [Fin.le_def]
    rw [hval]
    exact le_trans h100 (Nat.le_add_right _ _)

theorem populated_addVillage (s : MultiVillageSystem) (name : String) (position : ℚ × ℚ)
    (h : s.populated) : (addVillage s name position).populated := by
  intro v hv
  simp only [addVillage, List.mem_append, List.mem_singleton] at hv
  rcases hv with hv | hv
  · exact h v hv
  · rw [hv]
    exact le_refl _

theorem populated_createTradeRoute (sqrt : ℚ → ℚ) (stormy : Bool) (s : MultiVillageSystem)
    (a b : String) (h : s.populated) : (createTradeRoute sqrt stormy s a b).2.populated := by
  unfold createTradeRoute
  split
  · split
    · exact h
    · exact h
  · exact h

theorem populated_createDiplomaticAgreement (s : MultiVillageSystem) (a b : String)
    (type : AgreementType) (h : s.populated) :
    (createDiplomaticAgreement s a b type).2.populated := by
  unfold createDiplomaticAgreement
  split
  · exact h
  · exact h

theorem populated_construct (counter : Nat) : (MultiVillageSystem.construct counter).populated :=
  populated_addVillage _ _ _ (populated_addVillage _ _ _ (populated_addVillage _ _ _
    (fun _ hv => (by cases hv))))

theorem populated_run (sqrt : ℚ → ℚ) :
    ∀ (calls : List CoordinatorCall) (s : MultiVillageSystem), s.stocked → s.populated →
      s.runFits sqrt calls → (s.run sqrt calls).populated
  | [], _, _, hp, _ => hp
  | .addVillage name position :: rest, s, hs, hp, hf =>
    populated_run sqrt rest _ (stocked_addVillage s name position hs)
      (populated_addVillage s name position hp) hf
  | .createTradeRoute stormy source target :: rest, s, hs, hp, hf =>
    populated_run sqrt rest _ (stocked_createTradeRoute sqrt stormy s source target hs)
      (populated_createTradeRoute sqrt stormy s source target hp) hf
  | .createDiplomaticAgreement village1 village2 type :: rest, s, hs, hp, hf =>
    populated_run sqrt rest _ (stocked_createDiplomaticAgreement s village1 village2 type hs)
      (populated_createDiplomaticAgreement s village1 village2 type hp) hf
  | .update deltaTime rng :: rest, s, hs, hp, hf =>
    populated_run sqrt rest _ (stocked_update sqrt rng s deltaTime hs.1)
      (populated_update sqrt rng s deltaTime hs hp hf.1 hf.2.1) hf.2.2

theorem forall₂_of_map_eq_of_mem {α β γ : Type} (p : α → γ) (q : β → γ) (Q : α → Prop) :
    ∀ (xs : List α) (ys : List β), (∀ x ∈ xs, Q x) → ys.map q = xs.map p →
      List.Forall₂ (fun x y => Q x ∧ q y = p x) xs ys
  | [], [], _, _ => List.Forall₂.nil
  | [], _ :: _, _, h => by simp at h
  | _ :: _, [], _, h => by simp at h
  | x :: xs, y :: ys, hQ, h => by
    simp only [List.map_cons, List.cons.injEq] at h
    exact List.Forall₂.cons ⟨hQ x (List.mem_cons_self _ _), h.1⟩
      (forall₂_of_map_eq_of_mem p q Q xs ys (fun z hz => hQ z (List.mem_cons_of_mem _ hz)) h.2)

/-- C28 (amended): take any sequence of `addVillage`, `createTradeRoute`,
`createDiplomaticAgreement` and `update` calls on a newly constructed system in
which every `update` has `dt >= 0` and a growth that keeps every population
below `2^64`, the range of `size_t`.  In the state it reaches every village has
at least 100 inhabitants, so no division by the population is a division by
zero, and no negative stock.  A further `update(dt)` with `dt >= 0` keeps
every village in its place; the growth
`0.1 * (food/population) * (tools/population) * dt` is not negative, and for a
village whose population plus this growth is below `2^64` the tick adds the
truncation toward zero of the growth to the population, which does not
decrease. -/
theorem population_grows_within_size (sqrt : ℚ → ℚ) (counter : Nat)
    (calls : List CoordinatorCall)
    (hfits : (MultiVillageSystem.construct counter).runFits sqrt calls) :
    (∀ v ∈ ((MultiVillageSystem.construct counter).run sqrt calls).m_villages,
        100 ≤ v.population ∧ (v.population : ℚ) ≠ 0 ∧ ∀ e ∈ v.resources, 0 ≤ e.2) ∧
      (∀ (dt : ℚ) (rng : Nat → ℚ), 0 ≤ dt →
        List.Forall₂ (fun v v' =>
            (0 ≤ calculateGrowthRate v * dt ∧
              calculateGrowthRate v
                = 1 / 10 * (v.stock .Food / v.population) * (v.stock .Tools / v.population)) ∧
            ((v.population : ℚ) + calculateGrowthRate v * dt < 2 ^ 64 →
              ((v'.population : ℕ) : ℤ)
                  = (v.population : ℕ) + truncate (calculateGrowthRate v * dt) ∧
                v.population ≤ v'.population))
          ((MultiVillageSystem.construct counter).run sqrt calls).m_villages
          (update sqrt rng ((MultiVillageSystem.construct counter).run sqrt calls)
            dt).m_villages) := by
  have hs := stocked_run sqrt calls _ (stocked_construct counter)
  have hp := populated_run sqrt calls _ (stocked_construct counter) (populated_construct counter)
    hfits
  constructor
  · intro v hv
    refine ⟨hp v hv, ?_, hs.2 v hv⟩
    have h100 : (100 : ℕ) ≤ (v.population : ℕ) := hp v hv
    have hpos : (0 : ℚ) < ((v.population : ℕ) : ℚ) := by
      have : 0 < (v.population : ℕ) := by omega
      exact_mod_cast this
    exact ne_of_gt hpos
  · intro dt rng hdt
    have hm := congrArg (List.map Prod.fst) (population_update sqrt rng _ dt hs.1)
    simp only [List.map_map, Function.comp_def] at hm
    have hf := forall₂_of_map_eq_of_mem
      (fun v : Village => (updateVillage sqrt
        ((MultiVillageSystem.construct counter).run sqrt calls).m_villages.length v dt).population)
      (fun v' : Village => v'.population)
      (fun v : Village => ∀ e ∈ v.resources, 0 ≤ e.2) _ _ (fun v hv => hs.2 v hv) hm
    refine List.Forall₂.imp ?_ hf
    intro v v' hvv
    obtain ⟨hres, hpop'⟩ := hvv
    have hpop : v'.population = (updateVillage sqrt
        ((MultiVillageSystem.construct counter).run sqrt calls).m_villages.length v dt).population :=
      hpop'
    have hg : 0 ≤ calculateGrowthRate v * dt := mul_nonneg (calculateGrowthRate_nonneg v hres) hdt
    refine ⟨⟨hg, rfl⟩, ?_⟩
    intro hfit
    have hval := population_of_fit sqrt
      ((MultiVillageSystem.construct counter).run sqrt calls).m_villages.length v dt hg hfit
    rw [← hpop] at hval
    constructor
    · rw [hval]
      unfold truncate
      rw [if_pos hg]
      push_cast
      rw [Int.toNat_of_nonneg (Int.floor_nonneg.mpr hg)]
    · rw [Fin.le_def, hval]
      exact Nat.le_add_right _ _

/-- C28 (witness): on a newly constructed system, `update(10)` takes every village
from 100 to 105 inhabitants, `0.1 * (1000/100) * (50/100) * 10` being 5, and
every village then has at least 100 inhabitants. -/
theorem population_grows_within_size_witness :
    (MultiVillageSystem.construct 0).runFits sqrtQ [.update 10 (fun _ => 0)] ∧
      (MultiVillageSystem.construct 0).m_villages.map (fun v => v.population) = [100, 100, 100] ∧
      ((MultiVillageSystem.construct 0).run sqrtQ [.update 10 (fun _ => 0)]).m_villages.map
        (fun v => v.population) = [105, 105, 105] ∧
      ∀ v ∈ ((MultiVillageSystem.construct 0).run sqrtQ [.update 10 (fun _ => 0)]).m_villages,
        100 ≤ v.population ∧ (v.population : ℚ) ≠ 0 ∧ ∀ e ∈ v.resources, 0 ≤ e.2 :=
  have hfits : (MultiVillageSystem.construct 0).runFits sqrtQ [.update 10 (fun _ => 0)] :=
    ⟨by norm_num, by
      show ∀ v ∈ (MultiVillageSystem.construct 0).m_villages,
        (v.population : ℚ) + calculateGrowthRate v * 10 < 2 ^ 64
      decide!, trivial⟩
  ⟨hfits, by decide!, by decide!,
    (population_grows_within_size sqrtQ 0 [.update 10 (fun _ => 0)] hfits).1⟩

/-- C28 (counterexample): on a newly constructed system with `dt = 4 * 10^19` the
growth of every village is `0.5 * 4 * 10^19 = 2 * 10^19`, more than the largest
value of `size_t`, so no population can be 100 plus the truncation of the
growth; the conversion to `size_t` is undefined for this value, and with the
result 0 the populations stay at 100. -/
theorem growth_beyond_size :
    (MultiVillageSystem.construct 0).m_villages.map
        (fun v => (v.population, calculateGrowthRate v * 40000000000000000000,
          truncate (calculateGrowthRate v * 40000000000000000000)))
        = [(100, 20000000000000000000, 20000000000000000000),
           (100, 20000000000000000000, 20000000000000000000),
           (100, 20000000000000000000, 20000000000000000000)] ∧
      ((2 : ℚ) ^ 64 ≤ 20000000000000000000) ∧
      (∀ population : Fin (2 ^ 64),
        ((population : ℕ) : ℤ) ≠ (100 : ℕ) + (20000000000000000000 : ℤ)) ∧
      (update sqrtQ (fun _ => 0) (MultiVillageSystem.construct 0)
        40000000000000000000).m_villages.map (fun v => v.population) = [100, 100, 100] := by
  refine ⟨by decide!, by norm_num, ?_, by decide!⟩
  intro population h
  have hlt := population.isLt
  omega

end Forge
